import Mathlib

/-!
# PARAOS front end: pill state machine, streaming translation and file upload

A shallow embedding of the parts of `src/frontend/app.js` that drive the command
pill, the streaming translation session and the document upload:

* the module-level variables `state`, `pillState` and the DOM nodes held in `els`
  are the fields of `Page`;
* every call of `translateText` that reaches `new EventSource` creates one closure
  (`eventSource`, `fullTranslation`, `displayedText`, `pendingWords`,
  `typingInterval`, the fail-safe timer); it is a `Session`, and the sessions are
  kept in creation order, so a connection is named by its index;
* every call of `handleDocumentUpload` that passes validation creates one closure
  (`file`, `startTime`, `timerInterval`); it is an `Upload`, and the function is cut at
  its two `await`s into the parts that run when each promise settles;
* the browser event loop is a sequence of `Event`s handled one at a time by `step`.

The page elements looked up once in `els` are taken to exist (the markup declaring
them is not part of the source), so the `if (els.x)` guards are passed.
Callbacks that a `gsap.timeline()` runs after its first tween are kept in
`Page.timelines` until the event that fires them; tweens themselves (scale, shadow,
opacity) are not modelled.
-/

namespace Paraos

/-! ## JavaScript string helpers -/

/-- ECMAScript WhiteSpace and LineTerminator code points: the characters stripped by
`String.prototype.trim` and matched by the regular expression class `\s`. -/
def isJsSpace (c : Char) : Bool :=
  let n := c.toNat
  n == 0x09 || n == 0x0A || n == 0x0B || n == 0x0C || n == 0x0D || n == 0x20 ||
  n == 0xA0 || n == 0x1680 || (0x2000 ≤ n && n ≤ 0x200A) || n == 0x2028 ||
  n == 0x2029 || n == 0x202F || n == 0x205F || n == 0x3000 || n == 0xFEFF

/-- The method `String.prototype.trim`. -/
def jsTrim (s : String) : String :=
  String.mk ((s.toList.dropWhile isJsSpace).reverse.dropWhile isJsSpace).reverse

/-- The worker of `splitWs`: `cur` is the piece being read (reversed), `inSep` tells
that the previous character belonged to a separator run. -/
def splitWsAux : List Char → Bool → List Char → List String
  | cur, _, [] => [String.mk cur.reverse]
  | cur, inSep, c :: rest =>
    if isJsSpace c then
      if inSep then splitWsAux cur true rest
      else String.mk cur.reverse :: splitWsAux [] true rest
    else splitWsAux (c :: cur) false rest

/-- The call `s.split(/\s+/)`: the pieces between maximal runs of whitespace, the
empty pieces before a leading run and after a trailing run included. -/
def splitWs (s : String) : List String := splitWsAux [] false s.toList

/-- The expression `token.split(/\s+/).filter(w => w.length > 0)`. -/
def tokenWords (token : String) : List String :=
  (splitWs token).filter (fun w => w ≠ "")

/-- The property `length` of a JavaScript string: UTF-16 code units. -/
def jsLength (s : String) : Nat :=
  (s.toList.map (fun c => if c.toNat < 0x10000 then 1 else 2)).sum

/-- UTF-8 encoding of one code point, as byte values. -/
def utf8Bytes (c : Char) : List Nat :=
  let n := c.toNat
  if n < 0x80 then [n]
  else if n < 0x800 then [0xC0 + n / 64, 0x80 + n % 64]
  else if n < 0x10000 then [0xE0 + n / 4096, 0x80 + n / 64 % 64, 0x80 + n % 64]
  else [0xF0 + n / 262144, 0x80 + n / 4096 % 64, 0x80 + n / 64 % 64, 0x80 + n % 64]

/-- One upper-case hexadecimal digit. -/
def hexDigit (n : Nat) : Char :=
  if n < 10 then Char.ofNat (48 + n) else Char.ofNat (55 + n)

/-- The escape `%XX` of one byte. -/
def percentByte (b : Nat) : List Char := ['%', hexDigit (b / 16), hexDigit (b % 16)]

/-- Characters that `encodeURIComponent` leaves as they are: ASCII letters, digits and
the marks `- _ . ! ~ * ' ( )`. -/
def isUriUnreserved (c : Char) : Bool :=
  let n := c.toNat
  (65 ≤ n && n ≤ 90) || (97 ≤ n && n ≤ 122) || (48 ≤ n && n ≤ 57) ||
  n == 45 || n == 95 || n == 46 || n == 33 || n == 126 || n == 42 || n == 39 ||
  n == 40 || n == 41

/-- The global function `encodeURIComponent` (a Lean string holds no lone surrogate, so
the call cannot throw). -/
def encodeURIComponent (s : String) : String :=
  String.mk (s.toList.flatMap (fun c =>
    if isUriUnreserved c then [c] else (utf8Bytes c).flatMap percentByte))

/-! ## Data model -/

/-- The parsed `event.data` of a stream message. An absent or falsy field reads as
`""`, `false` or `none`. The record covers the messages whose `inference_time_ms` is a
number and whose `token` is a string or absent: a completion without `inference_time_ms`
(shown as `undefinedms` by the code) and a `token` that is `null` or not a string are
outside it. -/
structure StreamData where
  error : String
  done : Bool
  full_text : String
  inference_time_ms : Nat
  token : Option String
  deriving DecidableEq, Repr

/-- A callback queued on a `gsap.timeline()` (or an `onComplete`, or a `setTimeout` of
the pill handlers) that has not run yet. -/
inductive Deferred
  /-- Phase 2 of `expandPillWithResult(inputText, translation)`. -/
  | expandResult (inputText translation : String)
  /-- Phase 2 of `setIslandState` for `result`, `voice`, `language`: add the class. -/
  | islandEnter (cls : String)
  /-- Phase 2 of `setIslandState` in its default case. -/
  | islandDefault (previousState : String)
  /-- The `onComplete` of the tween started by `collapsePill`. -/
  | collapseComplete
  /-- The 150 ms `setTimeout` of a language picker item: `setIslandState('default')`. -/
  | langCollapse
  /-- The `onComplete` of the tween started by `DynamicIslandVisualizer.stop()`. -/
  | visualizerStop
  deriving DecidableEq, Repr

/-- Module-level state and the DOM nodes of `els`. -/
structure Page where
  /-- The constant `CONFIG.apiBase`. -/
  apiBase : String
  /-- The flag `state.isTranslating`. -/
  isTranslating : Bool
  /-- The reference `state.activeEventSource`: the index of the session whose
  connection it points to. -/
  activeEventSource : Option Nat
  /-- The setting `state.settings.tts`. -/
  settingsTts : Bool
  /-- The value `els.input.value`. -/
  inputValue : String
  /-- The value `els.langSelect.value`. -/
  langSelect : String
  /-- The property `els.runBtn.disabled`. -/
  runBtnDisabled : Bool
  /-- The property `els.runBtn.innerHTML`. -/
  runBtnHTML : String
  /-- The variable `pillState`. -/
  pillState : String
  /-- The class list of `els.commandBox`. -/
  boxClasses : List String
  /-- Whether `els.pillDismissOverlay` carries the class `active`. -/
  overlayActive : Bool
  /-- The text of `els.pillInputHeader`. -/
  pillInputHeader : String
  /-- The text of `els.pillResultContent`. -/
  pillResultContent : String
  /-- Whether `els.pillResultContent` carries the class `typing`. -/
  contentTyping : Bool
  /-- The text of `els.pillTimeBadge`. -/
  pillTimeBadge : String
  /-- Timeline callbacks not yet run. -/
  timelines : List Deferred
  /-- Texts handed to `speechSynthesis.speak`. -/
  spoken : List String
  /-- Number of calls of `updateLiveStats`; each one fetches `/api/stats`. -/
  statsRefreshes : Nat
  /-- The value of the file selection control `file-input` (empty when no file is
  selected). -/
  fileInputValue : String
  /-- Number of `POST` requests sent to `/api/translate-file` by
  `handleDocumentUpload`. -/
  uploadRequests : Nat
  /-- Texts handed to `showToast`. -/
  toasts : List String
  /-- The flag `state.isRecording`. -/
  isRecording : Bool
  /-- Whether `els.micBtn` carries the class `active`. -/
  micBtnActive : Bool
  /-- Number of `getUserMedia` promises of `startSpeechRecognition` not yet settled. -/
  micPending : Nat
  /-- Number of recognitions started by `recognition.start()` that have not ended. -/
  recognitions : Nat
  deriving DecidableEq, Repr

/-- The closure of one `translateText` call that constructed its `EventSource`. -/
structure Session where
  /-- The URL given to `new EventSource`. -/
  streamUrl : String
  /-- The connection has not been closed (`eventSource.close()` not called). -/
  esOpen : Bool
  /-- The timer `failsafeTimeout` is pending: neither fired nor cleared. -/
  failsafeArmed : Bool
  /-- The value `startTime`. -/
  startTime : Nat
  /-- The variable `fullTranslation`. -/
  fullTranslation : String
  /-- The variable `displayedText`. -/
  displayedText : String
  /-- The variable `pendingWords`. -/
  pendingWords : List String
  /-- The variable `typingInterval` is non-null. -/
  typingInterval : Bool
  /-- The interval created by `setInterval` has not been cleared. -/
  intervalRunning : Bool
  deriving DecidableEq, Repr

/-- The `File` object handed to `handleDocumentUpload`. -/
structure UploadFile where
  /-- The property `file.name`. -/
  name : String
  /-- The property `file.size`, in bytes. -/
  size : Nat
  deriving DecidableEq, Repr

/-- The parsed body of a response of `/api/translate-file`. An absent or falsy string
field reads as `""`, an absent `success` as `false`, an absent `chars_processed` as
`none`. -/
structure UploadData where
  success : Bool
  translated_content : String
  translated_text : String
  translation : String
  chars_processed : Option Nat
  detail : String
  error : String
  deriving DecidableEq, Repr

/-- The closure of one `handleDocumentUpload` call that passed validation. -/
structure Upload where
  /-- The argument `file`. -/
  file : UploadFile
  /-- The constant `targetLang` appended to the form data. -/
  targetLang : String
  /-- The constant `startTime`. -/
  startTime : Nat
  /-- The interval `timerInterval` has not been cleared. -/
  timerRunning : Bool
  /-- The call is suspended at `await fetch(...)`. -/
  awaitingFetch : Bool
  /-- The call is suspended at `await response.json()`. -/
  awaitingJson : Bool
  deriving DecidableEq, Repr

/-- The whole application: the page, the session closures in creation order and the
upload closures in creation order. -/
structure App where
  page : Page
  sessions : List Session
  uploads : List Upload
  deriving DecidableEq, Repr

/-- What a handler defined inside `translateText` can reach: the page and its own
closure. -/
abbrev Ctx := Page × Session

/-- The label `Run <span>→</span>` of the idle submit control. -/
def idleLabel : String := "Run <span>→</span>"

/-- The message shown by the fail-safe timeout. -/
def timeoutMessage : String := "Translation timed out. Please try again."

/-- The state at page load, before any event. What the markup (not part of the source)
gives the DOM nodes is taken to be: empty texts, no classes, the language `es` selected
and the idle label on the submit control. -/
def init (apiBase : String) : App :=
  { page :=
      { apiBase := apiBase, isTranslating := false, activeEventSource := none,
        settingsTts := false, inputValue := "", langSelect := "es",
        runBtnDisabled := false, runBtnHTML := idleLabel, pillState := "default",
        boxClasses := [], overlayActive := false, pillInputHeader := "",
        pillResultContent := "", contentTyping := false, pillTimeBadge := "",
        timelines := [], spoken := [], statsRefreshes := 0, fileInputValue := "",
        uploadRequests := 0, toasts := [], isRecording := false, micBtnActive := false,
        micPending := 0, recognitions := 0 },
    sessions := [], uploads := [] }

/-! ## Pill primitives -/

/-- The call `classList.add(cls)`. -/
def classAdd (cls : String) (l : List String) : List String :=
  if cls ∈ l then l else l ++ [cls]

/-- The call `classList.remove(...rm)`. -/
def classRemove (rm : List String) (l : List String) : List String :=
  l.filter (fun c => !rm.contains c)

/-- The six classes that `setIslandState` strips from the command box. -/
def islandClasses : List String :=
  ["result-expanded", "voice-active", "tts-active", "language-expanded", "expanded", "focused"]

/-- The function `updatePillContent(text)`. -/
def updatePillContent (text : String) (p : Page) : Page :=
  { p with pillResultContent := text }

/-- The function `updatePillTime(timeMs)`; `timeMs` is the argument as the template
literal renders it. -/
def updatePillTime (timeMs : String) (p : Page) : Page :=
  { p with pillTimeBadge := timeMs ++ "ms" }

/-- The function `markPillComplete()`: drops the `typing` class and calls
`updateLiveStats()`. -/
def markPillComplete (p : Page) : Page :=
  { p with contentTyping := false, statsRefreshes := p.statsRefreshes + 1 }

/-- The function `expandPillWithResult(inputText, translation)`: sets `pillState` at
once and queues the phase that fills the pill. -/
def expandPillWithResult (inputText translation : String) (p : Page) : Page :=
  { p with pillState := "result",
           timelines := p.timelines ++ [Deferred.expandResult inputText translation] }

/-- The function `collapsePill()`. -/
def collapsePill (p : Page) : Page :=
  { p with pillState := "idle", overlayActive := false,
           timelines := p.timelines ++ [Deferred.collapseComplete] }

/-- The method `close()` of the connection of session `i`. -/
def closeConn (i : Nat) (l : List Session) : List Session :=
  l.modify (fun s => { s with esOpen := false }) i

/-- The function `setIslandState(newState)`. -/
def setIslandState (newState : String) (a : App) : App :=
  let previousState := a.page.pillState
  let p := { a.page with pillState := newState }
  let p := if newState ≠ "default" then
      { p with boxClasses := classRemove islandClasses p.boxClasses } else p
  let p := if newState = "default" then { p with overlayActive := false } else p
  if newState = "result" then
    { a with page := { p with timelines := p.timelines ++ [Deferred.islandEnter "result-expanded"] } }
  else if newState = "voice" then
    { a with page := { p with timelines := p.timelines ++ [Deferred.islandEnter "voice-active"] } }
  else if newState = "language" then
    { a with page := { p with timelines := p.timelines ++ [Deferred.islandEnter "language-expanded"] } }
  else
    -- FIX: If streaming is active, abort it and reset button
    let a : App :=
      match p.isTranslating, p.activeEventSource with
      | true, some i =>
        { a with
          page := { p with activeEventSource := none, isTranslating := false,
                           runBtnDisabled := false, runBtnHTML := idleLabel },
          sessions := closeConn i a.sessions }
      | _, _ => { a with page := p }
    { a with page := { a.page with
        timelines := a.page.timelines ++ [Deferred.islandDefault previousState] } }

/-- The body of a queued callback. -/
def runDeferred (d : Deferred) (a : App) : App :=
  let p := a.page
  match d with
  | .expandResult inputText translation =>
    { a with page :=
      { p with pillInputHeader := inputText, pillResultContent := translation,
               contentTyping := true, overlayActive := true,
               boxClasses := classRemove ["expanded", "focused"]
                 (classAdd "result-expanded" p.boxClasses) } }
  | .islandEnter cls =>
    { a with page := { p with boxClasses := classAdd cls p.boxClasses, overlayActive := true } }
  | .islandDefault previousState =>
    let p := { p with boxClasses := classRemove islandClasses p.boxClasses }
    if previousState = "result" then
      { a with page :=
        { p with pillResultContent := "", contentTyping := false, pillInputHeader := "" } }
    else { a with page := p }
  | .collapseComplete =>
    { a with page :=
      { p with boxClasses := classRemove ["result-expanded"] p.boxClasses,
               pillResultContent := "", contentTyping := false, pillInputHeader := "" } }
  | .langCollapse => setIslandState "default" a
  | .visualizerStop =>
    { a with page := { p with boxClasses := classRemove ["voice-active", "tts-active"] p.boxClasses } }

/-! ## The streaming translation controller -/

/-- The helper `resetButtonState()` of `translateText`. -/
def resetButtonState (p : Page) : Page :=
  { p with isTranslating := false, activeEventSource := none,
           runBtnDisabled := false, runBtnHTML := idleLabel }

/-- The template literal building `streamUrl`. -/
def streamUrl (apiBase text lang : String) : String :=
  apiBase ++ "/api/translate-stream?text=" ++ encodeURIComponent text ++
    "&source_lang=auto&target_lang=" ++ encodeURIComponent lang

/-- The function `translateText()`, called at time `now`; `ctorThrows` tells whether
`new EventSource(streamUrl)` throws (the URL parser of the browser is not part of the
source). A throw of `encodeURIComponent`, which a text with a lone surrogate causes, is
caught by the same `catch` before any connection exists and reads as `ctorThrows` too. -/
def translateText (now : Nat) (ctorThrows : Bool) (a : App) : App :=
  let text := jsTrim a.page.inputValue
  if text = "" then a
  -- Prevent multiple simultaneous translations
  else if a.page.isTranslating then a
  else
    let p := { a.page with isTranslating := true, runBtnDisabled := true,
                           runBtnHTML := "Streaming..." }
    let p := expandPillWithResult text "" p
    if ctorThrows then
      -- catch: eventSource is still null, the fail-safe timer is cleared
      let p := updatePillContent "Error: Could not connect to Parallax backend." p
      let p := { p with contentTyping := false }
      { a with page := resetButtonState p }
    else
      let sess : Session :=
        { streamUrl := streamUrl p.apiBase text p.langSelect, esOpen := true,
          failsafeArmed := true, startTime := now, fullTranslation := "",
          displayedText := "", pendingWords := [], typingInterval := false,
          intervalRunning := false }
      { a with
        page := { p with activeEventSource := some a.sessions.length },
        sessions := a.sessions ++ [sess] }

/-- The callback of `failsafeTimeout`, run when the 30 second timer fires. -/
def failsafeFired (c : Ctx) : Ctx :=
  let s := { c.2 with failsafeArmed := false }
  if c.1.isTranslating then
    let p := updatePillContent timeoutMessage c.1
    let p := { p with contentTyping := false }
    (resetButtonState p, s)
  else (c.1, s)

/-- The helper `startTypingEffect()`. -/
def startTypingEffect (s : Session) : Session :=
  if s.typingInterval then s
  else { s with typingInterval := true, intervalRunning := true }

/-- The callback of the 50 ms interval created by `startTypingEffect`. -/
def typingTick (c : Ctx) : Ctx :=
  match c.2.pendingWords with
  | nextWord :: rest =>
    let displayedText :=
      c.2.displayedText ++ (if c.2.displayedText ≠ "" then " " else "") ++ nextWord
    (updatePillContent displayedText c.1,
     { c.2 with pendingWords := rest, displayedText := displayedText })
  | [] =>
    if !c.1.isTranslating then
      -- Stop when done
      (c.1, { c.2 with intervalRunning := false, typingInterval := false })
    else c

/-- The statement `if (typingInterval) clearInterval(typingInterval)`: the variable
keeps its value. -/
def clearTypingInterval (s : Session) : Session :=
  if s.typingInterval then { s with intervalRunning := false } else s

/-- Outcome of running the statements of a `try` block: the state reached and whether
an exception is propagating. -/
structure Run where
  ctx : Ctx
  thrown : Bool
  deriving DecidableEq, Repr

/-- Run the next statement unless an exception is propagating. -/
def Run.exec (r : Run) (f : Ctx → Ctx) : Run :=
  if r.thrown then r else { r with ctx := f r.ctx }

/-- The next statement throws (unless an exception is propagating already). -/
def Run.raise (r : Run) : Run := { r with thrown := true }

/-- The branch `if (data.error)` of `onmessage`. -/
def errorBranch (data : StreamData) (c : Ctx) : Run :=
  (Run.mk c false)
    |>.exec (fun c => (updatePillContent ("Error: " ++ data.error) c.1, c.2))
    |>.exec (fun c => ({ c.1 with contentTyping := false }, c.2))
    |>.exec (fun c => (c.1, { c.2 with esOpen := false }))
    |>.exec (fun c => (c.1, { c.2 with failsafeArmed := false }))
    |>.exec (fun c => (c.1, clearTypingInterval c.2))
    |>.exec (fun c => (resetButtonState c.1, c.2))

/-- The expression `data.full_text || fullTranslation`. -/
def finalText (d : StreamData) (fullTranslation : String) : String :=
  if d.full_text ≠ "" then d.full_text else fullTranslation

/-- The branch `if (data.done)` of `onmessage`. The names `checkAutoRead` and
`conversationMode` are declared inside `initLogic` (lines 721 and 729) and are not in
scope in the top-level function `translateText`: evaluating `checkAutoRead` throws a
ReferenceError, and the statements after it are skipped. -/
def doneBranch (data : StreamData) (c : Ctx) : Run :=
  (Run.mk c false)
    |>.exec (fun c => (c.1, { c.2 with esOpen := false }))
    |>.exec (fun c => (c.1, { c.2 with failsafeArmed := false }))
    -- fullTranslation = data.full_text || fullTranslation
    |>.exec (fun c => (c.1, { c.2 with fullTranslation := finalText data c.2.fullTranslation }))
    |>.exec (fun c => (c.1, clearTypingInterval c.2))
    |>.exec (fun c => (updatePillContent c.2.fullTranslation c.1, c.2))
    |>.exec (fun c => (updatePillTime (toString data.inference_time_ms) c.1, c.2))
    |>.exec (fun c => (markPillComplete c.1, c.2))
    -- Auto-TTS if enabled
    |>.exec (fun c =>
        if c.1.settingsTts && c.2.fullTranslation ≠ "" then
          ({ c.1 with spoken := c.1.spoken ++ [c.2.fullTranslation] }, c.2)
        else c)
    -- checkAutoRead(fullTranslation, targetLang)
    |>.raise
    -- if (conversationMode) ...
    |>.raise
    -- Reset button
    |>.exec (fun c => (resetButtonState c.1, c.2))

/-- The final `else` branch of `onmessage`: a streaming token. With no `token` field,
`fullTranslation += token` appends the text `undefined` and `token.split` throws. -/
def tokenBranch (data : StreamData) (now : Nat) (c : Ctx) : Run :=
  match data.token with
  | none =>
    (Run.mk c false)
      |>.exec (fun c => (c.1, { c.2 with fullTranslation := c.2.fullTranslation ++ "undefined" }))
      |>.raise
  | some token =>
    (Run.mk c false)
      |>.exec (fun c => (c.1, { c.2 with fullTranslation := c.2.fullTranslation ++ token }))
      |>.exec (fun c => (c.1, { c.2 with pendingWords := c.2.pendingWords ++ tokenWords token }))
      |>.exec (fun c => (c.1, startTypingEffect c.2))
      |>.exec (fun c =>
          let elapsed : Int := (now : Int) - (c.2.startTime : Int)
          (updatePillTime (toString elapsed ++ "ms") c.1, c.2))

/-- The `try` block of `eventSource.onmessage`; `none` is an `event.data` on which
`JSON.parse` throws. -/
def onmessageTry (data : Option StreamData) (now : Nat) (c : Ctx) : Run :=
  match data with
  | none => Run.raise (Run.mk c false)
  | some d =>
    if d.error ≠ "" then errorBranch d c
    else if d.done then doneBranch d c
    else tokenBranch d now c

/-- The handler `eventSource.onmessage`: the `catch` clause only logs. -/
def onmessage (data : Option StreamData) (now : Nat) (c : Ctx) : Ctx :=
  (onmessageTry data now c).ctx

/-- The handler `eventSource.onerror`. -/
def onerror (c : Ctx) : Ctx :=
  let s := { c.2 with esOpen := false, failsafeArmed := false }
  let s := clearTypingInterval s
  let p := if s.fullTranslation = "" then
      updatePillContent "Connection error. Please try again." c.1 else c.1
  let p := { p with contentTyping := false }
  (resetButtonState p, s)

/-! ## The file upload controller -/

/-- The array `validTypes` of `handleDocumentUpload`. -/
def validTypes : List String := [".txt", ".md", ".srt", ".pdf"]

/-- The worker of `jsLastIndexOf`: `i` is the index of the head of the list, `acc` the
last index found so far. -/
def lastIndexOfAux (c : Char) : List Char → Nat → Int → Int
  | [], _, acc => acc
  | x :: xs, i, acc => lastIndexOfAux c xs (i + 1) (if x = c then (i : Int) else acc)

/-- The method `lastIndexOf` for a one-character pattern: the index of its last
occurrence, or `-1`. -/
def jsLastIndexOf (s : String) (c : Char) : Int := lastIndexOfAux c s.toList 0 (-1)

/-- The method `substring(start)`: a negative `start` counts as 0. -/
def jsSubstringFrom (s : String) (start : Int) : String := String.mk (s.toList.drop start.toNat)

/-- The method `toLowerCase` on the letters A to Z; other characters are kept. No
character outside A to Z is lower-cased by the browser to a character of the four
extensions of `validTypes`, so the test `validTypes.includes(fileExt)` is decided as in
the browser. -/
def jsToLowerCase (s : String) : String := String.mk (s.toList.map Char.toLower)

/-- The constant `fileExt` of `handleDocumentUpload`:
`file.name.substring(file.name.lastIndexOf('.')).toLowerCase()`. -/
def fileExt (name : String) : String :=
  jsToLowerCase (jsSubstringFrom name (jsLastIndexOf name '.'))

/-- The function `handleDocumentUpload(file)` up to its first `await`, called at time
`now` with a file. -/
def handleDocumentUpload (file : UploadFile) (now : Nat) (a : App) : App :=
  -- Validate file type
  if !validTypes.contains (fileExt file.name) then
    let p := expandPillWithResult "Warning: Invalid file"
      ("Supported: " ++ String.intercalate ", " validTypes) a.page
    { a with page := markPillComplete p }
  else
    let targetLang := if a.page.langSelect ≠ "" then a.page.langSelect else "es"
    let p := expandPillWithResult file.name "Uploading..." a.page
    let p := updatePillContent "Translating..." p
    let p := { p with uploadRequests := p.uploadRequests + 1 }
    { a with
      page := p,
      uploads := a.uploads ++
        [{ file := file, targetLang := targetLang, startTime := now, timerRunning := true,
           awaitingFetch := true, awaitingJson := false }] }

/-- The callback of `timerInterval`, run every 100 ms at time `now`. -/
def uploadTimerTick (now : Nat) (c : Page × Upload) : Page × Upload :=
  (updatePillTime (toString ((now : Int) - (c.2.startTime : Int))) c.1, c.2)

/-- The `catch` block of `handleDocumentUpload` for an error with text `message`. -/
def uploadCatch (message : String) (c : Page × Upload) : Page × Upload :=
  let u := { c.2 with timerRunning := false }
  let p := updatePillContent
    ("Error: " ++ (if message ≠ "" then message else "Failed to upload")) c.1
  (markPillComplete p, u)

/-- The last statements of `handleDocumentUpload`: the file input is emptied. -/
def resetFileInput (p : Page) : Page := { p with fileInputValue := "" }

/-- How the promise of `fetch` settles. -/
inductive FetchResult
  /-- The promise rejects with an error of text `message`. -/
  | rejected (message : String)
  /-- The promise resolves with a response of the given `ok` flag and status. -/
  | response (ok : Bool) (status : Nat)
  deriving DecidableEq, Repr

/-- How the promise of `response.json()` settles. -/
inductive JsonResult
  /-- The promise rejects with an error of text `message`. -/
  | rejected (message : String)
  /-- The promise resolves with the parsed body. -/
  | body (data : UploadData)
  deriving DecidableEq, Repr

/-- The part of `handleDocumentUpload` that runs when `await fetch(...)` settles, at
time `now`. -/
def fetchSettled (r : FetchResult) (now : Nat) (c : Page × Upload) : Page × Upload :=
  let u := { c.2 with awaitingFetch := false }
  match r with
  | .rejected message =>
    let c1 := uploadCatch message (c.1, u)
    (resetFileInput c1.1, c1.2)
  | .response ok status =>
    -- Stop timer
    let u := { u with timerRunning := false }
    let p := updatePillTime (toString ((now : Int) - (u.startTime : Int))) c.1
    if !ok then
      let c1 := uploadCatch ("Server error: " ++ toString status) (p, u)
      (resetFileInput c1.1, c1.2)
    else (p, { u with awaitingJson := true })

/-- The expression `data.translated_content || data.translated_text || data.translation`. -/
def uploadTranslation (data : UploadData) : String :=
  if data.translated_content ≠ "" then data.translated_content
  else if data.translated_text ≠ "" then data.translated_text
  else data.translation

/-- The expression `data.chars_processed || file.size`. -/
def uploadChars (data : UploadData) (file : UploadFile) : Nat :=
  match data.chars_processed with
  | some n => if n ≠ 0 then n else file.size
  | none => file.size

/-- The expression `data.detail || data.error || 'Translation failed'`. -/
def uploadErrorDetail (data : UploadData) : String :=
  if data.detail ≠ "" then data.detail
  else if data.error ≠ "" then data.error
  else "Translation failed"

/-- The part of `handleDocumentUpload` that runs when `await response.json()` settles. -/
def jsonSettled (r : JsonResult) (c : Page × Upload) : Page × Upload :=
  let u := { c.2 with awaitingJson := false }
  match r with
  | .rejected message =>
    let c1 := uploadCatch message (c.1, u)
    (resetFileInput c1.1, c1.2)
  | .body data =>
    if data.success || data.translated_content ≠ "" || data.translated_text ≠ "" then
      -- Success! Show the translation
      let p := updatePillContent (uploadTranslation data) c.1
      let p := markPillComplete p
      -- Update stats
      let p := { p with statsRefreshes := p.statsRefreshes + 1 }
      -- Show toast with details
      let p := { p with toasts := p.toasts ++
        ["✓ Translated " ++ toString (uploadChars data u.file) ++ " characters"] }
      (resetFileInput p, u)
    else
      -- API returned error
      let p := updatePillContent ("Error: " ++ uploadErrorDetail data) c.1
      let p := markPillComplete p
      (resetFileInput p, u)

/-! ## Voice capture -/

/-- The method `DynamicIslandVisualizer.startListening(stream)`: the class `voice-active`
is added at once (the waveform is not modelled). -/
def startListening (p : Page) : Page :=
  { p with boxClasses := classAdd "voice-active" p.boxClasses }

/-- The method `DynamicIslandVisualizer.stop()`: the classes are removed by the
`onComplete` of its tween. -/
def visualizerStop (p : Page) : Page :=
  { p with timelines := p.timelines ++ [Deferred.visualizerStop] }

/-- The function `startSpeechRecognition()` in a browser with speech recognition: a
recognition is created and the microphone is requested; the rest runs when the
promise of `getUserMedia` settles. -/
def startSpeechRecognition (p : Page) : Page :=
  { p with micPending := p.micPending + 1 }

/-- The function `stopSpeechRecognition()`. -/
def stopSpeechRecognition (p : Page) : Page :=
  visualizerStop { p with isRecording := false, micBtnActive := false }

/-- The click listener of the microphone button, in a browser with speech recognition. -/
def micButtonClick (p : Page) : Page :=
  let p := { p with isRecording := !p.isRecording, micBtnActive := !p.micBtnActive }
  if p.isRecording then startSpeechRecognition p else stopSpeechRecognition p

/-- The `then` callback of `getUserMedia`: the visualizer starts listening, the handlers
of the recognition are set and `recognition.start()` is called. -/
def microphoneGranted (p : Page) : Page :=
  let p := startListening { p with micPending := p.micPending - 1 }
  { p with recognitions := p.recognitions + 1 }

/-- The handler `recognition.onresult` for the transcript `transcript`, at time `now`;
it ends with `translateText()`. -/
def recognitionResult (transcript : String) (now : Nat) (ctorThrows : Bool) (a : App) : App :=
  let p := { a.page with inputValue := transcript, isRecording := false, micBtnActive := false }
  translateText now ctorThrows { a with page := visualizerStop p }

/-- The handler `recognition.onerror`. -/
def recognitionError (p : Page) : Page :=
  visualizerStop { p with isRecording := false, micBtnActive := false }

/-- The handler `recognition.onend`; the recognition is over. -/
def recognitionEnd (p : Page) : Page :=
  let p := { p with recognitions := p.recognitions - 1 }
  if p.isRecording then visualizerStop p else p

/-! ## Configuration and the second upload entry point -/

/-- The browser `localStorage`: keys with their values, latest first. -/
abbrev Storage := List (String × String)

/-- The method `localStorage.getItem(key)`. -/
def storageGet (st : Storage) (key : String) : Option String :=
  (st.find? (fun kv => kv.1 == key)).map (fun kv => kv.2)

/-- The method `localStorage.setItem(key, value)`. -/
def storageSet (st : Storage) (key value : String) : Storage :=
  (key, value) :: st.filter (fun kv => kv.1 != key)

/-- The function `getApiBase()`: `apiParam` is what `urlParams.get('api')` returns
(`none` for `null`), `st` the local storage; the result is the returned URL and the
storage after the call. -/
def getApiBase (apiParam : Option String) (st : Storage) : String × Storage :=
  -- Check URL params first
  if apiParam.isSome && apiParam.getD "" ≠ "" then
    (apiParam.getD "", storageSet st "paraos_api" (apiParam.getD ""))
  else
    -- Check localStorage for saved ngrok URL
    let savedApi := storageGet st "paraos_api"
    if savedApi.isSome && savedApi.getD "" ≠ "" then (savedApi.getD "", st)
    -- Default: localhost for development
    else ("http://localhost:8000", st)

/-- The test `file.name.match(/\.(pdf|txt)$/i)` of `handleFileUpload`: the name ends
with `.`, then `pdf` or `txt` in any letter case. The flag `i` of a pattern without the
flag `u` never lets a character outside ASCII match an ASCII letter, so lower-casing A
to Z decides the match. -/
def matchesPdfOrTxt (name : String) : Bool :=
  let tail := jsToLowerCase (String.mk (name.toList.drop (name.toList.length - 4)))
  tail == ".pdf" || tail == ".txt"

/-! ## The event loop -/

/-- The listener of the `input` event on `els.input`, after the value became `text`. -/
def inputHandler (text : String) (p : Page) : Page :=
  let p := { p with inputValue := text }
  let shouldExpand := decide (jsLength text > 12)
  let isExpanded := p.boxClasses.contains "expanded"
  let p :=
    if shouldExpand && !isExpanded then
      { p with boxClasses := classAdd "expanded" p.boxClasses }
    else if !shouldExpand && isExpanded then
      { p with boxClasses := classRemove ["expanded"] p.boxClasses }
    else p
  -- Collapse pill when typing new input
  if p.pillState = "result" then collapsePill p else p

/-- The click listeners that dismiss the pill (click outside the command box, click on
the overlay): both call `setIslandState('default')` unless the pill is in `default`. -/
def dismissClick (a : App) : App :=
  if a.page.pillState = "default" then a else setIslandState "default" a

/-- The click listener of a language picker item: sets the target language and arms
the timer that collapses the pill. -/
def langItemClick (lang : String) (p : Page) : Page :=
  { p with langSelect := lang, timelines := p.timelines ++ [Deferred.langCollapse] }

/-- Run a handler of session `i` when the session exists and the handler can still be
called (`enabled`), and store the closure back. -/
def withSession (i : Nat) (enabled : Session → Bool) (h : Ctx → Ctx) (a : App) : App :=
  match a.sessions[i]? with
  | some s =>
    if enabled s then
      let c := h (a.page, s)
      { a with page := c.1, sessions := a.sessions.set i c.2 }
    else a
  | none => a

/-- Run a continuation of upload `j` when the upload exists and the continuation can
still be called (`enabled`), and store the closure back. -/
def withUpload (j : Nat) (enabled : Upload → Bool) (h : Page × Upload → Page × Upload)
    (a : App) : App :=
  match a.uploads[j]? with
  | some u =>
    if enabled u then
      let c := h (a.page, u)
      { a with page := c.1, uploads := a.uploads.set j c.2 }
    else a
  | none => a

/-- The `change` listener of the file input (`onchange="handleDocumentUpload(
this.files[0])"`) when the user picks `file`: the browser fires no `change` event when
the control already holds that file. -/
def fileInputChange (file : UploadFile) (now : Nat) (a : App) : App :=
  if a.page.fileInputValue = file.name then a
  else handleDocumentUpload file now
    { a with page := { a.page with fileInputValue := file.name } }

/-- One task of the browser event loop. -/
inductive Event
  /-- A script assigns `els.input.value` (speech result, suggestion pill): no `input`
  event is fired. -/
  | setInput (text : String)
  /-- The user edits the input field to `text`: the `input` listener runs. -/
  | typeInput (text : String)
  /-- Click on Run, Enter in the input field, or a speech result: `translateText()`. -/
  | submit (now : Nat) (ctorThrows : Bool)
  /-- A message arrives on the connection of session `i`. -/
  | message (i : Nat) (data : Option StreamData) (now : Nat)
  /-- The connection of session `i` reports a transport error. -/
  | transportError (i : Nat)
  /-- The 30 second fail-safe timer of session `i` fires. -/
  | failsafe (i : Nat)
  /-- The 50 ms reveal interval of session `i` fires. -/
  | tick (i : Nat)
  /-- The pending callback number `k` runs. -/
  | timeline (k : Nat)
  /-- Click outside the command box, or on the dismiss overlay. -/
  | dismiss
  /-- Click on the language button: `setIslandState('language')`. -/
  | langButton
  /-- Click on the language picker item of `lang`. -/
  | langItem (lang : String)
  /-- Click on the toggle `toggle-tts`: `state.settings.tts` is negated. -/
  | toggleTts
  /-- The user picks `file` in the file selection control. -/
  | chooseFile (file : UploadFile) (now : Nat)
  /-- The 100 ms elapsed-time interval of upload `j` fires. -/
  | uploadTick (j : Nat) (now : Nat)
  /-- The `fetch` of upload `j` settles. -/
  | fetchDone (j : Nat) (r : FetchResult) (now : Nat)
  /-- The `response.json()` of upload `j` settles. -/
  | jsonDone (j : Nat) (r : JsonResult)
  /-- Click on the microphone button. -/
  | micClick
  /-- A pending `getUserMedia` promise resolves with a stream. -/
  | micGranted
  /-- A pending `getUserMedia` promise rejects. -/
  | micDenied
  /-- A started recognition delivers the transcript `transcript`. -/
  | speechResult (transcript : String) (now : Nat) (ctorThrows : Bool)
  /-- A started recognition reports an error. -/
  | speechError
  /-- A started recognition ends. -/
  | speechEnd
  deriving DecidableEq, Repr

/-- Handle one event. A handler that the browser would not call (message or error on a
closed connection, a timer that is not pending, a session or callback that does not
exist) leaves the state as it is. -/
def step (a : App) : Event → App
  | .setInput text => { a with page := { a.page with inputValue := text } }
  | .typeInput text => { a with page := inputHandler text a.page }
  | .submit now ctorThrows => translateText now ctorThrows a
  | .message i data now => withSession i (fun s => s.esOpen) (onmessage data now) a
  | .transportError i => withSession i (fun s => s.esOpen) onerror a
  | .failsafe i => withSession i (fun s => s.failsafeArmed) failsafeFired a
  | .tick i => withSession i (fun s => s.intervalRunning) typingTick a
  | .timeline k =>
    match a.page.timelines[k]? with
    | some d => runDeferred d { a with page := { a.page with timelines := a.page.timelines.eraseIdx k } }
    | none => a
  | .dismiss => dismissClick a
  | .langButton => setIslandState "language" a
  | .langItem lang => { a with page := langItemClick lang a.page }
  | .toggleTts => { a with page := { a.page with settingsTts := !a.page.settingsTts } }
  | .chooseFile file now => fileInputChange file now a
  | .uploadTick j now => withUpload j (fun u => u.timerRunning) (uploadTimerTick now) a
  | .fetchDone j r now => withUpload j (fun u => u.awaitingFetch) (fetchSettled r now) a
  | .jsonDone j r => withUpload j (fun u => u.awaitingJson) (jsonSettled r) a
  | .micClick => { a with page := micButtonClick a.page }
  | .micGranted =>
    if 0 < a.page.micPending then { a with page := microphoneGranted a.page } else a
  | .micDenied =>
    if 0 < a.page.micPending then
      { a with page := { a.page with micPending := a.page.micPending - 1 } }
    else a
  | .speechResult transcript now ctorThrows =>
    if 0 < a.page.recognitions then recognitionResult transcript now ctorThrows a else a
  | .speechError =>
    if 0 < a.page.recognitions then { a with page := recognitionError a.page } else a
  | .speechEnd =>
    if 0 < a.page.recognitions then { a with page := recognitionEnd a.page } else a

/-- Handle a sequence of events in order. -/
def run (a : App) (evs : List Event) : App := evs.foldl step a

/-- The states the application can be in after some events since page load. -/
def Reachable (apiBase : String) (a : App) : Prop := ∃ evs, run (init apiBase) evs = a

/-- Number of connections opened by `translateText` that are not closed. -/
def openConnections (a : App) : Nat := (a.sessions.filter (fun s => s.esOpen)).length

/-- Token message `{"token": t}`. -/
def tokenMsg (t : String) : StreamData :=
  { error := "", done := false, full_text := "", inference_time_ms := 0, token := some t }

/-- Completion message `{"done": true, "full_text": f, "inference_time_ms": ms}`. -/
def doneMsg (f : String) (ms : Nat) : StreamData :=
  { error := "", done := true, full_text := f, inference_time_ms := ms, token := none }

/-- Error message `{"error": e}`. -/
def errorMsg (e : String) : StreamData :=
  { error := e, done := false, full_text := "", inference_time_ms := 0, token := none }

/-- Concatenation of strings in list order. -/
def concatAll : List String → String
  | [] => ""
  | t :: rest => t ++ concatAll rest

/-- What an open session handles before its completion message, in any order:
`some t` is a token message carrying `t`, `none` is a firing of the reveal interval
(which fires only while the interval is running). -/
def feed (now : Nat) (c : Ctx) : List (Option String) → Ctx
  | [] => c
  | some t :: rest => feed now (onmessage (some (tokenMsg t)) now c) rest
  | none :: rest => feed now (if c.2.intervalRunning then typingTick c else c) rest

/-- The scenario of the specification: `hello world` is submitted, the pill expands,
the tokens `Hola ` and `mundo` arrive (one reveal tick in between) and the completion
message carries `Hola mundo` and 842 ms. -/
def scenarioEvents : List Event :=
  [.setInput "hello world", .submit 0 false, .timeline 0,
   .message 0 (some (tokenMsg "Hola ")) 300, .tick 0,
   .message 0 (some (tokenMsg "mundo")) 400,
   .message 0 (some (doneMsg "Hola mundo" 842)) 900]

/-- The state at the end of the scenario. -/
def afterScenario : App := run (init "http://localhost:8000") scenarioEvents

/-- Session `i` exists, its connection is closed and its reveal interval is not
running. -/
def Quiet (i : Nat) (a : App) : Prop :=
  ∃ s, a.sessions[i]? = some s ∧ s.esOpen = false ∧ s.intervalRunning = false

/-- In every session a running reveal interval is the one held in `typingInterval`. -/
def TimerTracked (s : Session) : Prop := s.intervalRunning = true → s.typingInterval = true

/-- A property holds of every session closure. -/
def AllSessions (P : Session → Prop) (a : App) : Prop :=
  ∀ (i : Nat) (s : Session), a.sessions[i]? = some s → P s

/-- A state with one session in flight: `hello world` submitted at time 0. -/
def inFlightExample : App :=
  run (init "http://localhost:8000") [.setInput "hello world", .submit 0 false, .timeline 0]

/-- The state after `hello` was submitted and 30 seconds passed with no message. -/
def afterTimeout : App :=
  run (init "http://localhost:8000")
    [.typeInput "hello", .submit 0 false, .timeline 0, .failsafe 0]

/-- The non-empty fragments of a token split at its whitespace characters. -/
def whitespaceFragments (t : String) : List String :=
  ((t.toList.splitOnP isJsSpace).filter (fun w => !w.isEmpty)).map String.mk

/-- Every queued word is non-empty. -/
def WordsNonEmpty (s : Session) : Prop := ∀ w ∈ s.pendingWords, w ≠ ""

/-- What is on display before the queued words are revealed, as a list of pieces. -/
def shownPieces (displayedText : String) : List String :=
  if displayedText = "" then [] else [displayedText]

/-- The parameters of the query of a URL, as a URL parser reads them: the fragment (from
the first `#` on) is dropped, the query is what follows the first `?`, its non-empty
fields are separated by `&`, and a field is a name and a value separated by its first
`=`. Names and values are returned as written, still percent-encoded. -/
def queryParameters (url : String) : List (String × String) :=
  let noFragment := url.toList.takeWhile (fun c => c ≠ '#')
  let query := (noFragment.dropWhile (fun c => c ≠ '?')).drop 1
  ((query.splitOn '&').filter (fun field => !field.isEmpty)).map (fun field =>
    (String.mk (field.takeWhile (fun c => c ≠ '=')),
     String.mk ((field.dropWhile (fun c => c ≠ '=')).drop 1)))

/-- The classes of the command box that stand for a pill state. -/
def stateClasses : List String := ["result-expanded", "voice-active", "language-expanded"]

/-- Number of state classes that the command box carries. -/
def stateClassCount (a : App) : Nat :=
  (a.page.boxClasses.filter (fun c => stateClasses.contains c)).length

/-- The four values that the documentation of `pillState` lists. -/
def pillStates : List String := ["default", "result", "voice", "language"]

/-- The file `notes.docx` of the specification, 2048 bytes long. -/
def notesDocx : UploadFile := { name := "notes.docx", size := 2048 }

/-- Number of network requests issued so far: uploads posted, fetches of `/api/stats`
and stream connections opened. -/
def networkCalls (a : App) : Nat :=
  a.page.uploadRequests + a.page.statsRefreshes + a.sessions.length

/-- The message `{}`: a JSON object with no `error`, no `done` and no `token` field. -/
def emptyObject : StreamData :=
  { error := "", done := false, full_text := "", inference_time_ms := 0, token := none }

/-- The events up to the moment when the fail-safe timer of a dismissed session is due:
`uno` is submitted at time 0 and dismissed, then `dos` is submitted at 20 s and its first
token arrives. -/
def staleFailsafeEvents : List Event :=
  [.setInput "uno", .submit 0 false, .timeline 0, .dismiss, .timeline 0,
   .setInput "dos", .submit 20000 false, .timeline 0,
   .message 1 (some (tokenMsg "dos ")) 20400, .tick 1]

/-- The state in which the fail-safe timer of the dismissed session 0 is due. -/
def beforeStaleFailsafe : App := run (init "http://localhost:8000") staleFailsafeEvents

/-- The file `notes.txt`, 120 bytes long. -/
def notesTxt : UploadFile := { name := "notes.txt", size := 120 }

/-- The state in which `notes.txt` is being uploaded: the file was picked, the pill has
expanded and the request is pending. -/
def uploadingExample : App :=
  run (init "http://localhost:8000") [.chooseFile notesTxt 0, .timeline 0]

/-- The three lock indicators agree: the submit control is disabled exactly when
`state.isTranslating` is true, and `state.activeEventSource` is non-null exactly then. -/
def LockAgree (p : Page) : Prop :=
  p.runBtnDisabled = p.isTranslating ∧ p.activeEventSource.isSome = p.isTranslating

/-- The lock indicators agree and the lock is free whenever the pill state is `default`. -/
def PageInv (p : Page) : Prop :=
  LockAgree p ∧ (p.pillState = "default" → p.isTranslating = false)

/-- The ways in which a handler moves the lock and the pill state from `p` to `q`: it
leaves the lock alone, or it releases the lock (in both cases it leaves the pill state
alone or moves it to a state other than `default`), or it takes the lock with the pill
out of `default`. -/
def LockMove (p q : Page) : Prop :=
  (q.isTranslating = p.isTranslating ∧ q.runBtnDisabled = p.runBtnDisabled ∧
    q.activeEventSource = p.activeEventSource ∧
    (q.pillState = p.pillState ∨ q.pillState ≠ "default")) ∨
  (q.isTranslating = false ∧ q.runBtnDisabled = false ∧ q.activeEventSource = none ∧
    (q.pillState = p.pillState ∨ q.pillState ≠ "default")) ∨
  (q.isTranslating = true ∧ q.runBtnDisabled = true ∧ q.activeEventSource.isSome = true ∧
    q.pillState ≠ "default")

/-- The state class that the terminal phase of `setIslandState(s)` leaves on the command
box; the default case leaves none. -/
def stateClassOf (s : String) : List String :=
  if s = "result" then ["result-expanded"]
  else if s = "voice" then ["voice-active"]
  else if s = "language" then ["language-expanded"]
  else []

/-- The state classes that the command box carries, in order. -/
def boxStateClasses (a : App) : List String :=
  a.page.boxClasses.filter (fun c => stateClasses.contains c)

/-- The pill is in the terminal phase of state `s`: `pillState` is `s`, no queued phase is
pending, the command box carries the state class of `s` and no other, and the dismiss
overlay is active exactly when `s` is not `default`. -/
def SettledIn (s : String) (a : App) : Prop :=
  a.page.pillState = s ∧ a.page.timelines = [] ∧ boxStateClasses a = stateClassOf s ∧
    a.page.overlayActive = (s != "default")

/-- What `setIslandState` may touch and a user can observe: the pill state, the state
classes, the overlay flag, the lock (flag, connection reference, submit control) and the
displayed content (header, result text, time badge, typing mark). -/
def pillView (a : App) :
    String × List String × Bool × (Bool × Option Nat × Bool × String) ×
      (String × String × String × Bool) :=
  (a.page.pillState, boxStateClasses a, a.page.overlayActive,
    (a.page.isTranslating, a.page.activeEventSource, a.page.runBtnDisabled, a.page.runBtnHTML),
    (a.page.pillInputHeader, a.page.pillResultContent, a.page.pillTimeBadge,
      a.page.contentTyping))

/-- The call `setIslandState(s)` followed by the phase it queued. -/
def settleIsland (s : String) (a : App) : App :=
  step (setIslandState s a) (Event.timeline 0)

/-- A pill showing a result, its expansion finished: the text is submitted and the queued
phase of `expandPillWithResult` has run. -/
def settledResult : App :=
  run (init "http://localhost:8000") [Event.setInput "hello", Event.submit 0 false, Event.timeline 0]

/-- The events up to the moment when the reveal timer of a dismissed session ticks during
a later session: `uno` is submitted, the token `a b` arrives, one word is revealed, the
pill is dismissed, and `dos` is submitted and its pill has expanded. -/
def staleRevealEvents : List Event :=
  [.setInput "uno", .submit 0 false, .timeline 0,
   .message 0 (some (tokenMsg "a b")) 300, .tick 0, .dismiss, .timeline 0,
   .setInput "dos", .submit 1000 false, .timeline 0]

/-- The state in which session 0 has been dismissed with one word left in its queue and
session 1 is in flight. -/
def beforeStaleReveal : App := run (init "http://localhost:8000") staleRevealEvents

/-- The value of a hexadecimal digit, in either letter case. -/
def hexValue (c : Char) : Option Nat :=
  let n := c.toNat
  if 48 ≤ n ∧ n ≤ 57 then some (n - 48)
  else if 65 ≤ n ∧ n ≤ 70 then some (n - 55)
  else if 97 ≤ n ∧ n ≤ 102 then some (n - 87)
  else none

/-- Percent-decoding as the receiver of a URL does it: `%XX` is the byte `XX`, any other
ASCII character stands for its own code, and a malformed escape or a character outside
ASCII is refused. -/
def percentDecode : List Char → Option (List Nat)
  | [] => some []
  | c :: rest =>
    if c = '%' then
      match rest with
      | h :: l :: rest2 =>
        match hexValue h, hexValue l, percentDecode rest2 with
        | some a, some b, some bs => some ((16 * a + b) :: bs)
        | _, _, _ => none
      | _ => none
    else if c.toNat < 128 then (percentDecode rest).map (fun bs => c.toNat :: bs)
    else none

/-- A continuation byte of UTF-8. -/
def isContinuation (b : Nat) : Bool := 0x80 ≤ b && b < 0xC0

/-- One step of a strict UTF-8 decoder: the code point that the bytes start with and the
bytes after it; overlong forms, surrogates and values above `10FFFF` are refused. -/
def utf8DecodeOne : List Nat → Option (Nat × List Nat)
  | [] => none
  | b0 :: rest =>
    if b0 < 0x80 then some (b0, rest)
    else if b0 < 0xC0 then none
    else if b0 < 0xE0 then
      match rest with
      | b1 :: r =>
        let n := (b0 - 0xC0) * 64 + (b1 - 0x80)
        if isContinuation b1 && decide (0x80 ≤ n) then some (n, r) else none
      | _ => none
    else if b0 < 0xF0 then
      match rest with
      | b1 :: b2 :: r =>
        let n := (b0 - 0xE0) * 4096 + (b1 - 0x80) * 64 + (b2 - 0x80)
        if isContinuation b1 && isContinuation b2 && decide (0x800 ≤ n) &&
            !(decide (0xD800 ≤ n) && decide (n ≤ 0xDFFF)) then some (n, r) else none
      | _ => none
    else if b0 < 0xF8 then
      match rest with
      | b1 :: b2 :: b3 :: r =>
        let n := (b0 - 0xF0) * 262144 + (b1 - 0x80) * 4096 + (b2 - 0x80) * 64 + (b3 - 0x80)
        if isContinuation b1 && isContinuation b2 && isContinuation b3 &&
            decide (0x10000 ≤ n) && decide (n < 0x110000) then some (n, r) else none
      | _ => none
    else none

/-- The worker of `utf8Decode`; every step consumes a byte, so a fuel equal to the number
of bytes is enough. -/
def utf8DecodeAux : Nat → List Nat → Option (List Nat)
  | 0, bs => if bs.isEmpty then some [] else none
  | fuel + 1, bs =>
    if bs.isEmpty then some []
    else
      match utf8DecodeOne bs with
      | some (n, rest) => (utf8DecodeAux fuel rest).map (fun ns => n :: ns)
      | none => none

/-- Strict UTF-8 decoding of a byte sequence to code points. -/
def utf8Decode (bs : List Nat) : Option (List Nat) := utf8DecodeAux bs.length bs

/-- What the receiver reads from a query value: percent-decoding followed by UTF-8
decoding (the function `decodeURIComponent`), giving the code points of the text. -/
def decodeURIComponent (s : String) : Option (List Nat) :=
  (percentDecode s.toList).bind utf8Decode

/-! ## Helper lemmas -/

theorem typingTick_fullTranslation (c : Ctx) :
    (typingTick c).2.fullTranslation = c.2.fullTranslation := by
  unfold typingTick
  split
  · rfl
  · split <;> rfl

theorem onmessage_token_fullTranslation (now : Nat) (c : Ctx) (t : String) :
    (onmessage (some (tokenMsg t)) now c).2.fullTranslation = c.2.fullTranslation ++ t := by
  simp [onmessage, onmessageTry, tokenMsg, tokenBranch, Run.exec, startTypingEffect]
  split <;> rfl

theorem feed_fullTranslation (now : Nat) (l : List (Option String)) (c : Ctx) :
    (feed now c l).2.fullTranslation = c.2.fullTranslation ++ concatAll (l.filterMap id) := by
  induction l generalizing c with
  | nil => simp [feed, concatAll]
  | cons x rest ih =>
    cases x with
    | none =>
      simp only [feed, List.filterMap_cons, id]
      rw [ih]
      split
      · rw [typingTick_fullTranslation]
      · rfl
    | some t =>
      simp only [feed, List.filterMap_cons, id, concatAll]
      rw [ih, onmessage_token_fullTranslation, String.append_assoc]

theorem Run.exec_ok (c : Ctx) (f : Ctx → Ctx) :
    (Run.mk c false).exec f = Run.mk (f c) false := rfl

theorem Run.exec_thrown (c : Ctx) (f : Ctx → Ctx) :
    (Run.mk c true).exec f = Run.mk c true := rfl

theorem Run.raise_mk (c : Ctx) (b : Bool) : (Run.mk c b).raise = Run.mk c true := rfl

theorem clearTypingInterval_eq (s : Session) :
    clearTypingInterval s =
      { s with intervalRunning := s.intervalRunning && !s.typingInterval } := by
  rcases s with ⟨u, o, f, st, ft, dt, pw, ti, ir⟩
  cases ti <;> simp [clearTypingInterval]

/-- The completion branch, statement by statement: the state when the call of
`checkAutoRead` throws. -/
theorem doneBranch_ctx (d : StreamData) (c : Ctx) :
    (doneBranch d c).ctx =
      ({ c.1 with
          pillResultContent := finalText d c.2.fullTranslation,
          pillTimeBadge := toString d.inference_time_ms ++ "ms",
          contentTyping := false,
          statsRefreshes := c.1.statsRefreshes + 1,
          spoken := if c.1.settingsTts && finalText d c.2.fullTranslation ≠ "" then
              c.1.spoken ++ [finalText d c.2.fullTranslation] else c.1.spoken },
       { c.2 with
          esOpen := false, failsafeArmed := false, fullTranslation := finalText d c.2.fullTranslation,
          intervalRunning := c.2.intervalRunning && !c.2.typingInterval }) := by
  rcases c with ⟨p, s⟩
  simp only [doneBranch, Run.exec_ok, Run.exec_thrown, Run.raise_mk, updatePillContent,
    updatePillTime, markPillComplete, clearTypingInterval_eq]
  generalize finalText d s.fullTranslation = ft
  by_cases h : (p.settingsTts && decide (ft ≠ "")) = true
  · simp only [h, if_true]
  · simp only [h, Bool.false_eq_true, if_false]

theorem onmessage_done (now : Nat) (c : Ctx) (d : StreamData)
    (he : d.error = "") (hd : d.done = true) :
    onmessage (some d) now c = (doneBranch d c).ctx := by
  simp [onmessage, onmessageTry, he, hd]

/-- The completion branch leaves the lock, the recorded connection and the submit
control as they were: it stops at the call of `checkAutoRead`. -/
theorem onmessage_done_keeps_lock (now : Nat) (c : Ctx) (d : StreamData)
    (he : d.error = "") (hd : d.done = true) :
    (onmessage (some d) now c).1.isTranslating = c.1.isTranslating ∧
    (onmessage (some d) now c).1.activeEventSource = c.1.activeEventSource ∧
    (onmessage (some d) now c).1.runBtnDisabled = c.1.runBtnDisabled ∧
    (onmessage (some d) now c).1.runBtnHTML = c.1.runBtnHTML := by
  rw [onmessage_done now c d he hd, doneBranch_ctx]
  exact ⟨rfl, rfl, rfl, rfl⟩

theorem setIslandState_sessions (newState : String) (a : App) :
    (setIslandState newState a).sessions = a.sessions ∨
      ∃ k, (setIslandState newState a).sessions = closeConn k a.sessions := by
  unfold setIslandState
  by_cases h1 : newState = "result"
  · simp [h1]
  by_cases h2 : newState = "voice"
  · simp [h2]
  by_cases h3 : newState = "language"
  · simp [h3]
  simp only [h1, h2, h3, if_false]
  split
  · right; exact ⟨_, rfl⟩
  · left; rfl

theorem closeConn_quiet (i k : Nat) (l : List Session)
    (h : ∃ s, l[i]? = some s ∧ s.esOpen = false ∧ s.intervalRunning = false) :
    ∃ s, (closeConn k l)[i]? = some s ∧ s.esOpen = false ∧ s.intervalRunning = false := by
  obtain ⟨s, hs, ho, hr⟩ := h
  unfold closeConn
  rw [List.getElem?_modify, hs]
  by_cases hk : k = i
  · exact ⟨{ s with esOpen := false }, by simp [hk], rfl, hr⟩
  · exact ⟨s, by simp [hk], ho, hr⟩

theorem setIslandState_quiet (i : Nat) (newState : String) (a : App) (h : Quiet i a) :
    Quiet i (setIslandState newState a) := by
  unfold Quiet
  rcases setIslandState_sessions newState a with hs | ⟨k, hs⟩
  · rw [hs]; exact h
  · rw [hs]; exact closeConn_quiet i k a.sessions h

theorem translateText_quiet (i now : Nat) (ctorThrows : Bool) (a : App) (h : Quiet i a) :
    Quiet i (translateText now ctorThrows a) := by
  obtain ⟨s, hs, ho, hr⟩ := h
  have hlt : i < a.sessions.length := by
    rcases Nat.lt_or_ge i a.sessions.length with hlt | hge
    · exact hlt
    · rw [List.getElem?_eq_none hge] at hs; cases hs
  unfold translateText
  by_cases ht : jsTrim a.page.inputValue = ""
  · simp only [ht, if_true]; exact ⟨s, hs, ho, hr⟩
  by_cases hl : a.page.isTranslating = true
  · simp only [ht, hl, if_true, if_false]; exact ⟨s, hs, ho, hr⟩
  cases ctorThrows
  · simp only [ht, hl, if_false, Bool.false_eq_true]
    refine ⟨s, ?_, ho, hr⟩
    show (a.sessions ++ _)[i]? = some s
    rw [List.getElem?_append_left hlt]; exact hs
  · simp only [ht, hl, if_false, if_true]
    exact ⟨s, hs, ho, hr⟩

theorem withSession_quiet (i j : Nat) (enabled : Session → Bool) (h : Ctx → Ctx) (a : App)
    (hq : Quiet i a)
    (hh : ∀ p s, s.esOpen = false → s.intervalRunning = false → enabled s = true →
      (h (p, s)).2.esOpen = false ∧ (h (p, s)).2.intervalRunning = false) :
    Quiet i (withSession j enabled h a) := by
  obtain ⟨s, hs, ho, hr⟩ := hq
  unfold withSession
  cases hj : a.sessions[j]? with
  | none => exact ⟨s, hs, ho, hr⟩
  | some sj =>
    by_cases he : enabled sj = true
    · simp only [he, if_true]
      by_cases hji : j = i
      · subst hji
        rw [hs] at hj
        cases hj
        have hlt : j < a.sessions.length := by
          rcases Nat.lt_or_ge j a.sessions.length with hlt | hge
          · exact hlt
          · rw [List.getElem?_eq_none hge] at hs; cases hs
        refine ⟨(h (a.page, s)).2, ?_, (hh a.page s ho hr he).1, (hh a.page s ho hr he).2⟩
        show (a.sessions.set j _)[j]? = _
        rw [List.getElem?_set_self hlt]
      · refine ⟨s, ?_, ho, hr⟩
        show (a.sessions.set j _)[i]? = _
        rw [List.getElem?_set_ne hji]; exact hs
    · simp only [he]
      exact ⟨s, hs, ho, hr⟩

theorem runDeferred_quiet (i : Nat) (d : Deferred) (a : App) (h : Quiet i a) :
    Quiet i (runDeferred d a) := by
  cases d with
  | expandResult _ _ => exact h
  | islandEnter _ => exact h
  | islandDefault prev =>
    unfold runDeferred
    by_cases hp : prev = "result"
    · simp only [hp, if_true]; exact h
    · simp only [hp, if_false]; exact h
  | collapseComplete => exact h
  | langCollapse => exact setIslandState_quiet i _ a h
  | visualizerStop => exact h

theorem withUpload_sessions (j : Nat) (enabled : Upload → Bool)
    (h : Page × Upload → Page × Upload) (a : App) :
    (withUpload j enabled h a).sessions = a.sessions := by
  unfold withUpload
  split
  · split <;> rfl
  · rfl

theorem fileInputChange_sessions (file : UploadFile) (now : Nat) (a : App) :
    (fileInputChange file now a).sessions = a.sessions := by
  unfold fileInputChange handleDocumentUpload
  split
  · rfl
  · split <;> rfl

theorem step_quiet (i : Nat) (a : App) (e : Event) (h : Quiet i a) : Quiet i (step a e) := by
  cases e with
  | micClick => exact h
  | micGranted =>
    show Quiet i (if 0 < a.page.micPending then _ else a)
    split <;> exact h
  | micDenied =>
    show Quiet i (if 0 < a.page.micPending then _ else a)
    split <;> exact h
  | speechResult transcript now ct =>
    show Quiet i (if 0 < a.page.recognitions then recognitionResult transcript now ct a else a)
    split
    · exact translateText_quiet i now ct _ h
    · exact h
  | speechError =>
    show Quiet i (if 0 < a.page.recognitions then _ else a)
    split <;> exact h
  | speechEnd =>
    show Quiet i (if 0 < a.page.recognitions then _ else a)
    split <;> exact h
  | chooseFile file now =>
    unfold Quiet
    rw [show (step a (.chooseFile file now)).sessions = a.sessions from
      fileInputChange_sessions file now a]
    exact h
  | uploadTick j now =>
    unfold Quiet
    rw [show (step a (.uploadTick j now)).sessions = a.sessions from
      withUpload_sessions j _ _ a]
    exact h
  | fetchDone j r now =>
    unfold Quiet
    rw [show (step a (.fetchDone j r now)).sessions = a.sessions from
      withUpload_sessions j _ _ a]
    exact h
  | jsonDone j r =>
    unfold Quiet
    rw [show (step a (.jsonDone j r)).sessions = a.sessions from
      withUpload_sessions j _ _ a]
    exact h
  | setInput _ => exact h
  | typeInput _ => exact h
  | submit now ct => exact translateText_quiet i now ct a h
  | message j data now =>
    exact withSession_quiet i j _ _ a h (fun p s ho _ he => by simp [ho] at he)
  | transportError j =>
    exact withSession_quiet i j _ _ a h (fun p s ho _ he => by simp [ho] at he)
  | failsafe j =>
    refine withSession_quiet i j _ _ a h (fun p s ho hr _ => ?_)
    unfold failsafeFired
    split <;> exact ⟨ho, hr⟩
  | tick j =>
    exact withSession_quiet i j _ _ a h (fun p s _ hr he => by simp [hr] at he)
  | timeline k =>
    show Quiet i (match a.page.timelines[k]? with
      | some d => runDeferred d { a with page := { a.page with timelines := a.page.timelines.eraseIdx k } }
      | none => a)
    split
    · exact runDeferred_quiet i _ _ h
    · exact h
  | dismiss =>
    show Quiet i (dismissClick a)
    unfold dismissClick
    split
    · exact h
    · exact setIslandState_quiet i _ a h
  | langButton => exact setIslandState_quiet i _ a h
  | langItem _ => exact h
  | toggleTts => exact h

theorem run_quiet (i : Nat) (evs : List Event) (a : App) (h : Quiet i a) :
    Quiet i (run a evs) := by
  induction evs generalizing a with
  | nil => exact h
  | cons e rest ih => exact ih (step a e) (step_quiet i a e h)

theorem tick_of_quiet (i : Nat) (a : App) (h : Quiet i a) : step a (.tick i) = a := by
  obtain ⟨s, hs, _, hr⟩ := h
  show withSession i _ _ a = a
  unfold withSession
  rw [hs]
  simp [hr]

/-- The error branch, statement by statement. -/
theorem errorBranch_ctx (d : StreamData) (c : Ctx) :
    (errorBranch d c).ctx =
      ({ c.1 with
          pillResultContent := "Error: " ++ d.error, contentTyping := false,
          isTranslating := false, activeEventSource := none,
          runBtnDisabled := false, runBtnHTML := idleLabel },
       { c.2 with
          esOpen := false, failsafeArmed := false,
          intervalRunning := c.2.intervalRunning && !c.2.typingInterval }) := by
  rcases c with ⟨p, s⟩
  simp only [errorBranch, Run.exec_ok, updatePillContent, resetButtonState,
    clearTypingInterval_eq]

theorem onmessage_error (now : Nat) (c : Ctx) (d : StreamData) (he : d.error ≠ "") :
    onmessage (some d) now c = (errorBranch d c).ctx := by
  simp [onmessage, onmessageTry, he]

/-- The token branch for a message with a `token` field. -/
theorem tokenBranch_some_ctx (d : StreamData) (now : Nat) (c : Ctx) (t : String)
    (ht : d.token = some t) :
    (tokenBranch d now c).ctx =
      ({ c.1 with pillTimeBadge :=
            toString ((now : Int) - (c.2.startTime : Int)) ++ "ms" ++ "ms" },
       startTypingEffect { c.2 with
          fullTranslation := c.2.fullTranslation ++ t,
          pendingWords := c.2.pendingWords ++ tokenWords t }) := by
  rcases c with ⟨p, s⟩
  simp only [tokenBranch, ht, Run.exec_ok, updatePillTime]
  unfold startTypingEffect
  split <;> rfl

/-- The token branch for a message without a `token` field. -/
theorem tokenBranch_none_ctx (d : StreamData) (now : Nat) (c : Ctx) (ht : d.token = none) :
    (tokenBranch d now c).ctx =
      (c.1, { c.2 with fullTranslation := c.2.fullTranslation ++ "undefined" }) := by
  rcases c with ⟨p, s⟩
  simp only [tokenBranch, ht, Run.exec_ok, Run.raise_mk]

theorem onmessage_token (now : Nat) (c : Ctx) (d : StreamData)
    (he : d.error = "") (hd : d.done = false) :
    onmessage (some d) now c = (tokenBranch d now c).ctx := by
  simp [onmessage, onmessageTry, he, hd]

theorem onmessage_tracked (data : Option StreamData) (now : Nat) (c : Ctx)
    (h : TimerTracked c.2) : TimerTracked (onmessage data now c).2 := by
  unfold TimerTracked at *
  cases data with
  | none => exact h
  | some d =>
    by_cases he : d.error = ""
    · cases hd : d.done
      · rw [onmessage_token now c d he hd]
        cases ht : d.token with
        | none => rw [tokenBranch_none_ctx d now c ht]; exact h
        | some t =>
          rw [tokenBranch_some_ctx d now c t ht]
          unfold startTypingEffect
          cases hti : c.2.typingInterval
          · simp [hti]
          · simp [hti]
      · rw [onmessage_done now c d he hd, doneBranch_ctx]
        cases hti : c.2.typingInterval <;> cases hir : c.2.intervalRunning <;> simp_all
    · rw [onmessage_error now c d he, errorBranch_ctx]
      cases hti : c.2.typingInterval <;> cases hir : c.2.intervalRunning <;> simp_all

theorem onerror_tracked (c : Ctx) (h : TimerTracked c.2) : TimerTracked (onerror c).2 := by
  unfold TimerTracked at *
  simp only [onerror, clearTypingInterval_eq]
  cases hti : c.2.typingInterval <;> cases hir : c.2.intervalRunning <;> simp_all

theorem failsafeFired_tracked (c : Ctx) (h : TimerTracked c.2) :
    TimerTracked (failsafeFired c).2 := by
  unfold TimerTracked at *
  unfold failsafeFired
  split <;> exact h

/-- The fail-safe callback never closes the connection of its session. -/
theorem failsafeFired_keeps_connection (c : Ctx) : (failsafeFired c).2.esOpen = c.2.esOpen := by
  unfold failsafeFired
  split <;> rfl

theorem typingTick_tracked (c : Ctx) (h : TimerTracked c.2) : TimerTracked (typingTick c).2 := by
  unfold TimerTracked at *
  unfold typingTick
  split
  · exact h
  · split
    · intro hr; cases hr
    · exact h

theorem closeConn_all (P : Session → Prop) (k : Nat) (l : List Session)
    (hclose : ∀ s, P s → P { s with esOpen := false })
    (h : ∀ (i : Nat) (s : Session), l[i]? = some s → P s) :
    ∀ (i : Nat) (s : Session), (closeConn k l)[i]? = some s → P s := by
  intro i s hs
  unfold closeConn at hs
  rw [List.getElem?_modify] at hs
  cases hl : l[i]? with
  | none => rw [hl] at hs; cases hs
  | some s0 =>
    rw [hl] at hs
    by_cases hk : k = i
    · simp [hk] at hs; rw [← hs]; exact hclose s0 (h i s0 hl)
    · simp [hk] at hs; rw [← hs]; exact h i s0 hl

theorem setIslandState_all (P : Session → Prop) (newState : String) (a : App)
    (hclose : ∀ s, P s → P { s with esOpen := false })
    (h : AllSessions P a) : AllSessions P (setIslandState newState a) := by
  unfold AllSessions
  rcases setIslandState_sessions newState a with hs | ⟨k, hs⟩
  · rw [hs]; exact h
  · rw [hs]; exact closeConn_all P k a.sessions hclose h

theorem translateText_all (P : Session → Prop) (now : Nat) (ctorThrows : Bool) (a : App)
    (hnew : ∀ url, P
      { streamUrl := url, esOpen := true, failsafeArmed := true, startTime := now,
        fullTranslation := "", displayedText := "", pendingWords := [],
        typingInterval := false, intervalRunning := false })
    (h : AllSessions P a) : AllSessions P (translateText now ctorThrows a) := by
  unfold translateText
  by_cases ht : jsTrim a.page.inputValue = ""
  · simp only [ht, if_true]; exact h
  by_cases hl : a.page.isTranslating = true
  · simp only [ht, hl, if_true, if_false]; exact h
  cases ctorThrows
  · simp only [ht, hl, if_false, Bool.false_eq_true]
    intro i s hs
    change (a.sessions ++ _)[i]? = some s at hs
    rw [List.getElem?_append] at hs
    by_cases hlt : i < a.sessions.length
    · simp only [hlt, if_true] at hs; exact h i s hs
    · simp only [hlt, if_false] at hs
      cases hi : i - a.sessions.length with
      | zero => rw [hi] at hs; simp at hs; rw [← hs]; exact hnew _
      | succ n => rw [hi] at hs; simp at hs
  · simp only [ht, hl, if_false, if_true]
    exact h

theorem withSession_all (P : Session → Prop) (j : Nat) (enabled : Session → Bool)
    (f : Ctx → Ctx) (a : App) (hf : ∀ p s, P s → P (f (p, s)).2)
    (h : AllSessions P a) : AllSessions P (withSession j enabled f a) := by
  unfold withSession
  cases hj : a.sessions[j]? with
  | none => exact h
  | some sj =>
    by_cases he : enabled sj = true
    · simp only [he, if_true]
      intro i s hs
      change (a.sessions.set j _)[i]? = some s at hs
      rw [List.getElem?_set] at hs
      by_cases hji : j = i
      · simp only [hji, if_true] at hs
        split at hs
        · cases hs; exact hf a.page sj (h j sj hj)
        · cases hs
      · simp only [hji, if_false] at hs; exact h i s hs
    · simp only [he]; exact h

theorem runDeferred_all (P : Session → Prop) (d : Deferred) (a : App)
    (hclose : ∀ s, P s → P { s with esOpen := false })
    (h : AllSessions P a) : AllSessions P (runDeferred d a) := by
  cases d with
  | expandResult _ _ => exact h
  | islandEnter _ => exact h
  | islandDefault prev =>
    unfold runDeferred
    by_cases hp : prev = "result"
    · simp only [hp, if_true]; exact h
    · simp only [hp, if_false]; exact h
  | collapseComplete => exact h
  | langCollapse => exact setIslandState_all P _ a hclose h
  | visualizerStop => exact h

/-- A property of session closures that holds of a fresh session and is kept by
`close()` and by every handler of `translateText` holds of all sessions after any
event. -/
theorem step_all (P : Session → Prop) (a : App) (e : Event)
    (hnew : ∀ url now, P
      { streamUrl := url, esOpen := true, failsafeArmed := true, startTime := now,
        fullTranslation := "", displayedText := "", pendingWords := [],
        typingInterval := false, intervalRunning := false })
    (hclose : ∀ s, P s → P { s with esOpen := false })
    (hmsg : ∀ data now p s, P s → P (onmessage data now (p, s)).2)
    (herr : ∀ p s, P s → P (onerror (p, s)).2)
    (hfs : ∀ p s, P s → P (failsafeFired (p, s)).2)
    (htick : ∀ p s, P s → P (typingTick (p, s)).2)
    (h : AllSessions P a) : AllSessions P (step a e) := by
  cases e with
  | micClick => exact h
  | micGranted =>
    show AllSessions P (if 0 < a.page.micPending then _ else a)
    split <;> exact h
  | micDenied =>
    show AllSessions P (if 0 < a.page.micPending then _ else a)
    split <;> exact h
  | speechResult transcript now ct =>
    show AllSessions P (if 0 < a.page.recognitions then recognitionResult transcript now ct a
      else a)
    split
    · exact translateText_all P now ct _ (fun url => hnew url now) h
    · exact h
  | speechError =>
    show AllSessions P (if 0 < a.page.recognitions then _ else a)
    split <;> exact h
  | speechEnd =>
    show AllSessions P (if 0 < a.page.recognitions then _ else a)
    split <;> exact h
  | chooseFile file now =>
    unfold AllSessions
    rw [show (step a (.chooseFile file now)).sessions = a.sessions from
      fileInputChange_sessions file now a]
    exact h
  | uploadTick j now =>
    unfold AllSessions
    rw [show (step a (.uploadTick j now)).sessions = a.sessions from
      withUpload_sessions j _ _ a]
    exact h
  | fetchDone j r now =>
    unfold AllSessions
    rw [show (step a (.fetchDone j r now)).sessions = a.sessions from
      withUpload_sessions j _ _ a]
    exact h
  | jsonDone j r =>
    unfold AllSessions
    rw [show (step a (.jsonDone j r)).sessions = a.sessions from
      withUpload_sessions j _ _ a]
    exact h
  | setInput _ => exact h
  | typeInput _ => exact h
  | submit now ct => exact translateText_all P now ct a (fun url => hnew url now) h
  | message j data now => exact withSession_all P j _ _ a (hmsg data now) h
  | transportError j => exact withSession_all P j _ _ a herr h
  | failsafe j => exact withSession_all P j _ _ a hfs h
  | tick j => exact withSession_all P j _ _ a htick h
  | timeline k =>
    show AllSessions P (match a.page.timelines[k]? with
      | some d => runDeferred d { a with page := { a.page with timelines := a.page.timelines.eraseIdx k } }
      | none => a)
    split
    · exact runDeferred_all P _ _ hclose h
    · exact h
  | dismiss =>
    show AllSessions P (dismissClick a)
    unfold dismissClick
    split
    · exact h
    · exact setIslandState_all P _ a hclose h
  | langButton => exact setIslandState_all P _ a hclose h
  | langItem _ => exact h
  | toggleTts => exact h

/-- Induction over the events handled since page load. -/
theorem reachable_induction (P : App → Prop) (apiBase : String)
    (hinit : P (init apiBase)) (hstep : ∀ a e, P a → P (step a e))
    (a : App) (h : Reachable apiBase a) : P a := by
  obtain ⟨evs, rfl⟩ := h
  have key : ∀ (evs : List Event) (b : App), P b → P (run b evs) := by
    intro evs
    induction evs with
    | nil => intro b hb; exact hb
    | cons e rest ih => intro b hb; exact ih (step b e) (hstep b e hb)
  exact key evs _ hinit

theorem reachable_timerTracked (apiBase : String) (a : App) (h : Reachable apiBase a) :
    AllSessions TimerTracked a := by
  refine reachable_induction (AllSessions TimerTracked) apiBase ?_ ?_ a h
  · intro i s hs; simp [init] at hs
  · intro b e hb
    refine step_all TimerTracked b e ?_ ?_ ?_ ?_ ?_ ?_ hb
    · intro url now hr; cases hr
    · intro s hs; exact hs
    · intro data now p s hs; exact onmessage_tracked data now (p, s) hs
    · intro p s hs; exact onerror_tracked (p, s) hs
    · intro p s hs; exact failsafeFired_tracked (p, s) hs
    · intro p s hs; exact typingTick_tracked (p, s) hs

/-- The default case of `setIslandState` when a stream is active: the state it returns. -/
theorem setIslandState_default_active (a : App) (i : Nat)
    (hl : a.page.isTranslating = true) (ha : a.page.activeEventSource = some i) :
    setIslandState "default" a =
      { a with
        page := { a.page with
          pillState := "default", overlayActive := false, activeEventSource := none,
          isTranslating := false, runBtnDisabled := false, runBtnHTML := idleLabel,
          timelines := a.page.timelines ++ [Deferred.islandDefault a.page.pillState] },
        sessions := closeConn i a.sessions } := by
  have h1 : ("default" : String) ≠ "result" := by decide
  have h2 : ("default" : String) ≠ "voice" := by decide
  have h3 : ("default" : String) ≠ "language" := by decide
  unfold setIslandState
  simp only [h1, h2, h3, if_false, if_true, ne_eq, not_true_eq_false, hl, ha]

theorem closeConn_getElem (l : List Session) (i : Nat) (s : Session) (hs : l[i]? = some s) :
    (closeConn i l)[i]? = some { s with esOpen := false } := by
  unfold closeConn
  rw [List.getElem?_modify, hs]
  simp

theorem closeConn_open_count (l : List Session) (i : Nat) (s : Session)
    (hs : l[i]? = some s) (ho : s.esOpen = true) :
    ((closeConn i l).filter (fun s => s.esOpen)).length + 1 =
      (l.filter (fun s => s.esOpen)).length := by
  unfold closeConn
  induction l generalizing i with
  | nil => simp at hs
  | cons x xs ih =>
    cases i with
    | zero =>
      simp at hs
      subst hs
      simp [List.filter_cons, ho]
    | succ n =>
      simp at hs
      have := ih n hs
      cases hx : x.esOpen <;> simp [List.filter_cons, hx] <;> omega

/-! ## Submission guards -/

/-- Claim C1. Whatever the input text and the rest of the state, a call of
`translateText` made while `state.isTranslating` is true returns the state unchanged:
no session (connection) is added, and the lock, `state.activeEventSource`, the submit
control and the pill state and content are as before. -/
theorem translateText_noop_when_translating (now : Nat) (ctorThrows : Bool) (a : App)
    (h : a.page.isTranslating = true) : translateText now ctorThrows a = a := by
  unfold translateText
  by_cases ht : jsTrim a.page.inputValue = "" <;> simp [ht, h]

/-- Witness of C1: a second submission while `hello world` is in flight. -/
theorem translateText_noop_when_translating_witness :
    inFlightExample.page.isTranslating = true ∧
      translateText 7 false inFlightExample = inFlightExample :=
  ⟨by decide, translateText_noop_when_translating 7 false inFlightExample (by decide)⟩

/-- Claim C10. When the input text is empty after trimming, `translateText` returns the
state unchanged: no connection is opened, the lock is not taken, and the pill state,
the pill content and the submit control are as before. -/
theorem translateText_noop_when_blank (now : Nat) (ctorThrows : Bool) (a : App)
    (h : jsTrim a.page.inputValue = "") : translateText now ctorThrows a = a := by
  simp [translateText, h]

/-- Witness of C10: an input of blanks, a tab and a line feed. -/
theorem translateText_noop_when_blank_witness :
    jsTrim (step (init "http://localhost:8000") (.setInput "  \t\n ")).page.inputValue = "" ∧
      translateText 0 false (step (init "http://localhost:8000") (.setInput "  \t\n ")) =
        step (init "http://localhost:8000") (.setInput "  \t\n ") :=
  ⟨by decide, translateText_noop_when_blank 0 false _ (by decide)⟩

/-- Claim C9, as stated, fails: with a non-blank input and no session in flight, a call
in which `new EventSource` throws opens no connection, records none and leaves the lock
released with the submit control enabled. -/
theorem translateText_ctor_throw_opens_nothing :
    jsTrim (step (init "http://[") (.setInput "hello")).page.inputValue ≠ "" ∧
    (step (init "http://[") (.setInput "hello")).page.isTranslating = false ∧
    (translateText 0 true (step (init "http://[") (.setInput "hello"))).sessions = [] ∧
    (translateText 0 true (step (init "http://[") (.setInput "hello"))).page.isTranslating = false ∧
    (translateText 0 true (step (init "http://[") (.setInput "hello"))).page.runBtnDisabled = false ∧
    (translateText 0 true (step (init "http://[") (.setInput "hello"))).page.activeEventSource = none := by
  decide

/-- Claim C9, amended. For a non-blank input submitted while no session is in flight,
`translateText` sets the pill state to `result` and queues exactly one expansion of the
pill; when the `EventSource` constructor returns, it takes the lock, disables the submit
control and appends exactly one session with an open connection, which it records as
`state.activeEventSource`; when the constructor throws, no session is added and the
lock is released again. -/
theorem translateText_starts_one_session (now : Nat) (ctorThrows : Bool) (a : App)
    (htext : jsTrim a.page.inputValue ≠ "") (hfree : a.page.isTranslating = false) :
    (translateText now ctorThrows a).page.pillState = "result" ∧
    (translateText now ctorThrows a).page.timelines =
      a.page.timelines ++ [Deferred.expandResult (jsTrim a.page.inputValue) ""] ∧
    (ctorThrows = false →
      (translateText now ctorThrows a).page.isTranslating = true ∧
      (translateText now ctorThrows a).page.runBtnDisabled = true ∧
      (translateText now ctorThrows a).page.activeEventSource = some a.sessions.length ∧
      (∃ s, (translateText now ctorThrows a).sessions = a.sessions ++ [s] ∧ s.esOpen = true) ∧
      openConnections (translateText now ctorThrows a) = openConnections a + 1) ∧
    (ctorThrows = true →
      (translateText now ctorThrows a).sessions = a.sessions ∧
      (translateText now ctorThrows a).page.isTranslating = false ∧
      (translateText now ctorThrows a).page.activeEventSource = none) := by
  cases ctorThrows <;>
    simp [translateText, htext, hfree, expandPillWithResult, resetButtonState,
      updatePillContent, openConnections, List.filter_append]

/-- Witness of C9 (amended): `hello` submitted on the freshly loaded page. -/
theorem translateText_starts_one_session_witness :
    jsTrim (step (init "http://localhost:8000") (.setInput "hello")).page.inputValue ≠ "" ∧
    (step (init "http://localhost:8000") (.setInput "hello")).page.isTranslating = false ∧
    (translateText 0 false (step (init "http://localhost:8000") (.setInput "hello"))).page.pillState
      = "result" :=
  ⟨by decide, by decide,
    (translateText_starts_one_session 0 false _ (by decide) (by decide)).1⟩

/-! ## Completion -/

/-- Claim C3, as stated, fails: after the token `Hola `, a completion message whose full
text is empty leaves `Hola ` on display, not the (empty) full text it carries. -/
theorem done_with_empty_full_text_shows_tokens :
    (run (init "http://localhost:8000")
      [.setInput "hello world", .submit 0 false, .timeline 0,
       .message 0 (some (tokenMsg "Hola ")) 300,
       .message 0 (some (doneMsg "" 842)) 900]).page.pillResultContent = "Hola " ∧
    (run (init "http://localhost:8000")
      [.setInput "hello world", .submit 0 false, .timeline 0,
       .message 0 (some (tokenMsg "Hola ")) 300,
       .message 0 (some (doneMsg "" 842)) 900]).page.pillResultContent
        ≠ (doneMsg "" 842).full_text := by
  decide

/-- Claim C3, amended. Whatever the session has in its closure (`c`), and whatever token
messages and reveal ticks `l` it handles before, the displayed content right after a
completion message carrying the full text `F` is handled is `F` itself when `F` is
non-empty, whatever is still queued or was revealed; when `F` is empty it is the
accumulated text: the tokens concatenated in arrival order after what was accumulated
in `c`. -/
theorem done_shows_full_text (now ms : Nat) (c : Ctx) (l : List (Option String)) (F : String) :
    (onmessage (some (doneMsg F ms)) now (feed now c l)).1.pillResultContent =
      if F ≠ "" then F else c.2.fullTranslation ++ concatAll (l.filterMap id) := by
  rw [← feed_fullTranslation now l c, onmessage_done now _ _ rfl rfl, doneBranch_ctx]
  rfl

/-- Claim C4 at the scenario of the specification: after the completion message
(`Hola mundo`, 842 ms) is handled the content and the badge are set, but the lock is
still held, the closed connection is still recorded, the submit control is still
disabled with the label `Streaming...`, and a following submission is rejected. -/
theorem done_leaves_lock_held :
    afterScenario.page.pillResultContent = "Hola mundo" ∧
    afterScenario.page.pillTimeBadge = "842ms" ∧
    afterScenario.page.isTranslating = true ∧
    afterScenario.page.activeEventSource = some 0 ∧
    afterScenario.page.runBtnDisabled = true ∧
    afterScenario.page.runBtnHTML = "Streaming..." ∧
    openConnections afterScenario = 0 ∧
    step (step afterScenario (.setInput "adios")) (.submit 1000 false) =
      step afterScenario (.setInput "adios") := by
  decide

/-! ## End of a session -/

/-- Claim C5, as stated, fails. A completion message that arrives while words are
queued leaves them in the queue (`Hola`, `mundo`); and after the fail-safe timeout the
reveal interval is still running with its words queued, so that the next tick replaces
the timeout message by `uno`. -/
theorem queue_and_timer_survive_session_end :
    (run (init "http://localhost:8000")
      [.setInput "hello world", .submit 0 false, .timeline 0,
       .message 0 (some (tokenMsg "Hola mundo")) 300,
       .message 0 (some (doneMsg "Hola mundo" 842)) 310]).sessions.map (fun s => s.pendingWords)
      = [["Hola", "mundo"]] ∧
    (run (init "http://localhost:8000")
      [.setInput "one two", .submit 0 false, .timeline 0,
       .message 0 (some (tokenMsg "uno dos")) 29990,
       .failsafe 0]).page.pillResultContent = timeoutMessage ∧
    (run (init "http://localhost:8000")
      [.setInput "one two", .submit 0 false, .timeline 0,
       .message 0 (some (tokenMsg "uno dos")) 29990,
       .failsafe 0]).sessions.map (fun s => (s.intervalRunning, s.pendingWords))
      = [(true, ["uno", "dos"])] ∧
    (run (init "http://localhost:8000")
      [.setInput "one two", .submit 0 false, .timeline 0,
       .message 0 (some (tokenMsg "uno dos")) 29990,
       .failsafe 0, .tick 0]).page.pillResultContent = "uno" := by
  decide

/-- Claim C5, amended. In a reachable state, once a completion message or an error
message of an open session `i` has been handled, the reveal interval of that session is
cancelled and its connection closed (the queue is not emptied), and from then on,
whatever events follow, a reveal tick of session `i` changes nothing. -/
theorem end_message_stops_reveal (apiBase : String) (a : App) (hr : Reachable apiBase a)
    (i now : Nat) (s : Session) (d : StreamData)
    (hs : a.sessions[i]? = some s) (ho : s.esOpen = true)
    (hd : d.error ≠ "" ∨ d.done = true) :
    (∃ s1, (step a (.message i (some d) now)).sessions[i]? = some s1 ∧
      s1.esOpen = false ∧ s1.intervalRunning = false) ∧
    ∀ evs, step (run (step a (.message i (some d) now)) evs) (.tick i) =
      run (step a (.message i (some d) now)) evs := by
  have hlt : i < a.sessions.length := by
    rcases Nat.lt_or_ge i a.sessions.length with hlt | hge
    · exact hlt
    · rw [List.getElem?_eq_none hge] at hs; cases hs
  have htr : s.intervalRunning = true → s.typingInterval = true :=
    reachable_timerTracked apiBase a hr i s hs
  have hstop : (s.intervalRunning && !s.typingInterval) = false := by
    cases hti : s.typingInterval <;> cases hir : s.intervalRunning <;> simp_all
  have hq : Quiet i (step a (.message i (some d) now)) := by
    show Quiet i (withSession i _ _ a)
    unfold withSession
    simp only [hs, ho, if_true]
    refine ⟨_, List.getElem?_set_self hlt, ?_, ?_⟩
    · by_cases he : d.error = ""
      · have hdone : d.done = true := by
          rcases hd with h | h
          · exact absurd he h
          · exact h
        rw [onmessage_done now _ d he hdone, doneBranch_ctx]
      · rw [onmessage_error now _ d he, errorBranch_ctx]
    · by_cases he : d.error = ""
      · have hdone : d.done = true := by
          rcases hd with h | h
          · exact absurd he h
          · exact h
        rw [onmessage_done now _ d he hdone, doneBranch_ctx]
        exact hstop
      · rw [onmessage_error now _ d he, errorBranch_ctx]
        exact hstop
  exact ⟨hq, fun evs => tick_of_quiet i _ (run_quiet i evs _ hq)⟩

/-- Witness of C5 (amended): the completion message of the scenario, handled while
`mundo` is still queued; a later tick, after a dismissal, changes nothing. -/
theorem end_message_stops_reveal_witness :
    (run (init "http://localhost:8000") (scenarioEvents.take 6)).sessions.map
        (fun s => (s.esOpen, s.pendingWords)) = [(true, ["mundo"])] ∧
    step (run (step (run (init "http://localhost:8000") (scenarioEvents.take 6))
        (.message 0 (some (doneMsg "Hola mundo" 842)) 900)) [.dismiss]) (.tick 0) =
      run (step (run (init "http://localhost:8000") (scenarioEvents.take 6))
        (.message 0 (some (doneMsg "Hola mundo" 842)) 900)) [.dismiss] :=
  ⟨by decide,
    (end_message_stops_reveal "http://localhost:8000"
      (run (init "http://localhost:8000") (scenarioEvents.take 6)) ⟨_, rfl⟩ 0 900 _
      (doneMsg "Hola mundo" 842) rfl (by decide) (Or.inr (by decide))).2 [.dismiss]⟩

/-! ## Fail-safe timeout -/

/-- Claim C6 at a session that received nothing for 30 seconds: when the fail-safe
fires the content becomes the timeout message and the lock is released with the submit
control re-enabled, but the connection of the session is still open; only the reference
to it is dropped. -/
theorem failsafe_leaves_connection_open :
    afterTimeout.page.pillResultContent = "Translation timed out. Please try again." ∧
    afterTimeout.page.isTranslating = false ∧
    afterTimeout.page.runBtnDisabled = false ∧
    afterTimeout.page.runBtnHTML = "Run <span>→</span>" ∧
    afterTimeout.page.activeEventSource = none ∧
    afterTimeout.sessions.map (fun s => s.esOpen) = [true] ∧
    openConnections afterTimeout = 1 := by
  decide

/-- Claim C2 fails on a reachable state: `hello` is submitted, the fail-safe fires
after 30 seconds (releasing the lock without closing the connection), and Run is
clicked again; two connections opened by `translateText` are then open. -/
theorem two_connections_open_after_timeout :
    Reachable "http://localhost:8000" (step afterTimeout (.submit 30500 false)) ∧
    (step afterTimeout (.submit 30500 false)).sessions.map (fun s => s.esOpen) = [true, true] ∧
    openConnections (step afterTimeout (.submit 30500 false)) = 2 :=
  ⟨⟨[.typeInput "hello", .submit 0 false, .timeline 0, .failsafe 0, .submit 30500 false], rfl⟩,
    by decide, by decide⟩

/-! ## Dismissal -/

/-- Claim C7. In a state where a translation is in flight (`state.isTranslating`) and
`state.activeEventSource` is the open connection of session `i`, the call
`setIslandState('default')` closes that connection (one open connection fewer), clears
`state.activeEventSource` and `state.isTranslating` and re-enables the submit control
with its idle label, while the displayed content and header are still as they were: the
clearing is queued as a timeline callback, which empties the content when it runs after
a `result` state. -/
theorem setIslandState_default_cancels_stream (a : App) (i : Nat) (s : Session)
    (hl : a.page.isTranslating = true) (ha : a.page.activeEventSource = some i)
    (hs : a.sessions[i]? = some s) (ho : s.esOpen = true) :
    (setIslandState "default" a).sessions[i]? = some { s with esOpen := false } ∧
    openConnections (setIslandState "default" a) + 1 = openConnections a ∧
    (setIslandState "default" a).page.activeEventSource = none ∧
    (setIslandState "default" a).page.isTranslating = false ∧
    (setIslandState "default" a).page.runBtnDisabled = false ∧
    (setIslandState "default" a).page.runBtnHTML = "Run <span>→</span>" ∧
    (setIslandState "default" a).page.pillResultContent = a.page.pillResultContent ∧
    (setIslandState "default" a).page.pillInputHeader = a.page.pillInputHeader ∧
    (setIslandState "default" a).page.timelines =
      a.page.timelines ++ [Deferred.islandDefault a.page.pillState] ∧
    (runDeferred (Deferred.islandDefault "result")
      (setIslandState "default" a)).page.pillResultContent = "" := by
  rw [setIslandState_default_active a i hl ha]
  refine ⟨closeConn_getElem _ i s hs, closeConn_open_count _ i s hs ho,
    rfl, rfl, rfl, rfl, rfl, rfl, rfl, ?_⟩
  simp [runDeferred]

/-- Witness of C7: a dismissal while `hello world` is in flight. -/
theorem setIslandState_default_cancels_stream_witness :
    inFlightExample.page.isTranslating = true ∧
    inFlightExample.page.activeEventSource = some 0 ∧
    inFlightExample.sessions.map (fun s => s.esOpen) = [true] ∧
    openConnections (setIslandState "default" inFlightExample) + 1 =
      openConnections inFlightExample :=
  ⟨by decide, by decide, by decide,
    (setIslandState_default_cancels_stream inFlightExample 0 _ (by decide) (by decide)
      rfl (by decide)).2.1⟩

/-- Claim C8, as stated, fails. With `hello world` in flight and no message received,
the language button moves the pill state from `result` to `language`, and typing new
input moves it to `idle` through `collapsePill`; in both cases the lock is still held
and the connection is still open. -/
theorem leaving_result_keeps_stream :
    inFlightExample.page.pillState = "result" ∧
    inFlightExample.page.isTranslating = true ∧
    openConnections inFlightExample = 1 ∧
    (step inFlightExample .langButton).page.pillState = "language" ∧
    (step inFlightExample .langButton).page.isTranslating = true ∧
    openConnections (step inFlightExample .langButton) = 1 ∧
    (step inFlightExample (.typeInput "adios")).page.pillState = "idle" ∧
    (step inFlightExample (.typeInput "adios")).page.isTranslating = true ∧
    openConnections (step inFlightExample (.typeInput "adios")) = 1 := by
  decide

/-! ## Tokens and reveal ticks -/

theorem string_mk_ne_empty (l : List Char) : (String.mk l ≠ "") ↔ l ≠ [] := by
  constructor
  · intro h hl; subst hl; exact h rfl
  · intro h hs
    apply h
    have : (String.mk l).data = ("" : String).data := by rw [hs]
    simpa using this

theorem splitWsAux_fragments (cs : List Char) (cur : List Char) (inSep : Bool)
    (h : inSep = true → cur = []) :
    (splitWsAux cur inSep cs).filter (fun w => w ≠ "") =
      (((cs.splitOnP isJsSpace).modifyHead (cur.reverse ++ ·)).filter
        (fun w => !w.isEmpty)).map String.mk := by
  induction cs generalizing cur inSep with
  | nil =>
    simp only [splitWsAux, List.splitOnP_nil, List.modifyHead, List.append_nil]
    by_cases hc : cur = []
    · subst hc; simp
    · have : String.mk cur.reverse ≠ "" := (string_mk_ne_empty _).2 (by simpa using hc)
      simp [List.filter_cons, this, hc]
  | cons c rest ih =>
    obtain ⟨hd, tl, hsplit⟩ : ∃ hd tl, rest.splitOnP isJsSpace = hd :: tl := by
      cases hr : rest.splitOnP isJsSpace with
      | nil => exact absurd hr (List.splitOnP_ne_nil _ _)
      | cons hd tl => exact ⟨hd, tl, rfl⟩
    by_cases hsp : isJsSpace c = true
    · simp only [splitWsAux, hsp, if_true, List.splitOnP_cons, List.modifyHead, List.append_nil]
      cases inSep with
      | true =>
        have hcur := h rfl
        subst hcur
        rw [if_pos rfl, ih [] true (fun _ => rfl), hsplit]
        simp [List.modifyHead, List.filter_cons]
      | false =>
        simp only [Bool.false_eq_true, if_false]
        rw [List.filter_cons, ih [] true (fun _ => rfl), hsplit]
        by_cases hc : cur = []
        · subst hc; simp [List.modifyHead, List.filter_cons]
        · have : String.mk cur.reverse ≠ "" := (string_mk_ne_empty _).2 (by simpa using hc)
          simp [List.modifyHead, List.filter_cons, this, hc]
    · simp only [splitWsAux, hsp, if_false, List.splitOnP_cons, Bool.false_eq_true]
      rw [ih (c :: cur) false (fun h => by cases h), hsplit]
      simp [List.modifyHead]

theorem tokenWords_eq_fragments (t : String) : tokenWords t = whitespaceFragments t := by
  unfold tokenWords whitespaceFragments splitWs
  rw [splitWsAux_fragments t.toList [] false (fun h => by cases h)]
  cases hr : t.toList.splitOnP isJsSpace with
  | nil => rfl
  | cons hd tl => simp [List.modifyHead]

theorem startTypingEffect_fields (s : Session) :
    (startTypingEffect s).fullTranslation = s.fullTranslation ∧
    (startTypingEffect s).pendingWords = s.pendingWords ∧
    (startTypingEffect s).displayedText = s.displayedText ∧
    (startTypingEffect s).esOpen = s.esOpen ∧
    (startTypingEffect s).intervalRunning = (s.intervalRunning || !s.typingInterval) := by
  unfold startTypingEffect
  cases h : s.typingInterval <;> simp

theorem onmessage_token_pendingWords (now : Nat) (c : Ctx) (t : String) :
    (onmessage (some (tokenMsg t)) now c).2.pendingWords = c.2.pendingWords ++ tokenWords t := by
  rw [onmessage_token now c (tokenMsg t) rfl rfl, tokenBranch_some_ctx (tokenMsg t) now c t rfl]
  exact (startTypingEffect_fields _).2.1

theorem splitOnP_all_separators (p : Char → Bool) (l : List Char) (h : ∀ ch ∈ l, p ch = true) :
    ∀ w ∈ l.splitOnP p, w = [] := by
  induction l with
  | nil => simp
  | cons c rest ih =>
    have hc : p c = true := h c (List.mem_cons_self _ _)
    have hrest : ∀ ch ∈ rest, p ch = true := fun ch hch => h ch (List.mem_cons_of_mem _ hch)
    intro w hw
    rw [List.splitOnP_cons, if_pos hc] at hw
    rcases List.mem_cons.1 hw with rfl | hw
    · rfl
    · exact ih hrest w hw

theorem whitespaceFragments_of_blank (t : String) (h : ∀ ch ∈ t.toList, isJsSpace ch = true) :
    whitespaceFragments t = [] := by
  unfold whitespaceFragments
  have hall := splitOnP_all_separators isJsSpace t.toList h
  rw [List.map_eq_nil_iff, List.filter_eq_nil_iff]
  intro w hw
  simp [hall w hw]


theorem tokenWords_ne_empty (t w : String) (h : w ∈ tokenWords t) : w ≠ "" := by
  unfold tokenWords at h
  simpa using (List.mem_filter.1 h).2

theorem onmessage_wordsNonEmpty (data : Option StreamData) (now : Nat) (c : Ctx)
    (h : WordsNonEmpty c.2) : WordsNonEmpty (onmessage data now c).2 := by
  unfold WordsNonEmpty at *
  cases data with
  | none => exact h
  | some d =>
    by_cases he : d.error = ""
    · cases hd : d.done
      · rw [onmessage_token now c d he hd]
        cases ht : d.token with
        | none => rw [tokenBranch_none_ctx d now c ht]; exact h
        | some t =>
          rw [tokenBranch_some_ctx d now c t ht, (startTypingEffect_fields _).2.1]
          intro w hw
          rcases List.mem_append.1 hw with hw | hw
          · exact h w hw
          · exact tokenWords_ne_empty t w hw
      · rw [onmessage_done now c d he hd, doneBranch_ctx]; exact h
    · rw [onmessage_error now c d he, errorBranch_ctx]; exact h

theorem typingTick_wordsNonEmpty (c : Ctx) (h : WordsNonEmpty c.2) :
    WordsNonEmpty (typingTick c).2 := by
  unfold WordsNonEmpty at *
  unfold typingTick
  split
  · rename_i w rest hq
    intro x hx
    exact h x (by rw [hq]; exact List.mem_cons_of_mem _ hx)
  · split <;> simpa using h

theorem reachable_wordsNonEmpty (apiBase : String) (a : App) (h : Reachable apiBase a) :
    AllSessions WordsNonEmpty a := by
  refine reachable_induction (AllSessions WordsNonEmpty) apiBase ?_ ?_ a h
  · intro i s hs; simp [init] at hs
  · intro b e hb
    refine step_all WordsNonEmpty b e ?_ ?_ ?_ ?_ ?_ ?_ hb
    · intro url now w hw; cases hw
    · intro s hs; exact hs
    · intro data now p s hs; exact onmessage_wordsNonEmpty data now (p, s) hs
    · intro p s hs
      unfold WordsNonEmpty at *
      simpa [onerror, clearTypingInterval_eq] using hs
    · intro p s hs
      unfold WordsNonEmpty at *
      unfold failsafeFired
      split <;> exact hs
    · intro p s hs; exact typingTick_wordsNonEmpty (p, s) hs

theorem typingTick_cons (p : Page) (s : Session) (w : String) (rest : List String)
    (hq : s.pendingWords = w :: rest) :
    typingTick (p, s) =
      (updatePillContent
          (s.displayedText ++ (if s.displayedText ≠ "" then " " else "") ++ w) p,
        { s with pendingWords := rest,
                 displayedText :=
                   s.displayedText ++ (if s.displayedText ≠ "" then " " else "") ++ w }) := by
  unfold typingTick
  simp only [hq]

theorem typingTick_nil (p : Page) (s : Session) (hq : s.pendingWords = []) :
    typingTick (p, s) =
      if p.isTranslating then (p, s)
      else (p, { s with intervalRunning := false, typingInterval := false }) := by
  unfold typingTick
  simp only [hq]
  cases p.isTranslating <;> rfl

theorem string_append_ne_empty_right (a b : String) (h : b ≠ "") : a ++ b ≠ "" := by
  intro hab
  apply h
  have hd : (a ++ b).data = ("" : String).data := by rw [hab]
  rw [String.data_append] at hd
  have hb : b.data = [] := (List.append_eq_nil.1 hd).2
  cases b
  simp_all

theorem intercalate_go_eq (acc sep : String) (l : List String) :
    String.intercalate.go acc sep l = String.intercalate sep (acc :: l) := by
  cases l <;> rfl

theorem typingTick_iterate_displayed (k : Nat) (c : Ctx) (h : WordsNonEmpty c.2) :
    (typingTick^[k] c).2.displayedText =
        String.intercalate " " (shownPieces c.2.displayedText ++ c.2.pendingWords.take k) ∧
    (typingTick^[k] c).2.pendingWords = c.2.pendingWords.drop k := by
  induction k generalizing c with
  | zero =>
    simp only [Function.iterate_zero, id, List.take_zero, List.append_nil, List.drop_zero,
      and_true]
    unfold shownPieces
    by_cases hd : c.2.displayedText = ""
    · simp [hd, String.intercalate]
    · simp [hd, String.intercalate, String.intercalate.go]
  | succ k ih =>
    rw [Function.iterate_succ_apply]
    rcases c with ⟨p, s⟩
    cases hq : s.pendingWords with
    | nil =>
      have hstep : (typingTick (p, s)).2.displayedText = s.displayedText ∧
          (typingTick (p, s)).2.pendingWords = [] := by
        rw [typingTick_nil p s hq]
        cases p.isTranslating <;> simp [hq]
      have hw : WordsNonEmpty (typingTick (p, s)).2 := typingTick_wordsNonEmpty (p, s) h
      have := ih (typingTick (p, s)) hw
      rw [hstep.1, hstep.2] at this
      simpa [hq] using this
    | cons w rest =>
      have hwne : w ≠ "" := h w (by simp [hq])
      have hw : WordsNonEmpty (typingTick (p, s)).2 := typingTick_wordsNonEmpty (p, s) h
      have := ih (typingTick (p, s)) hw
      rw [typingTick_cons p s w rest hq] at this ⊢
      simp only [] at this ⊢
      refine ⟨?_, by simpa [hq] using this.2⟩
      rw [this.1]
      have hne : s.displayedText ++ (if s.displayedText ≠ "" then " " else "") ++ w ≠ "" :=
        string_append_ne_empty_right _ _ hwne
      simp only [shownPieces, hne, if_false, hq, List.take_succ_cons]
      by_cases hd : s.displayedText = ""
      · simp [hd, String.intercalate]
      · simp [hd, String.intercalate, String.intercalate.go]

/-- Claim C11. Whatever a session has accumulated (`c`), after handling the token
messages `ts` in arrival order its full text is extended by the concatenation of the
tokens (for a session that starts empty it is that concatenation), and its pending queue
is extended, in order, by the non-empty fragments of each token split at whitespace; a
token of whitespace only extends the full text and adds no word. -/
theorem tokens_accumulate_in_order (now : Nat) (c : Ctx) (ts : List String) :
    (feed now c (ts.map some)).2.fullTranslation = c.2.fullTranslation ++ concatAll ts ∧
    (c.2.fullTranslation = "" → (feed now c (ts.map some)).2.fullTranslation = concatAll ts) ∧
    (feed now c (ts.map some)).2.pendingWords =
      c.2.pendingWords ++ ts.flatMap whitespaceFragments ∧
    (∀ t : String, (∀ ch ∈ t.toList, isJsSpace ch = true) →
      (onmessage (some (tokenMsg t)) now c).2.fullTranslation = c.2.fullTranslation ++ t ∧
      (onmessage (some (tokenMsg t)) now c).2.pendingWords = c.2.pendingWords) := by
  have hfull : (feed now c (ts.map some)).2.fullTranslation =
      c.2.fullTranslation ++ concatAll ts := by
    have := feed_fullTranslation now (ts.map some) c
    simpa [List.filterMap_map] using this
  refine ⟨hfull, ?_, ?_, ?_⟩
  · intro h0
    rw [hfull, h0]
    exact String.empty_append _
  · induction ts generalizing c with
    | nil => simp [feed]
    | cons t rest ih =>
      simp only [List.map_cons, feed, List.flatMap_cons]
      rw [ih, onmessage_token_pendingWords, tokenWords_eq_fragments, List.append_assoc]
      have := feed_fullTranslation now (rest.map some) (onmessage (some (tokenMsg t)) now c)
      simpa [List.filterMap_map] using this
  · intro t ht
    refine ⟨onmessage_token_fullTranslation now c t, ?_⟩
    rw [onmessage_token_pendingWords, tokenWords_eq_fragments, whitespaceFragments_of_blank t ht,
      List.append_nil]

/-- Witness of C11: a token of two blanks handled by the fresh session of `hello world`
extends the full text and leaves the queue as it was. -/
theorem tokens_accumulate_in_order_witness :
    (∀ ch ∈ "  ".toList, isJsSpace ch = true) ∧
    (onmessage (some (tokenMsg "  ")) 300 (inFlightExample.page,
      { streamUrl := "", esOpen := true, failsafeArmed := true, startTime := 0,
        fullTranslation := "", displayedText := "", pendingWords := [],
        typingInterval := false, intervalRunning := false })).2.pendingWords = [] :=
  ⟨by decide,
    ((tokens_accumulate_in_order 300 (inFlightExample.page, _) []).2.2.2 "  " (by decide)).2⟩

/-- The reveal tick, for a session of a reachable state: a tick with a non-empty queue
removes exactly the head word, appends it to the displayed text after one space (after
nothing when the displayed text is empty) and shows the result; after `k` ticks the
displayed text is what was displayed followed by the first `k` queued words, all joined
by single spaces, and the queue holds the remaining words in order; a tick with an empty
queue while a translation is in flight (`state.isTranslating`) changes nothing, the timer
included, and a tick with an empty queue when none is in flight only stops the timer. -/
theorem reveal_ticks_are_fifo (apiBase : String) (a : App) (hr : Reachable apiBase a)
    (i : Nat) (s : Session) (hs : a.sessions[i]? = some s) (k : Nat) :
    (∀ w rest, s.pendingWords = w :: rest →
      (typingTick (a.page, s)).2.pendingWords = rest ∧
      (typingTick (a.page, s)).2.displayedText =
        (if s.displayedText = "" then w else s.displayedText ++ " " ++ w) ∧
      (typingTick (a.page, s)).1.pillResultContent =
        (typingTick (a.page, s)).2.displayedText) ∧
    (typingTick^[k] (a.page, s)).2.displayedText =
      String.intercalate " " (shownPieces s.displayedText ++ s.pendingWords.take k) ∧
    (typingTick^[k] (a.page, s)).2.pendingWords = s.pendingWords.drop k ∧
    (s.pendingWords = [] → a.page.isTranslating = true →
      typingTick (a.page, s) = (a.page, s)) ∧
    (s.pendingWords = [] → a.page.isTranslating = false →
      typingTick (a.page, s) =
        (a.page, { s with intervalRunning := false, typingInterval := false })) := by
  have hw : WordsNonEmpty s := reachable_wordsNonEmpty apiBase a hr i s hs
  refine ⟨?_, (typingTick_iterate_displayed k (a.page, s) hw).1,
    (typingTick_iterate_displayed k (a.page, s) hw).2, ?_, ?_⟩
  · intro w rest hq
    rw [typingTick_cons a.page s w rest hq]
    refine ⟨rfl, ?_, rfl⟩
    by_cases hd : s.displayedText = ""
    · simp [hd]
    · simp [hd]
  · intro hq ht
    rw [typingTick_nil a.page s hq, ht]
    rfl
  · intro hq ht
    rw [typingTick_nil a.page s hq, ht]
    rfl

/-- Two ticks in the session of `hello world` after the token
`Hola mundo` reveal `Hola mundo`. -/
theorem reveal_ticks_are_fifo_witness :
    (run inFlightExample [.message 0 (some (tokenMsg "Hola mundo")) 300]).sessions.map
      (fun s => (s.displayedText, s.pendingWords)) = [("", ["Hola", "mundo"])] ∧
    (typingTick^[2] ((run inFlightExample [.message 0 (some (tokenMsg "Hola mundo")) 300]).page,
      { streamUrl := "http://localhost:8000/api/translate-stream?text=hello%20world&source_lang=auto&target_lang=es",
        esOpen := true, failsafeArmed := true, startTime := 0, fullTranslation := "Hola mundo",
        displayedText := "", pendingWords := ["Hola", "mundo"], typingInterval := true,
        intervalRunning := true })).2.displayedText = "Hola mundo" :=
  ⟨by decide,
    (reveal_ticks_are_fifo "http://localhost:8000"
      (run inFlightExample [.message 0 (some (tokenMsg "Hola mundo")) 300])
      ⟨[.setInput "hello world", .submit 0 false, .timeline 0,
        .message 0 (some (tokenMsg "Hola mundo")) 300], rfl⟩
      0 _ (by decide) 2).2.1⟩

/-! ## Error message and transport error -/

theorem getElem?_lt_length (l : List Session) (i : Nat) (s : Session) (hs : l[i]? = some s) :
    i < l.length := by
  rcases Nat.lt_or_ge i l.length with hlt | hge
  · exact hlt
  · rw [List.getElem?_eq_none hge] at hs; cases hs

theorem set_closed_open_count (l : List Session) (i : Nat) (s x : Session)
    (hs : l[i]? = some s) (ho : s.esOpen = true) (hx : x.esOpen = false) :
    ((l.set i x).filter (fun s => s.esOpen)).length + 1 =
      (l.filter (fun s => s.esOpen)).length := by
  induction l generalizing i with
  | nil => simp at hs
  | cons y ys ih =>
    cases i with
    | zero =>
      simp at hs
      subst hs
      simp [List.filter_cons, ho, hx]
    | succ n =>
      simp at hs
      have := ih n hs
      cases hy : y.esOpen <;> simp [List.filter_cons, hy] <;> omega

/-- A message on the open connection of session `i` runs `onmessage` on that session. -/
theorem step_message_open (a : App) (i now : Nat) (s : Session) (data : Option StreamData)
    (hs : a.sessions[i]? = some s) (ho : s.esOpen = true) :
    step a (.message i data now) =
      { a with page := (onmessage data now (a.page, s)).1,
               sessions := a.sessions.set i (onmessage data now (a.page, s)).2 } := by
  show withSession i _ _ a = _
  unfold withSession
  simp only [hs, ho, if_true]

/-- A transport error on the open connection of session `i` runs `onerror` on it. -/
theorem step_transportError_open (a : App) (i : Nat) (s : Session)
    (hs : a.sessions[i]? = some s) (ho : s.esOpen = true) :
    step a (.transportError i) =
      { a with page := (onerror (a.page, s)).1,
               sessions := a.sessions.set i (onerror (a.page, s)).2 } := by
  show withSession i _ _ a = _
  unfold withSession
  simp only [hs, ho, if_true]

/-- Claim C13. In a reachable state, when a message whose `error` field is the
(non-empty) text `E` arrives on the open connection of session `i`, the displayed content
becomes `Error: ` followed by `E`, the connection is closed, the fail-safe timer and the
reveal interval of the session are cancelled, and the lock is released with the submit
control enabled under its idle label. -/
theorem error_message_ends_session (apiBase : String) (a : App) (hr : Reachable apiBase a)
    (i now : Nat) (s : Session) (d : StreamData)
    (hs : a.sessions[i]? = some s) (ho : s.esOpen = true) (he : d.error ≠ "") :
    (step a (.message i (some d) now)).page.pillResultContent = "Error: " ++ d.error ∧
    (∃ s1, (step a (.message i (some d) now)).sessions[i]? = some s1 ∧
      s1.esOpen = false ∧ s1.failsafeArmed = false ∧ s1.intervalRunning = false) ∧
    (step a (.message i (some d) now)).page.isTranslating = false ∧
    (step a (.message i (some d) now)).page.activeEventSource = none ∧
    (step a (.message i (some d) now)).page.runBtnDisabled = false ∧
    (step a (.message i (some d) now)).page.runBtnHTML = "Run <span>→</span>" := by
  have hlt := getElem?_lt_length a.sessions i s hs
  have htr : s.intervalRunning = true → s.typingInterval = true :=
    reachable_timerTracked apiBase a hr i s hs
  have hstop : (s.intervalRunning && !s.typingInterval) = false := by
    cases hti : s.typingInterval <;> cases hir : s.intervalRunning <;> simp_all
  rw [step_message_open a i now s (some d) hs ho, onmessage_error now _ d he, errorBranch_ctx]
  refine ⟨rfl, ⟨_, List.getElem?_set_self hlt, rfl, rfl, hstop⟩, rfl, rfl, rfl, rfl⟩

/-- Witness of C13: the message `{"error": "model offline"}` while `hello world` is in
flight. -/
theorem error_message_ends_session_witness :
    inFlightExample.sessions.map (fun s => s.esOpen) = [true] ∧
    (step inFlightExample (.message 0 (some (errorMsg "model offline")) 300)).page.pillResultContent
      = "Error: model offline" ∧
    (step inFlightExample (.message 0 (some (errorMsg "model offline")) 300)).page.isTranslating
      = false :=
  ⟨by decide,
    (error_message_ends_session "http://localhost:8000" inFlightExample ⟨_, rfl⟩ 0 300 _
      (errorMsg "model offline") rfl (by decide) (by decide)).1,
    (error_message_ends_session "http://localhost:8000" inFlightExample ⟨_, rfl⟩ 0 300 _
      (errorMsg "model offline") rfl (by decide) (by decide)).2.2.1⟩

/-- Claim C14. When a transport error is reported on the open connection of session `i`,
the connection is closed and the lock is released with the submit control enabled; the
displayed content becomes `Connection error. Please try again.` when the session has
accumulated no text, and stays as it was when it has accumulated some. -/
theorem transport_error_ends_session (a : App) (i : Nat) (s : Session)
    (hs : a.sessions[i]? = some s) (ho : s.esOpen = true) :
    (∃ s1, (step a (.transportError i)).sessions[i]? = some s1 ∧ s1.esOpen = false) ∧
    openConnections (step a (.transportError i)) + 1 = openConnections a ∧
    (step a (.transportError i)).page.isTranslating = false ∧
    (step a (.transportError i)).page.activeEventSource = none ∧
    (step a (.transportError i)).page.runBtnDisabled = false ∧
    (s.fullTranslation = "" →
      (step a (.transportError i)).page.pillResultContent =
        "Connection error. Please try again.") ∧
    (s.fullTranslation ≠ "" →
      (step a (.transportError i)).page.pillResultContent = a.page.pillResultContent) := by
  have hlt := getElem?_lt_length a.sessions i s hs
  rw [step_transportError_open a i s hs ho]
  have hsess : (onerror (a.page, s)).2 =
      { s with esOpen := false, failsafeArmed := false,
               intervalRunning := s.intervalRunning && !s.typingInterval } := by
    simp only [onerror, clearTypingInterval_eq]
  refine ⟨⟨_, List.getElem?_set_self hlt, by rw [hsess]⟩, ?_, rfl, rfl, rfl, ?_, ?_⟩
  · show ((a.sessions.set i _).filter (fun s => s.esOpen)).length + 1 = _
    exact set_closed_open_count a.sessions i s _ hs ho (by rw [hsess])
  · intro h0
    simp [onerror, clearTypingInterval_eq, h0, updatePillContent, resetButtonState]
  · intro h0
    simp [onerror, clearTypingInterval_eq, h0, updatePillContent, resetButtonState]

/-- Witness of C14: the connection of `hello world` drops before any token. -/
theorem transport_error_ends_session_witness :
    inFlightExample.sessions.map (fun s => (s.esOpen, s.fullTranslation)) = [(true, "")] ∧
    (step inFlightExample (.transportError 0)).page.pillResultContent =
      "Connection error. Please try again." :=
  ⟨by decide,
    (transport_error_ends_session inFlightExample 0 _ rfl (by decide)).2.2.2.2.2.1 (by decide)⟩

/-! ## The stream URL -/

theorem utf8Bytes_lt (c : Char) (b : Nat) (hb : b ∈ utf8Bytes c) : b < 256 := by
  have hv : c.toNat < 0x110000 := by
    have := c.valid
    simp only [UInt32.isValidChar, Nat.isValidChar] at this
    show c.val.toNat < 0x110000
    omega
  unfold utf8Bytes at hb
  simp only at hb
  split at hb
  · simp at hb; omega
  · split at hb
    · simp at hb; omega
    · split at hb
      · simp at hb; omega
      · simp at hb; omega

theorem hexDigit_unreserved (n : Nat) (h : n < 16) : isUriUnreserved (hexDigit n) = true := by
  interval_cases n <;> decide

/-- Every character written by `encodeURIComponent` is an unreserved character or `%`. -/
theorem encodeURIComponent_chars (s : String) (c : Char)
    (hc : c ∈ (encodeURIComponent s).toList) : isUriUnreserved c = true ∨ c = '%' := by
  unfold encodeURIComponent at hc
  simp only [String.toList, List.mem_flatMap] at hc
  obtain ⟨x, _, hx⟩ := hc
  by_cases hu : isUriUnreserved x = true
  · simp only [hu, if_true, List.mem_singleton] at hx
    left; rw [hx]; exact hu
  · simp only [hu, Bool.false_eq_true, if_false, List.mem_flatMap] at hx
    obtain ⟨b, hb, hcb⟩ := hx
    have hlt := utf8Bytes_lt x b hb
    simp only [percentByte, List.mem_cons, List.mem_singleton, List.not_mem_nil, or_false] at hcb
    rcases hcb with h | h | h
    · right; exact h
    · left; rw [h]; exact hexDigit_unreserved _ (by omega)
    · left; rw [h]; exact hexDigit_unreserved _ (by omega)

theorem takeWhile_append_cons {p : Char → Bool} (l1 : List Char) (y : Char) (l2 : List Char)
    (h1 : ∀ x ∈ l1, p x = true) (hy : p y = false) :
    (l1 ++ y :: l2).takeWhile p = l1 := by
  induction l1 with
  | nil => simp [List.takeWhile, hy]
  | cons x xs ih =>
    have hx : p x = true := h1 x (List.mem_cons_self _ _)
    simp [List.takeWhile_cons, hx, ih (fun z hz => h1 z (List.mem_cons_of_mem _ hz))]

theorem dropWhile_append_cons {p : Char → Bool} (l1 : List Char) (y : Char) (l2 : List Char)
    (h1 : ∀ x ∈ l1, p x = true) (hy : p y = false) :
    (l1 ++ y :: l2).dropWhile p = y :: l2 := by
  induction l1 with
  | nil => simp [List.dropWhile, hy]
  | cons x xs ih =>
    have hx : p x = true := h1 x (List.mem_cons_self _ _)
    simp [List.dropWhile_cons, hx, ih (fun z hz => h1 z (List.mem_cons_of_mem _ hz))]

theorem takeWhile_all {p : Char → Bool} (l : List Char) (h : ∀ x ∈ l, p x = true) :
    l.takeWhile p = l := by
  induction l with
  | nil => rfl
  | cons x xs ih =>
    have hx : p x = true := h x (List.mem_cons_self _ _)
    simp [List.takeWhile_cons, hx, ih (fun z hz => h z (List.mem_cons_of_mem _ hz))]

/-- The characters of the stream URL, cut at the separators the template writes. -/
theorem streamUrl_toList (apiBase text lang : String) :
    (streamUrl apiBase text lang).toList =
      (apiBase.toList ++ "/api/translate-stream".toList) ++ '?' ::
        (("text".toList ++ '=' :: (encodeURIComponent text).toList) ++ '&' ::
          (("source_lang".toList ++ '=' :: "auto".toList) ++ '&' ::
            ("target_lang".toList ++ '=' :: (encodeURIComponent lang).toList))) := by
  simp only [streamUrl, String.toList, String.data_append, List.append_assoc]
  rfl

theorem encoded_not_separator (s : String) (sep : Char)
    (hsep : isUriUnreserved sep = false) (hp : sep ≠ '%') :
    ∀ c ∈ (encodeURIComponent s).toList, c ≠ sep := by
  intro c hc hcs
  subst hcs
  rcases encodeURIComponent_chars s c hc with h | h
  · rw [hsep] at h; cases h
  · exact hp h

/-- The query of a URL made of an `api` part without `?` and `#` and the three fields
that `streamUrl` writes. -/
theorem queryParameters_streamUrl (apiBase text lang : String)
    (hbase : ∀ c ∈ apiBase.toList, c ≠ '?' ∧ c ≠ '#') :
    queryParameters (streamUrl apiBase text lang) =
      [("text", encodeURIComponent text), ("source_lang", "auto"),
       ("target_lang", encodeURIComponent lang)] := by
  have hT := encodeURIComponent_chars text
  have hL := encodeURIComponent_chars lang
  have nT : ∀ sep, isUriUnreserved sep = false → sep ≠ '%' →
      ∀ c ∈ (encodeURIComponent text).toList, c ≠ sep :=
    fun sep h1 h2 => encoded_not_separator text sep h1 h2
  have nL : ∀ sep, isUriUnreserved sep = false → sep ≠ '%' →
      ∀ c ∈ (encodeURIComponent lang).toList, c ≠ sep :=
    fun sep h1 h2 => encoded_not_separator lang sep h1 h2
  unfold queryParameters
  simp only
  rw [streamUrl_toList]
  -- no fragment
  have hnofrag : ∀ x ∈ (apiBase.toList ++ "/api/translate-stream".toList) ++ '?' ::
        (("text".toList ++ '=' :: (encodeURIComponent text).toList) ++ '&' ::
          (("source_lang".toList ++ '=' :: "auto".toList) ++ '&' ::
            ("target_lang".toList ++ '=' :: (encodeURIComponent lang).toList))),
      (decide (x ≠ '#')) = true := by
    intro x hx
    simp only [List.mem_append, List.mem_cons] at hx
    have hlit : ∀ l : List Char, (∀ y ∈ l, decide (y ≠ '#') = true) → x ∈ l →
        decide (x ≠ '#') = true := fun l hl hxl => hl x hxl
    rcases hx with (h | h) | h | (h | h | h) | h | (h | h | h) | h | h | h | h
    · simpa using (hbase x h).2
    · exact hlit _ (by decide) h
    · subst h; decide
    · exact hlit _ (by decide) h
    · subst h; decide
    · simpa using nT '#' (by decide) (by decide) x h
    · subst h; decide
    · exact hlit _ (by decide) h
    · subst h; decide
    · exact hlit _ (by decide) h
    · subst h; decide
    · exact hlit _ (by decide) h
    · subst h; decide
    · simpa using nL '#' (by decide) (by decide) x h
  rw [takeWhile_all _ hnofrag]
  -- the query starts after the first `?`
  have hpre : ∀ x ∈ apiBase.toList ++ "/api/translate-stream".toList,
      (decide (x ≠ '?')) = true := by
    intro x hx
    rcases List.mem_append.1 hx with h | h
    · simpa using (hbase x h).1
    · exact (show ∀ y ∈ "/api/translate-stream".toList, decide (y ≠ '?') = true by decide) x h
  rw [dropWhile_append_cons _ '?' _ hpre (by decide)]
  simp only [List.drop_succ_cons, List.drop_zero, List.splitOn]
  -- the three fields
  have hF1 : ∀ x ∈ "text".toList ++ '=' :: (encodeURIComponent text).toList,
      ¬ ((x == '&') = true) := by
    intro x hx
    simp only [List.mem_append, List.mem_cons] at hx
    rcases hx with h | h | h
    · exact (show ∀ y ∈ "text".toList, ¬ ((y == '&') = true) by decide) x h
    · subst h; decide
    · simpa using nT '&' (by decide) (by decide) x h
  have hF2 : ∀ x ∈ "source_lang".toList ++ '=' :: "auto".toList,
      ¬ ((x == '&') = true) := by decide
  have hF3 : ∀ x ∈ "target_lang".toList ++ '=' :: (encodeURIComponent lang).toList,
      ¬ ((x == '&') = true) := by
    intro x hx
    simp only [List.mem_append, List.mem_cons] at hx
    rcases hx with h | h | h
    · exact (show ∀ y ∈ "target_lang".toList, ¬ ((y == '&') = true) by decide) x h
    · subst h; decide
    · simpa using nL '&' (by decide) (by decide) x h
  rw [List.splitOnP_first _ _ hF1 '&' (by decide), List.splitOnP_first _ _ hF2 '&' (by decide),
    List.splitOnP_eq_single _ _ hF3]
  have hname : ∀ (name : List Char) (value : List Char),
      (∀ x ∈ name, decide (x ≠ '=') = true) →
      (String.mk ((name ++ '=' :: value).takeWhile (fun c => decide (c ≠ '='))),
        String.mk (((name ++ '=' :: value).dropWhile (fun c => decide (c ≠ '='))).drop 1)) =
      (String.mk name, String.mk value) := by
    intro name value hn
    rw [takeWhile_append_cons name '=' value hn (by decide),
      dropWhile_append_cons name '=' value hn (by decide)]
    rfl
  have hne : ∀ (name value : List Char), (!(name ++ '=' :: value).isEmpty) = true := by
    intro name value
    cases name <;> rfl
  simp only [List.filter_cons, List.filter_nil, List.map_cons, List.map_nil, hne, if_true]
  rw [hname "text".toList _ (by decide), hname "source_lang".toList _ (by decide),
    hname "target_lang".toList _ (by decide)]
  rfl

/-- The session that `translateText` appends when the constructor returns. -/
theorem translateText_sessions (now : Nat) (a : App)
    (htext : jsTrim a.page.inputValue ≠ "") (hfree : a.page.isTranslating = false) :
    (translateText now false a).sessions = a.sessions ++
      [{ streamUrl := streamUrl a.page.apiBase (jsTrim a.page.inputValue) a.page.langSelect,
         esOpen := true, failsafeArmed := true, startTime := now, fullTranslation := "",
         displayedText := "", pendingWords := [], typingInterval := false,
         intervalRunning := false }] := by
  simp [translateText, htext, hfree, expandPillWithResult]

/-! ## File upload -/

theorem lastIndexOfAux_not_mem (c : Char) (l : List Char) (i : Nat) (acc : Int)
    (h : c ∉ l) : lastIndexOfAux c l i acc = acc := by
  induction l generalizing i acc with
  | nil => rfl
  | cons x xs ih =>
    have hx : x ≠ c := fun hxc => h (by rw [hxc]; exact List.mem_cons_self _ _)
    have hxs : c ∉ xs := fun hc => h (List.mem_cons_of_mem _ hc)
    simp only [lastIndexOfAux, hx, if_false]
    exact ih (i + 1) acc hxs

theorem lastIndexOfAux_last (c : Char) (stem ext : List Char) (i : Nat) (acc : Int)
    (h : c ∉ ext) : lastIndexOfAux c (stem ++ c :: ext) i acc = ((i + stem.length : Nat) : Int) := by
  induction stem generalizing i acc with
  | nil =>
    simp only [List.nil_append, lastIndexOfAux, if_true, List.length_nil, Nat.add_zero]
    exact lastIndexOfAux_not_mem c ext (i + 1) _ h
  | cons x xs ih =>
    show lastIndexOfAux c (xs ++ c :: ext) (i + 1) (if x = c then (i : Int) else acc) = _
    rw [ih (i + 1), List.length_cons]
    congr 1
    omega

theorem exists_last_occurrence (c : Char) (l : List Char) (h : c ∈ l) :
    ∃ stem ext, l = stem ++ c :: ext ∧ c ∉ ext := by
  induction l with
  | nil => cases h
  | cons x xs ih =>
    by_cases hxs : c ∈ xs
    · obtain ⟨stem, ext, hl, hn⟩ := ih hxs
      exact ⟨x :: stem, ext, by rw [hl]; rfl, hn⟩
    · rcases List.mem_cons.1 h with hcx | hcx
      · exact ⟨[], xs, by rw [hcx]; rfl, hxs⟩
      · exact absurd hcx hxs

theorem toLower_eq_dot (x : Char) (h : x.toLower = '.') : x = '.' := by
  unfold Char.toLower at h
  simp only at h
  split at h
  · rename_i hr
    obtain ⟨h1, h2⟩ := hr
    exfalso
    generalize x.toNat = n at h h1 h2
    interval_cases n <;> exact absurd h (by decide)
  · exact h

/-- The extension computed for a name whose last `.` is followed by `ext`. -/
theorem fileExt_of_last_dot (name : String) (stem ext : List Char)
    (hn : name.toList = stem ++ '.' :: ext) (hd : '.' ∉ ext) :
    fileExt name = jsToLowerCase (String.mk ('.' :: ext)) := by
  unfold fileExt jsSubstringFrom jsLastIndexOf
  rw [hn, lastIndexOfAux_last '.' stem ext 0 (-1) hd]
  simp

/-- A name without `.` is never accepted. -/
theorem fileExt_of_no_dot (name : String) (hd : '.' ∉ name.toList) :
    validTypes.contains (fileExt name) = false := by
  unfold fileExt jsSubstringFrom jsLastIndexOf
  rw [lastIndexOfAux_not_mem '.' name.toList 0 (-1) hd]
  have hmap : '.' ∉ name.toList.map Char.toLower := by
    intro hm
    obtain ⟨x, hx, hxl⟩ := List.mem_map.1 hm
    rw [toLower_eq_dot x hxl] at hx
    exact hd hx
  have hdots : ∀ v ∈ validTypes, '.' ∈ v.toList := by decide
  rw [Bool.eq_false_iff]
  intro hc
  have hmem : jsToLowerCase (String.mk (name.toList.drop (-1 : Int).toNat)) ∈ validTypes := by
    simpa using hc
  have hdot := hdots _ hmem
  exact hmap (by simpa [jsToLowerCase] using hdot)

/-- The state that `handleDocumentUpload` returns for a rejected file. -/
theorem handleDocumentUpload_rejected (file : UploadFile) (now : Nat) (a : App)
    (h : validTypes.contains (fileExt file.name) = false) :
    handleDocumentUpload file now a =
      { a with page := markPillComplete (expandPillWithResult "Warning: Invalid file"
          ("Supported: " ++ String.intercalate ", " validTypes) a.page) } := by
  unfold handleDocumentUpload
  simp only [h, Bool.not_false, if_true]

/-- The state that `handleDocumentUpload` returns for an accepted file. -/
theorem handleDocumentUpload_accepted (file : UploadFile) (now : Nat) (a : App)
    (h : validTypes.contains (fileExt file.name) = true) :
    handleDocumentUpload file now a =
      { a with
        page := { updatePillContent "Translating..."
            (expandPillWithResult file.name "Uploading..." a.page) with
          uploadRequests := a.page.uploadRequests + 1 },
        uploads := a.uploads ++
          [{ file := file,
             targetLang := if a.page.langSelect ≠ "" then a.page.langSelect else "es",
             startTime := now, timerRunning := true, awaitingFetch := true,
             awaitingJson := false }] } := by
  unfold handleDocumentUpload
  simp only [h, Bool.not_true, Bool.false_eq_true, if_false]
  rfl

/-- Claim C16, as stated, fails: for `notes.docx` no upload is posted, but the call of
`markPillComplete()` on the rejection path runs `updateLiveStats()`, which fetches
`/api/stats`; and when the call returns the message is not on display yet, it is shown
by the queued expansion of the pill. -/
theorem rejected_upload_fetches_stats :
    validTypes.contains (fileExt notesDocx.name) = false ∧
    networkCalls (init "http://localhost:8000") = 0 ∧
    networkCalls (handleDocumentUpload notesDocx 0 (init "http://localhost:8000")) = 1 ∧
    (handleDocumentUpload notesDocx 0 (init "http://localhost:8000")).page.statsRefreshes = 1 ∧
    (handleDocumentUpload notesDocx 0 (init "http://localhost:8000")).page.pillResultContent = "" ∧
    (run (handleDocumentUpload notesDocx 0 (init "http://localhost:8000"))
      [.timeline 0]).page.pillResultContent = "Supported: .txt, .md, .srt, .pdf" := by
  decide

/-- Claim C16, amended. The function `handleDocumentUpload` accepts a file exactly when
its name has a `.` and the part of the name from the last `.` onwards, lower-cased, is one
of `.txt`, `.md`, `.srt`, `.pdf`. For every other file it starts at once the expansion of
the pill that shows `Supported: .txt, .md, .srt, .pdf`, posts no upload, opens no
connection and creates no upload closure; its only request is the stats refresh made by
`markPillComplete()`. For an accepted file it posts exactly one upload. -/
theorem document_upload_validation (file : UploadFile) (now : Nat) (a : App) :
    (validTypes.contains (fileExt file.name) = true ↔
      ∃ stem ext, file.name.toList = stem ++ '.' :: ext ∧ '.' ∉ ext ∧
        jsToLowerCase (String.mk ('.' :: ext)) ∈ validTypes) ∧
    (validTypes.contains (fileExt file.name) = false →
      (handleDocumentUpload file now a).page.pillState = "result" ∧
      (handleDocumentUpload file now a).page.timelines = a.page.timelines ++
        [Deferred.expandResult "Warning: Invalid file" "Supported: .txt, .md, .srt, .pdf"] ∧
      (handleDocumentUpload file now a).page.uploadRequests = a.page.uploadRequests ∧
      (handleDocumentUpload file now a).uploads = a.uploads ∧
      (handleDocumentUpload file now a).sessions = a.sessions ∧
      (handleDocumentUpload file now a).page.statsRefreshes = a.page.statsRefreshes + 1) ∧
    (validTypes.contains (fileExt file.name) = true →
      (handleDocumentUpload file now a).page.uploadRequests = a.page.uploadRequests + 1 ∧
      (handleDocumentUpload file now a).uploads.length = a.uploads.length + 1) := by
  refine ⟨⟨?_, ?_⟩, ?_, ?_⟩
  · intro hacc
    by_cases hdot : '.' ∈ file.name.toList
    · obtain ⟨stem, ext, hn, hd⟩ := exists_last_occurrence '.' file.name.toList hdot
      refine ⟨stem, ext, hn, hd, ?_⟩
      rw [← fileExt_of_last_dot file.name stem ext hn hd]
      simpa using hacc
    · rw [fileExt_of_no_dot file.name hdot] at hacc
      cases hacc
  · rintro ⟨stem, ext, hn, hd, hmem⟩
    rw [fileExt_of_last_dot file.name stem ext hn hd]
    simpa using hmem
  · intro hrej
    rw [handleDocumentUpload_rejected file now a hrej]
    exact ⟨rfl, rfl, rfl, rfl, rfl, rfl⟩
  · intro hacc
    rw [handleDocumentUpload_accepted file now a hacc]
    exact ⟨rfl, by simp⟩

/-- Witness of C16 (amended): `notes.docx` on the freshly loaded page. -/
theorem document_upload_validation_witness :
    validTypes.contains (fileExt notesDocx.name) = false ∧
    (handleDocumentUpload notesDocx 0 (init "http://localhost:8000")).page.uploadRequests = 0 :=
  ⟨by decide,
    ((document_upload_validation notesDocx 0 (init "http://localhost:8000")).2.1
      (by decide)).2.2.1⟩

/-- On the paths of `handleDocumentUpload` that pass validation the ticker is stopped:
when `fetch` settles the interval is cleared, and when an exit is reached the file input
is emptied. -/
theorem upload_settled_paths_reset (p : Page) (u : Upload) (now : Nat) :
    (∀ r, (fetchSettled r now (p, u)).2.timerRunning = false) ∧
    (∀ message, (fetchSettled (.rejected message) now (p, u)).1.fileInputValue = "") ∧
    (∀ status, (fetchSettled (.response false status) now (p, u)).1.fileInputValue = "") ∧
    (∀ r, (jsonSettled r (p, u)).1.fileInputValue = "") := by
  refine ⟨?_, ?_, ?_, ?_⟩
  · intro r
    cases r with
    | rejected message => rfl
    | response ok status => cases ok <;> rfl
  · intro message; rfl
  · intro status; rfl
  · intro r
    cases r with
    | rejected message => rfl
    | body data =>
      unfold jsonSettled
      simp only
      split <;> rfl

/-- Claim C17 at the validation exit: after `notes.docx` is picked and rejected the file
input still holds it (`handleDocumentUpload` returns before the statement that empties
the control), so picking the same file again fires no `change` event and changes
nothing. -/
theorem rejected_upload_keeps_file_input :
    (step (init "http://localhost:8000") (.chooseFile notesDocx 0)).page.fileInputValue
      = "notes.docx" ∧
    (step (init "http://localhost:8000") (.chooseFile notesDocx 0)).uploads = [] ∧
    step (step (init "http://localhost:8000") (.chooseFile notesDocx 0))
        (.chooseFile notesDocx 5000) =
      step (init "http://localhost:8000") (.chooseFile notesDocx 0) ∧
    (run (init "http://localhost:8000")
      [.chooseFile ⟨"notes.txt", 120⟩ 0, .timeline 0,
       .fetchDone 0 (.response false 500) 900]).page.fileInputValue = "" := by
  decide

/-- Claim C18, as stated, fails: for a response that reports success with
`chars_processed` given as 0, the reported count is the file size (2048), not the
`chars_processed` of the body. -/
theorem zero_chars_processed_reports_file_size :
    (run (init "http://localhost:8000")
      [.chooseFile ⟨"scan.pdf", 2048⟩ 0, .timeline 0, .fetchDone 0 (.response true 200) 900,
       .jsonDone 0 (.body
         { success := true, translated_content := "", translated_text := "", translation := "",
           chars_processed := some 0, detail := "", error := "" })]).page.toasts
      = ["✓ Translated 2048 characters"] := by
  decide

/-- Claim C18, amended. When the body of an OK response reports success or carries
`translated_content` or `translated_text`, the displayed content becomes the returned
text (`translated_content`, else `translated_text`, else `translation`) and the toast
reports `chars_processed` when it is given and not 0, otherwise the file size; for a
response that is not OK with status `status` the content becomes
`Error: Server error: ` followed by the status; and for an OK body that reports no success
the content is `Error: ` followed by its `detail`, else its `error`, else
`Translation failed`. -/
theorem upload_response_display (p : Page) (u : Upload) (now status : Nat) (d : UploadData) :
    ((d.success = true ∨ d.translated_content ≠ "" ∨ d.translated_text ≠ "") →
      (jsonSettled (.body d) (p, u)).1.pillResultContent =
        (if d.translated_content ≠ "" then d.translated_content
         else if d.translated_text ≠ "" then d.translated_text else d.translation) ∧
      (∀ n, d.chars_processed = some n → n ≠ 0 →
        (jsonSettled (.body d) (p, u)).1.toasts =
          p.toasts ++ ["✓ Translated " ++ toString n ++ " characters"]) ∧
      ((d.chars_processed = none ∨ d.chars_processed = some 0) →
        (jsonSettled (.body d) (p, u)).1.toasts =
          p.toasts ++ ["✓ Translated " ++ toString u.file.size ++ " characters"])) ∧
    (fetchSettled (.response false status) now (p, u)).1.pillResultContent =
      "Error: Server error: " ++ toString status ∧
    ((d.success = false ∧ d.translated_content = "" ∧ d.translated_text = "") →
      (jsonSettled (.body d) (p, u)).1.pillResultContent =
        "Error: " ++ (if d.detail ≠ "" then d.detail
          else if d.error ≠ "" then d.error else "Translation failed")) := by
  refine ⟨?_, ?_, ?_⟩
  · intro hs
    have hcond : (d.success || decide (d.translated_content ≠ "") ||
        decide (d.translated_text ≠ "")) = true := by
      rcases hs with h | h | h <;> simp [h]
    have hrun : jsonSettled (.body d) (p, u) =
        (resetFileInput { markPillComplete (updatePillContent (uploadTranslation d) p) with
          statsRefreshes := p.statsRefreshes + 1 + 1,
          toasts := p.toasts ++
            ["✓ Translated " ++ toString (uploadChars d u.file) ++ " characters"] },
         { u with awaitingJson := false }) := by
      unfold jsonSettled
      simp only [hcond, if_true]
      rfl
    rw [hrun]
    refine ⟨rfl, ?_, ?_⟩
    · intro n hn hn0
      simp [resetFileInput, uploadChars, hn, hn0]
    · intro hn
      rcases hn with hn | hn <;> simp [resetFileInput, uploadChars, hn]
  · have hne : "Server error: " ++ toString status ≠ "" := by
      intro h
      have hd : ("Server error: " ++ toString status).data = ("" : String).data := by rw [h]
      rw [String.data_append] at hd
      have := (List.append_eq_nil.1 hd).1
      exact absurd this (by decide)
    simp only [fetchSettled, uploadCatch, resetFileInput, markPillComplete, updatePillContent,
      updatePillTime, hne, Bool.not_false, if_true, if_false, ne_eq, not_false_eq_true]
    rw [← String.append_assoc]
    rfl
  · rintro ⟨h1, h2, h3⟩
    unfold jsonSettled
    simp [h1, h2, h3, resetFileInput, markPillComplete, updatePillContent, uploadErrorDetail]

/-- Witness of C18 (amended): a body that reports success with `hola` and 4 characters. -/
theorem upload_response_display_witness :
    (jsonSettled (.body
        { success := true, translated_content := "", translated_text := "hola",
          translation := "", chars_processed := some 4, detail := "", error := "" })
      ((init "http://localhost:8000").page,
        { file := { name := "notes.txt", size := 120 }, targetLang := "es", startTime := 0,
          timerRunning := false, awaitingFetch := false, awaitingJson := true })
      ).1.pillResultContent = "hola" :=
  ((upload_response_display (init "http://localhost:8000").page
      { file := { name := "notes.txt", size := 120 }, targetLang := "es", startTime := 0,
        timerRunning := false, awaitingFetch := false, awaitingJson := true } 0 200
      { success := true, translated_content := "", translated_text := "hola",
        translation := "", chars_processed := some 4, detail := "", error := "" }).1
    (Or.inl rfl)).1

/-! ## Pill state and state classes -/

/-- Claim C19 fails on a reachable state: with `hello world` in flight the user types
new input, the `input` listener calls `collapsePill()`, and the pill state variable holds
`idle`, which is none of `default`, `result`, `voice`, `language`. -/
theorem collapsePill_sets_idle :
    Reachable "http://localhost:8000" (step inFlightExample (.typeInput "adios")) ∧
    (step inFlightExample (.typeInput "adios")).page.pillState = "idle" ∧
    (step inFlightExample (.typeInput "adios")).page.pillState ∉ pillStates ∧
    (collapsePill (init "http://localhost:8000").page).pillState = "idle" :=
  ⟨⟨[.setInput "hello world", .submit 0 false, .timeline 0, .typeInput "adios"], rfl⟩,
    by decide, by decide, by decide⟩

/-- Claim C20 fails after these transitions have run to completion: the language button
(`setIslandState('language')`) and its callback, then a submission
(`expandPillWithResult`) and its callback. No callback is pending and the command box
carries both `language-expanded` and `result-expanded`: `expandPillWithResult` adds its
class without removing the other state classes, as `setIslandState` does. -/
theorem two_state_classes_after_expand :
    (run (init "http://localhost:8000")
      [.langButton, .timeline 0, .typeInput "hello", .submit 0 false,
       .timeline 0]).page.timelines = [] ∧
    (run (init "http://localhost:8000")
      [.langButton, .timeline 0, .typeInput "hello", .submit 0 false,
       .timeline 0]).page.boxClasses = ["language-expanded", "result-expanded"] ∧
    stateClassCount (run (init "http://localhost:8000")
      [.langButton, .timeline 0, .typeInput "hello", .submit 0 false, .timeline 0]) = 2 := by
  decide

/-! ## Configuration -/

theorem storageGet_storageSet (st : Storage) (key value : String) :
    storageGet (storageSet st key value) key = some value := by
  simp [storageGet, storageSet, List.find?]

/-- Claim C26. The function `getApiBase` returns the `api` query parameter when it is
present and non-empty and stores it under `paraos_api`; otherwise it returns the stored
`paraos_api` value when that is present and non-empty; otherwise it returns
`http://localhost:8000`; in the last two cases the storage is left as it is. So after a
call with a non-empty parameter `p`, a call without parameter on the resulting storage
returns `p`. -/
theorem getApiBase_priority (apiParam : Option String) (st : Storage) :
    (∀ p, apiParam = some p → p ≠ "" →
      getApiBase apiParam st = (p, storageSet st "paraos_api" p) ∧
      storageGet (getApiBase apiParam st).2 "paraos_api" = some p) ∧
    ((apiParam = none ∨ apiParam = some "") →
      ∀ v, storageGet st "paraos_api" = some v → v ≠ "" → getApiBase apiParam st = (v, st)) ∧
    ((apiParam = none ∨ apiParam = some "") →
      (storageGet st "paraos_api" = none ∨ storageGet st "paraos_api" = some "") →
      getApiBase apiParam st = ("http://localhost:8000", st)) ∧
    (∀ p, p ≠ "" → (getApiBase none (getApiBase (some p) st).2).1 = p) := by
  refine ⟨?_, ?_, ?_, ?_⟩
  · intro p hp hne
    subst hp
    have hcall : getApiBase (some p) st = (p, storageSet st "paraos_api" p) := by
      simp [getApiBase, hne]
    rw [hcall]
    exact ⟨rfl, storageGet_storageSet st _ p⟩
  · intro hp v hv hne
    rcases hp with hp | hp <;> subst hp <;> simp [getApiBase, hv, hne]
  · intro hp hs
    rcases hp with hp | hp <;> subst hp <;> rcases hs with hs | hs <;> simp [getApiBase, hs]
  · intro p hne
    have hcall : getApiBase (some p) st = (p, storageSet st "paraos_api" p) := by
      simp [getApiBase, hne]
    rw [hcall]
    simp [getApiBase, storageGet_storageSet, hne]

/-- Witness of C26: a visit with `?api=https://x.ngrok.io` and an empty storage, then a
visit without parameter. -/
theorem getApiBase_priority_witness :
    getApiBase (some "https://x.ngrok.io") [] =
      ("https://x.ngrok.io", storageSet [] "paraos_api" "https://x.ngrok.io") ∧
    (getApiBase none (getApiBase (some "https://x.ngrok.io") []).2).1 = "https://x.ngrok.io" ∧
    getApiBase none [] = ("http://localhost:8000", []) :=
  ⟨((getApiBase_priority (some "https://x.ngrok.io") []).1 "https://x.ngrok.io" rfl
      (by decide)).1,
    (getApiBase_priority (some "https://x.ngrok.io") []).2.2.2 "https://x.ngrok.io" (by decide),
    (getApiBase_priority none []).2.2.1 (Or.inl rfl) (Or.inl rfl)⟩

/-! ## The two upload entry points -/

theorem toLower_dot_ne (c x : Char) (hx : x ≠ '.') (h : c.toLower = x) : c ≠ '.' := by
  intro hc
  subst hc
  exact hx (by rw [← h]; decide)

/-- Claim C28. Every name that `handleFileUpload` accepts (it ends in `.pdf` or `.txt`
in any letter case) is accepted by `handleDocumentUpload`, and `notes.md` is accepted by
`handleDocumentUpload` and rejected by `handleFileUpload`. -/
theorem upload_entry_points_differ :
    (∀ name : String, matchesPdfOrTxt name = true →
      validTypes.contains (fileExt name) = true) ∧
    validTypes.contains (fileExt "notes.md") = true ∧
    matchesPdfOrTxt "notes.md" = false := by
  refine ⟨?_, by decide, by decide⟩
  intro name h
  unfold matchesPdfOrTxt at h
  simp only [Bool.or_eq_true, beq_iff_eq] at h
  have hsplit : name.toList =
      name.toList.take (name.toList.length - 4) ++ name.toList.drop (name.toList.length - 4) :=
    (List.take_append_drop _ _).symm
  generalize name.toList.drop (name.toList.length - 4) = t at h hsplit
  have key : ∀ target : String, target ∈ validTypes →
      (∀ x ∈ target.toList.tail, x ≠ '.') → target.toList.head? = some '.' →
      jsToLowerCase (String.mk t) = target → validTypes.contains (fileExt name) = true := by
    intro target hmem htail hhead ht
    have hmap : t.map Char.toLower = target.toList := by
      have := congrArg String.toList ht
      simpa [jsToLowerCase] using this
    cases t with
    | nil =>
      rw [List.map_nil] at hmap
      rw [← hmap] at hhead
      cases hhead
    | cons c0 rest =>
      rw [List.map_cons] at hmap
      have h0 : c0.toLower = '.' := by
        rw [← hmap] at hhead
        simpa using hhead
      have hc0 : c0 = '.' := toLower_eq_dot c0 h0
      have hrest : ∀ c ∈ rest, c ≠ '.' := by
        intro c hc
        have hmem2 : c.toLower ∈ target.toList.tail := by
          rw [← hmap]
          simpa using List.mem_map_of_mem Char.toLower hc
        exact toLower_dot_ne c _ (htail _ hmem2) rfl
      subst hc0
      rw [fileExt_of_last_dot name _ rest hsplit (fun hd => hrest '.' hd rfl), ht]
      simpa using hmem
  rcases h with h | h
  · exact key ".pdf" (by decide) (by decide) (by decide) h
  · exact key ".txt" (by decide) (by decide) (by decide) h

/-! ## Time badge, malformed messages, stale fail-safe -/

/-- Claim C27 at the scenario of the specification: the token `Hola `, handled 300 ms
after the session start, makes the badge read `300msms` (the token branch hands
`updatePillTime` a text that already ends in `ms`), while the completion message with
842 ms makes it read `842ms`. -/
theorem token_badge_has_double_suffix :
    (run (init "http://localhost:8000") (scenarioEvents.take 4)).page.pillTimeBadge
      = "300msms" ∧
    afterScenario.page.pillTimeBadge = "842ms" := by
  decide

/-- Claim C30 at the message `{}`: handled by the fresh session of `hello world` it
leaves queue, displayed text, lock and connection as they were, but the accumulated full
text becomes `undefined`; a later completion message without full text then displays
`undefined`, and a later transport error no longer shows the connection error. Data that
is not valid JSON leaves the whole state unchanged. -/
theorem message_without_fields_appends_undefined :
    step inFlightExample (.message 0 none 300) = inFlightExample ∧
    inFlightExample.sessions.map (fun s => s.fullTranslation) = [""] ∧
    (step inFlightExample (.message 0 (some emptyObject) 300)).sessions.map
      (fun s => (s.fullTranslation, s.pendingWords, s.displayedText, s.esOpen))
      = [("undefined", [], "", true)] ∧
    (run inFlightExample [.message 0 (some emptyObject) 300,
      .message 0 (some (doneMsg "" 842)) 400]).page.pillResultContent = "undefined" ∧
    (run inFlightExample [.transportError 0]).page.pillResultContent
      = "Connection error. Please try again." ∧
    (run inFlightExample [.message 0 (some emptyObject) 300,
      .transportError 0]).page.pillResultContent = "" := by
  decide

/-- Claim C24 at a dismissed session: `uno` is submitted and dismissed, `dos` is
submitted 20 s later and is streaming; when the fail-safe timer of the first session,
which the dismissal did not clear, fires, it replaces the displayed `dos` by the timeout
message and releases the lock of the second session, whose connection stays open. -/
theorem stale_failsafe_hits_later_session :
    beforeStaleFailsafe.sessions.map (fun s => (s.esOpen, s.failsafeArmed))
      = [(false, true), (true, true)] ∧
    beforeStaleFailsafe.page.isTranslating = true ∧
    beforeStaleFailsafe.page.activeEventSource = some 1 ∧
    beforeStaleFailsafe.page.pillResultContent = "dos" ∧
    (step beforeStaleFailsafe (.failsafe 0)).page.pillResultContent = timeoutMessage ∧
    (step beforeStaleFailsafe (.failsafe 0)).page.isTranslating = false ∧
    (step beforeStaleFailsafe (.failsafe 0)).page.runBtnDisabled = false ∧
    (step beforeStaleFailsafe (.failsafe 0)).sessions.map (fun s => s.esOpen)
      = [false, true] := by
  decide

/-! ## Upload and translation on the same pill -/

/-- Claim C25, as stated, fails. While `hello world` is in flight, picking `notes.txt`
replaces the content by `Translating...` at once and, when the expansion runs, the header
by `notes.txt`; and while `notes.txt` is being uploaded, submitting `hola` replaces the
header `notes.txt` by `hola` and empties the content. -/
theorem upload_and_translation_share_pill :
    inFlightExample.page.isTranslating = true ∧
    (inFlightExample.page.pillInputHeader, inFlightExample.page.pillResultContent)
      = ("hello world", "") ∧
    (step inFlightExample (.chooseFile notesTxt 500)).page.pillResultContent
      = "Translating..." ∧
    (run inFlightExample [.chooseFile notesTxt 500, .timeline 0]).page.pillInputHeader
      = "notes.txt" ∧
    uploadingExample.uploads.map (fun u => u.awaitingFetch) = [true] ∧
    (uploadingExample.page.pillInputHeader, uploadingExample.page.pillResultContent)
      = ("notes.txt", "Uploading...") ∧
    ((run uploadingExample [.setInput "hola", .submit 300 false, .timeline 0]).page.pillInputHeader,
      (run uploadingExample [.setInput "hola", .submit 300 false,
        .timeline 0]).page.pillResultContent) = ("hola", "") := by
  decide

/-- Claim C25, amended. The lock guards `translateText` against itself only. Whether or
not a session is in flight, `handleDocumentUpload` with an accepted file sets the content
to `Translating...` at once and queues the expansion that writes the file name and
`Uploading...`; whether or not an upload is in progress, `translateText` with a non-blank
text and no session in flight queues the expansion that writes the text as header and
empties the content; and the queued expansion overwrites header and content when it
runs. -/
theorem pill_guarded_against_second_translation_only (file : UploadFile) (now : Nat)
    (ctorThrows : Bool) (a : App)
    (hfile : validTypes.contains (fileExt file.name) = true)
    (htext : jsTrim a.page.inputValue ≠ "") :
    ((handleDocumentUpload file now a).page.pillResultContent = "Translating..." ∧
      (handleDocumentUpload file now a).page.timelines =
        a.page.timelines ++ [Deferred.expandResult file.name "Uploading..."]) ∧
    (a.page.isTranslating = false →
      (translateText now ctorThrows a).page.timelines =
        a.page.timelines ++ [Deferred.expandResult (jsTrim a.page.inputValue) ""]) ∧
    (a.page.isTranslating = true → translateText now ctorThrows a = a) ∧
    (∀ header content b,
      (runDeferred (Deferred.expandResult header content) b).page.pillInputHeader = header ∧
      (runDeferred (Deferred.expandResult header content) b).page.pillResultContent
        = content) := by
  refine ⟨?_, ?_, ?_, ?_⟩
  · rw [handleDocumentUpload_accepted file now a hfile]
    exact ⟨rfl, rfl⟩
  · intro hfree
    cases ctorThrows <;>
      simp [translateText, htext, hfree, expandPillWithResult, resetButtonState,
        updatePillContent]
  · intro hl
    unfold translateText
    simp [htext, hl]
  · intro header content b
    exact ⟨rfl, rfl⟩

/-- Witness of C25 (amended): `notes.txt` picked while `hello world` is in flight. -/
theorem pill_guarded_against_second_translation_only_witness :
    validTypes.contains (fileExt notesTxt.name) = true ∧
    jsTrim inFlightExample.page.inputValue ≠ "" ∧
    inFlightExample.page.isTranslating = true ∧
    (handleDocumentUpload notesTxt 500 inFlightExample).page.pillResultContent
      = "Translating..." :=
  ⟨by decide, by decide, by decide,
    (pill_guarded_against_second_translation_only notesTxt 500 false inFlightExample
      (by decide) (by decide)).1.1⟩

/-! ## Voice capture -/

/-- Claim C23, as stated, fails: after a click on the microphone in `default` and the
grant of the microphone, capture is running and the command box carries `voice-active`,
but the pill state is still `default`. -/
theorem voice_capture_keeps_default :
    (init "http://localhost:8000").page.pillState = "default" ∧
    (run (init "http://localhost:8000") [.micClick, .micGranted]).page.isRecording = true ∧
    (run (init "http://localhost:8000") [.micClick, .micGranted]).page.boxClasses
      = ["voice-active"] ∧
    (run (init "http://localhost:8000") [.micClick, .micGranted]).page.pillState
      = "default" := by
  decide

/-- Claim C23, amended. Voice capture never writes the pill state. A click on the
microphone and the grant of the microphone leave the pill state as it was (`default`
stays `default`) and, when a request was pending, put the class `voice-active` on the
command box; the end of capture with no further action (recognition error, recognition
end, or a second click on the microphone) leaves the pill state as it was too, and the
stop of the visualizer, once its tween completes, removes `voice-active`. -/
theorem voice_capture_leaves_pill_state (a : App) :
    (step a .micClick).page.pillState = a.page.pillState ∧
    (step a .micGranted).page.pillState = a.page.pillState ∧
    (0 < a.page.micPending → "voice-active" ∈ (step a .micGranted).page.boxClasses) ∧
    (step a .speechError).page.pillState = a.page.pillState ∧
    (step a .speechEnd).page.pillState = a.page.pillState ∧
    (a.page.isRecording = true →
      (step a .micClick).page.timelines = a.page.timelines ++ [Deferred.visualizerStop] ∧
      (step a .micClick).page.isRecording = false) ∧
    (runDeferred Deferred.visualizerStop a).page.pillState = a.page.pillState ∧
    "voice-active" ∉ (runDeferred Deferred.visualizerStop a).page.boxClasses := by
  refine ⟨?_, ?_, ?_, ?_, ?_, ?_, rfl, ?_⟩
  · show (micButtonClick a.page).pillState = _
    unfold micButtonClick
    simp only
    split <;> rfl
  · show (if 0 < a.page.micPending then _ else a).page.pillState = _
    split <;> rfl
  · intro hp
    show "voice-active" ∈ (if 0 < a.page.micPending then _ else a).page.boxClasses
    rw [if_pos hp]
    show "voice-active" ∈ classAdd "voice-active" a.page.boxClasses
    unfold classAdd
    split
    · assumption
    · simp
  · show (if 0 < a.page.recognitions then _ else a).page.pillState = _
    split <;> rfl
  · show (if 0 < a.page.recognitions then _ else a).page.pillState = _
    split
    · show (recognitionEnd a.page).pillState = _
      unfold recognitionEnd
      simp only
      split <;> rfl
    · rfl
  · intro hrec
    show (micButtonClick a.page).timelines = _ ∧ (micButtonClick a.page).isRecording = false
    unfold micButtonClick
    simp [hrec, stopSpeechRecognition, visualizerStop]
  · show "voice-active" ∉ classRemove ["voice-active", "tts-active"] a.page.boxClasses
    unfold classRemove
    simp

/-- Witness of C23 (amended): capture started on the freshly loaded page. -/
theorem voice_capture_leaves_pill_state_witness :
    0 < (step (init "http://localhost:8000") .micClick).page.micPending ∧
    "voice-active" ∈
      (step (step (init "http://localhost:8000") .micClick) .micGranted).page.boxClasses :=
  ⟨by decide,
    (voice_capture_leaves_pill_state (step (init "http://localhost:8000") .micClick)).2.2.1
      (by decide)⟩

/-! ## The dismiss overlay -/

/-- Claim C22 fails on a settled reachable state: `hello` is submitted and the pill is
dismissed before the expansion has run; the expansion then activates the overlay, the
collapse that follows removes the classes and the content but not the overlay flag. No
callback is pending, the pill state is `default` and the overlay is active. -/
theorem overlay_active_in_default :
    Reachable "http://localhost:8000" (run (init "http://localhost:8000")
      [.setInput "hello", .submit 0 false, .dismiss, .timeline 0, .timeline 0]) ∧
    (run (init "http://localhost:8000")
      [.setInput "hello", .submit 0 false, .dismiss]).page.timelines
      = [Deferred.expandResult "hello" "", Deferred.islandDefault "result"] ∧
    (run (init "http://localhost:8000")
      [.setInput "hello", .submit 0 false, .dismiss, .timeline 0, .timeline 0]).page.timelines
      = [] ∧
    (run (init "http://localhost:8000")
      [.setInput "hello", .submit 0 false, .dismiss, .timeline 0, .timeline 0]).page.pillState
      = "default" ∧
    (run (init "http://localhost:8000")
      [.setInput "hello", .submit 0 false, .dismiss, .timeline 0,
       .timeline 0]).page.overlayActive = true :=
  ⟨⟨_, rfl⟩, by decide, by decide, by decide, by decide⟩

/-! ## Lock indicators -/

theorem result_ne_default : ("result" : String) ≠ "default" := by decide

theorem voice_ne_default : ("voice" : String) ≠ "default" := by decide

theorem language_ne_default : ("language" : String) ≠ "default" := by decide

theorem idle_ne_default : ("idle" : String) ≠ "default" := by decide

theorem LockMove.refl (p : Page) : LockMove p p := Or.inl ⟨rfl, rfl, rfl, Or.inl rfl⟩

theorem PageInv_of_move (p q : Page) (hp : PageInv p) (hm : LockMove p q) : PageInv q := by
  obtain ⟨⟨h1, h2⟩, h3⟩ := hp
  rcases hm with ⟨a1, a2, a3, a4⟩ | ⟨a1, a2, a3, _⟩ | ⟨a1, a2, a3, a4⟩
  · refine ⟨⟨by rw [a1, a2]; exact h1, by rw [a1, a3]; exact h2⟩, ?_⟩
    intro hd
    rcases a4 with a4 | a4
    · rw [a1]; exact h3 (by rw [← a4]; exact hd)
    · exact absurd hd a4
  · exact ⟨⟨by rw [a1, a2], by rw [a1, a3]; rfl⟩, fun _ => a1⟩
  · exact ⟨⟨by rw [a1, a2], by rw [a1, a3]⟩, fun hd => absurd hd a4⟩

theorem translateText_move (now : Nat) (ctorThrows : Bool) (a : App) :
    LockMove a.page (translateText now ctorThrows a).page := by
  unfold translateText
  by_cases ht : jsTrim a.page.inputValue = ""
  · simp only [ht, if_true]; exact LockMove.refl _
  by_cases hl : a.page.isTranslating = true
  · simp only [ht, hl, if_true, if_false]; exact LockMove.refl _
  cases ctorThrows
  · simp only [ht, hl, if_false, Bool.false_eq_true]
    exact Or.inr (Or.inr ⟨rfl, rfl, rfl, result_ne_default⟩)
  · simp only [ht, hl, if_false, if_true]
    exact Or.inr (Or.inl ⟨rfl, rfl, rfl, Or.inr result_ne_default⟩)

theorem onmessage_move (data : Option StreamData) (now : Nat) (c : Ctx) :
    LockMove c.1 (onmessage data now c).1 := by
  cases data with
  | none => exact LockMove.refl _
  | some d =>
    by_cases he : d.error = ""
    · cases hd : d.done
      · rw [onmessage_token now c d he hd]
        cases ht : d.token with
        | none => rw [tokenBranch_none_ctx d now c ht]; exact LockMove.refl _
        | some t =>
          rw [tokenBranch_some_ctx d now c t ht]
          exact Or.inl ⟨rfl, rfl, rfl, Or.inl rfl⟩
      · rw [onmessage_done now c d he hd, doneBranch_ctx]
        exact Or.inl ⟨rfl, rfl, rfl, Or.inl rfl⟩
    · rw [onmessage_error now c d he, errorBranch_ctx]
      exact Or.inr (Or.inl ⟨rfl, rfl, rfl, Or.inl rfl⟩)

theorem onerror_move (c : Ctx) : LockMove c.1 (onerror c).1 := by
  refine Or.inr (Or.inl ⟨rfl, rfl, rfl, Or.inl ?_⟩)
  unfold onerror
  simp only
  split <;> rfl

theorem failsafeFired_move (c : Ctx) : LockMove c.1 (failsafeFired c).1 := by
  unfold failsafeFired
  split
  · exact Or.inr (Or.inl ⟨rfl, rfl, rfl, Or.inl rfl⟩)
  · exact LockMove.refl _

theorem typingTick_move (c : Ctx) : LockMove c.1 (typingTick c).1 := by
  unfold typingTick
  split
  · exact Or.inl ⟨rfl, rfl, rfl, Or.inl rfl⟩
  · split
    · exact LockMove.refl _
    · exact LockMove.refl _

theorem withSession_move (i : Nat) (enabled : Session → Bool) (h : Ctx → Ctx) (a : App)
    (hh : ∀ c, LockMove c.1 (h c).1) : LockMove a.page (withSession i enabled h a).page := by
  unfold withSession
  split
  · split
    · exact hh _
    · exact LockMove.refl _
  · exact LockMove.refl _

theorem withUpload_move (j : Nat) (enabled : Upload → Bool)
    (h : Page × Upload → Page × Upload) (a : App)
    (hh : ∀ c, LockMove c.1 (h c).1) : LockMove a.page (withUpload j enabled h a).page := by
  unfold withUpload
  split
  · split
    · exact hh _
    · exact LockMove.refl _
  · exact LockMove.refl _

theorem fetchSettled_move (r : FetchResult) (now : Nat) (c : Page × Upload) :
    LockMove c.1 (fetchSettled r now c).1 := by
  cases r with
  | rejected message => exact Or.inl ⟨rfl, rfl, rfl, Or.inl rfl⟩
  | response ok status =>
    cases ok <;>
      (refine Or.inl ⟨?_, ?_, ?_, Or.inl ?_⟩ <;>
        simp [fetchSettled, uploadCatch, resetFileInput, markPillComplete, updatePillContent,
          updatePillTime])

theorem jsonSettled_move (r : JsonResult) (c : Page × Upload) :
    LockMove c.1 (jsonSettled r c).1 := by
  cases r with
  | rejected message => exact Or.inl ⟨rfl, rfl, rfl, Or.inl rfl⟩
  | body data =>
    unfold jsonSettled
    simp only
    split <;> exact Or.inl ⟨rfl, rfl, rfl, Or.inl rfl⟩

theorem fileInputChange_move (file : UploadFile) (now : Nat) (a : App) :
    LockMove a.page (fileInputChange file now a).page := by
  unfold fileInputChange
  split
  · exact LockMove.refl _
  · unfold handleDocumentUpload
    split
    · exact Or.inl ⟨rfl, rfl, rfl, Or.inr result_ne_default⟩
    · exact Or.inl ⟨rfl, rfl, rfl, Or.inr result_ne_default⟩

theorem inputHandler_move (text : String) (p : Page) : LockMove p (inputHandler text p) := by
  unfold inputHandler
  generalize hq : (if (decide (jsLength text > 12) && !({ p with inputValue := text } : Page).boxClasses.contains "expanded") = true then
      ({ ({ p with inputValue := text } : Page) with
        boxClasses := classAdd "expanded" ({ p with inputValue := text } : Page).boxClasses } : Page)
    else if (!decide (jsLength text > 12) &&
        ({ p with inputValue := text } : Page).boxClasses.contains "expanded") = true then
      { ({ p with inputValue := text } : Page) with
        boxClasses := classRemove ["expanded"] ({ p with inputValue := text } : Page).boxClasses }
    else ({ p with inputValue := text } : Page)) = q
  have hlock : q.isTranslating = p.isTranslating ∧ q.runBtnDisabled = p.runBtnDisabled ∧
      q.activeEventSource = p.activeEventSource ∧ q.pillState = p.pillState := by
    rw [← hq]
    split
    · exact ⟨rfl, rfl, rfl, rfl⟩
    · split <;> exact ⟨rfl, rfl, rfl, rfl⟩
  simp only
  rw [hq]
  split
  · exact Or.inl ⟨hlock.1, hlock.2.1, hlock.2.2.1, Or.inr idle_ne_default⟩
  · exact Or.inl ⟨hlock.1, hlock.2.1, hlock.2.2.1, Or.inl hlock.2.2.2⟩

/-- The default case of `setIslandState` when no stream is recorded as active. -/
theorem setIslandState_default_idle (a : App)
    (h : a.page.isTranslating = false ∨ a.page.activeEventSource = none) :
    setIslandState "default" a =
      { a with
        page := { a.page with
          pillState := "default", overlayActive := false,
          timelines := a.page.timelines ++ [Deferred.islandDefault a.page.pillState] } } := by
  have h1 : ("default" : String) ≠ "result" := by decide
  have h2 : ("default" : String) ≠ "voice" := by decide
  have h3 : ("default" : String) ≠ "language" := by decide
  unfold setIslandState
  rcases h with h | h
  · simp only [h1, h2, h3, if_false, if_true, ne_eq, not_true_eq_false, h]
  · cases hT : a.page.isTranslating
    · simp only [h1, h2, h3, if_false, if_true, ne_eq, not_true_eq_false, hT]
    · simp only [h1, h2, h3, if_false, if_true, ne_eq, not_true_eq_false, hT, h]

/-- The language case of `setIslandState`. -/
theorem setIslandState_language (a : App) :
    setIslandState "language" a =
      { a with
        page := { a.page with
          pillState := "language",
          boxClasses := classRemove islandClasses a.page.boxClasses,
          timelines := a.page.timelines ++ [Deferred.islandEnter "language-expanded"] } } := by
  have h1 : ("language" : String) ≠ "result" := by decide
  have h2 : ("language" : String) ≠ "voice" := by decide
  have h3 : ("language" : String) ≠ "default" := by decide
  unfold setIslandState
  simp only [h1, h2, h3, if_false, if_true, ne_eq, not_false_eq_true]

theorem setIslandState_default_inv (a : App) (h : PageInv a.page) :
    PageInv (setIslandState "default" a).page := by
  obtain ⟨⟨ha, hb⟩, hc⟩ := h
  cases hT : a.page.isTranslating with
  | false =>
    rw [setIslandState_default_idle a (Or.inl hT)]
    exact ⟨⟨ha, hb⟩, fun _ => hT⟩
  | true =>
    rw [hT] at hb
    cases hA : a.page.activeEventSource with
    | none => rw [hA] at hb; cases hb
    | some i =>
      rw [setIslandState_default_active a i hT hA]
      exact ⟨⟨rfl, rfl⟩, fun _ => rfl⟩

theorem setIslandState_language_inv (a : App) (h : PageInv a.page) :
    PageInv (setIslandState "language" a).page := by
  rw [setIslandState_language]
  exact PageInv_of_move _ _ h (Or.inl ⟨rfl, rfl, rfl, Or.inr language_ne_default⟩)

theorem runDeferred_inv (d : Deferred) (a : App) (h : PageInv a.page) :
    PageInv (runDeferred d a).page := by
  cases d with
  | expandResult _ _ => exact h
  | islandEnter _ => exact h
  | islandDefault prev =>
    unfold runDeferred
    by_cases hp : prev = "result"
    · simp only [hp, if_true]; exact h
    · simp only [hp, if_false]; exact h
  | collapseComplete => exact h
  | langCollapse => exact setIslandState_default_inv a h
  | visualizerStop => exact h

/-- Every event keeps the lock indicators in agreement and the lock free in `default`. -/
theorem step_inv (a : App) (e : Event) (h : PageInv a.page) : PageInv (step a e).page := by
  cases e with
  | setInput _ => exact h
  | typeInput text => exact PageInv_of_move _ _ h (inputHandler_move text a.page)
  | submit now ct => exact PageInv_of_move _ _ h (translateText_move now ct a)
  | message i data now =>
    exact PageInv_of_move _ _ h (withSession_move i _ _ a (onmessage_move data now))
  | transportError i => exact PageInv_of_move _ _ h (withSession_move i _ _ a onerror_move)
  | failsafe i => exact PageInv_of_move _ _ h (withSession_move i _ _ a failsafeFired_move)
  | tick i => exact PageInv_of_move _ _ h (withSession_move i _ _ a typingTick_move)
  | timeline k =>
    show PageInv (match a.page.timelines[k]? with
      | some d => runDeferred d { a with page := { a.page with timelines := a.page.timelines.eraseIdx k } }
      | none => a).page
    split
    · exact runDeferred_inv _ _ h
    · exact h
  | dismiss =>
    show PageInv (dismissClick a).page
    unfold dismissClick
    split
    · exact h
    · exact setIslandState_default_inv a h
  | langButton => exact setIslandState_language_inv a h
  | langItem _ => exact h
  | toggleTts => exact h
  | chooseFile file now => exact PageInv_of_move _ _ h (fileInputChange_move file now a)
  | uploadTick j now =>
    exact PageInv_of_move _ _ h
      (withUpload_move j _ _ a (fun c => Or.inl ⟨rfl, rfl, rfl, Or.inl rfl⟩))
  | fetchDone j r now =>
    exact PageInv_of_move _ _ h (withUpload_move j _ _ a (fetchSettled_move r now))
  | jsonDone j r => exact PageInv_of_move _ _ h (withUpload_move j _ _ a (jsonSettled_move r))
  | micClick =>
    show PageInv (micButtonClick a.page)
    unfold micButtonClick
    simp only
    split <;> exact h
  | micGranted =>
    show PageInv (if 0 < a.page.micPending then _ else a).page
    split <;> exact h
  | micDenied =>
    show PageInv (if 0 < a.page.micPending then _ else a).page
    split <;> exact h
  | speechResult transcript now ct =>
    show PageInv (if 0 < a.page.recognitions then recognitionResult transcript now ct a
      else a).page
    split
    · exact PageInv_of_move _ _ h (translateText_move now ct _)
    · exact h
  | speechError =>
    show PageInv (if 0 < a.page.recognitions then _ else a).page
    split <;> exact h
  | speechEnd =>
    show PageInv (if 0 < a.page.recognitions then _ else a).page
    split
    · show PageInv (recognitionEnd a.page)
      unfold recognitionEnd
      simp only
      split <;> exact h
    · exact h

theorem reachable_inv (apiBase : String) (a : App) (h : Reachable apiBase a) :
    PageInv a.page := by
  refine reachable_induction (fun b => PageInv b.page) apiBase ?_ ?_ a h
  · exact ⟨⟨rfl, rfl⟩, fun _ => rfl⟩
  · intro b e hb
    exact step_inv b e hb

/-- Claim C29. In every reachable state the submit control is disabled exactly when
`state.isTranslating` is true, and `state.activeEventSource` is non-null exactly when
`state.isTranslating` is true. -/
theorem lock_indicators_agree (apiBase : String) (a : App) (h : Reachable apiBase a) :
    (a.page.runBtnDisabled = true ↔ a.page.isTranslating = true) ∧
    (a.page.activeEventSource ≠ none ↔ a.page.isTranslating = true) := by
  obtain ⟨⟨h1, h2⟩, _⟩ := reachable_inv apiBase a h
  refine ⟨by rw [h1], ?_⟩
  rw [← h2]
  cases a.page.activeEventSource <;> simp

/-- Witness of C29: the state at the end of the scenario of the specification, where the
lock is still held. -/
theorem lock_indicators_agree_witness :
    (afterScenario.page.runBtnDisabled = true ↔ afterScenario.page.isTranslating = true) ∧
    (afterScenario.page.activeEventSource ≠ none ↔ afterScenario.page.isTranslating = true) :=
  lock_indicators_agree "http://localhost:8000" afterScenario ⟨scenarioEvents, rfl⟩

/-- The result case of `setIslandState`. -/
theorem setIslandState_result (a : App) :
    setIslandState "result" a =
      { a with
        page := { a.page with
          pillState := "result",
          boxClasses := classRemove islandClasses a.page.boxClasses,
          timelines := a.page.timelines ++ [Deferred.islandEnter "result-expanded"] } } := by
  have h3 : ("result" : String) ≠ "default" := by decide
  unfold setIslandState
  simp only [h3, if_false, if_true, ne_eq, not_false_eq_true]

/-- The voice case of `setIslandState`. -/
theorem setIslandState_voice (a : App) :
    setIslandState "voice" a =
      { a with
        page := { a.page with
          pillState := "voice",
          boxClasses := classRemove islandClasses a.page.boxClasses,
          timelines := a.page.timelines ++ [Deferred.islandEnter "voice-active"] } } := by
  have h1 : ("voice" : String) ≠ "result" := by decide
  have h3 : ("voice" : String) ≠ "default" := by decide
  unfold setIslandState
  simp only [h1, h3, if_false, if_true, ne_eq, not_false_eq_true]

/-- Stripping the island classes leaves no state class. -/
theorem stateClasses_removed (l : List String) :
    (classRemove islandClasses l).filter (fun c => stateClasses.contains c) = [] := by
  unfold classRemove
  rw [List.filter_filter, List.filter_eq_nil_iff]
  intro c _
  have : ∀ v ∈ stateClasses, v ∈ islandClasses := by decide
  by_cases hc : c ∈ stateClasses
  · simp [this c hc, hc]
  · simp [hc]

/-- Adding a state class to a box stripped of the island classes leaves that class as the
only state class. -/
theorem stateClasses_added (cls : String) (l : List String) (h : cls ∈ stateClasses) :
    (classAdd cls (classRemove islandClasses l)).filter (fun c => stateClasses.contains c) =
      [cls] := by
  have hmem : ∀ v ∈ stateClasses, v ∈ islandClasses := by decide
  have hnot : cls ∉ classRemove islandClasses l := by
    unfold classRemove
    simp [hmem cls h]
  unfold classAdd
  rw [if_neg hnot, List.filter_append, stateClasses_removed]
  simp [h]

/-- The terminal phase of the three expanding cases. -/
theorem settleIsland_enter (s cls : String) (a : App) (hq : a.page.timelines = [])
    (h : setIslandState s a =
      { a with
        page := { a.page with
          pillState := s,
          boxClasses := classRemove islandClasses a.page.boxClasses,
          timelines := a.page.timelines ++ [Deferred.islandEnter cls] } }) :
    settleIsland s a =
      { a with
        page := { a.page with
          pillState := s,
          boxClasses := classAdd cls (classRemove islandClasses a.page.boxClasses),
          overlayActive := true,
          timelines := [] } } := by
  unfold settleIsland
  rw [h, hq]
  rfl

/-- The terminal phase of the default case when no stream is recorded as active and the
pill was in `default` already. -/
theorem settleIsland_default_idle (a : App) (hq : a.page.timelines = [])
    (hp : a.page.pillState ≠ "result")
    (h : a.page.isTranslating = false ∨ a.page.activeEventSource = none) :
    settleIsland "default" a =
      { a with
        page := { a.page with
          pillState := "default",
          boxClasses := classRemove islandClasses a.page.boxClasses,
          overlayActive := false,
          timelines := [] } } := by
  unfold settleIsland
  rw [setIslandState_default_idle a h, hq]
  show runDeferred (Deferred.islandDefault a.page.pillState) _ = _
  unfold runDeferred
  simp only [hp, if_false]
  rfl

/-- From a pill with no phase pending, `setIslandState(s)` and its queued phase end in
the terminal phase of `s`. -/
theorem settleIsland_settled (s : String) (a : App) (hs : s ∈ pillStates)
    (hq : a.page.timelines = []) : SettledIn s (settleIsland s a) := by
  have hcases : s = "default" ∨ s = "result" ∨ s = "voice" ∨ s = "language" := by
    simpa [pillStates] using hs
  rcases hcases with h | h | h | h
  · subst h
    unfold settleIsland
    cases hT : a.page.isTranslating with
    | false =>
      rw [setIslandState_default_idle a (Or.inl hT), hq]
      show SettledIn "default" (runDeferred (Deferred.islandDefault a.page.pillState) _)
      unfold runDeferred
      by_cases hp : a.page.pillState = "result"
      · simp only [hp, if_true]
        exact ⟨rfl, rfl, stateClasses_removed _, rfl⟩
      · simp only [hp, if_false]
        exact ⟨rfl, rfl, stateClasses_removed _, rfl⟩
    | true =>
      cases hA : a.page.activeEventSource with
      | none =>
        rw [setIslandState_default_idle a (Or.inr hA), hq]
        show SettledIn "default" (runDeferred (Deferred.islandDefault a.page.pillState) _)
        unfold runDeferred
        by_cases hp : a.page.pillState = "result"
        · simp only [hp, if_true]
          exact ⟨rfl, rfl, stateClasses_removed _, rfl⟩
        · simp only [hp, if_false]
          exact ⟨rfl, rfl, stateClasses_removed _, rfl⟩
      | some i =>
        rw [setIslandState_default_active a i hT hA, hq]
        show SettledIn "default" (runDeferred (Deferred.islandDefault a.page.pillState) _)
        unfold runDeferred
        by_cases hp : a.page.pillState = "result"
        · simp only [hp, if_true]
          exact ⟨rfl, rfl, stateClasses_removed _, rfl⟩
        · simp only [hp, if_false]
          exact ⟨rfl, rfl, stateClasses_removed _, rfl⟩
  · subst h
    rw [settleIsland_enter _ _ a hq (setIslandState_result a)]
    exact ⟨rfl, rfl, stateClasses_added _ _ (by decide), rfl⟩
  · subst h
    rw [settleIsland_enter _ _ a hq (setIslandState_voice a)]
    exact ⟨rfl, rfl, stateClasses_added _ _ (by decide), rfl⟩
  · subst h
    rw [settleIsland_enter _ _ a hq (setIslandState_language a)]
    exact ⟨rfl, rfl, stateClasses_added _ _ (by decide), rfl⟩

/-- On a pill in the terminal phase of `s`, with no stream recorded as active when `s` is
`default`, `setIslandState(s)` and its queued phase change nothing of the pill view. -/
theorem settleIsland_fixed (s : String) (a : App) (hs : s ∈ pillStates)
    (h : SettledIn s a)
    (hl : s = "default" → a.page.isTranslating = false ∨ a.page.activeEventSource = none) :
    pillView (settleIsland s a) = pillView a := by
  have hcases : s = "default" ∨ s = "result" ∨ s = "voice" ∨ s = "language" := by
    simpa [pillStates] using hs
  obtain ⟨hp, hq, hc, ho⟩ := h
  unfold boxStateClasses at hc
  rcases hcases with h | h | h | h
  · subst h
    have hne : a.page.pillState ≠ "result" := by rw [hp]; decide
    rw [settleIsland_default_idle a hq hne (hl rfl)]
    unfold pillView boxStateClasses
    simp only [stateClasses_removed, hc, hp, ho]
    rfl
  · subst h
    rw [settleIsland_enter _ _ a hq (setIslandState_result a)]
    unfold pillView boxStateClasses
    simp only [stateClasses_added _ _ (show "result-expanded" ∈ stateClasses by decide), hc, hp, ho]
    rfl
  · subst h
    rw [settleIsland_enter _ _ a hq (setIslandState_voice a)]
    unfold pillView boxStateClasses
    simp only [stateClasses_added _ _ (show "voice-active" ∈ stateClasses by decide), hc, hp, ho]
    rfl
  · subst h
    rw [settleIsland_enter _ _ a hq (setIslandState_language a)]
    unfold pillView boxStateClasses
    simp only [stateClasses_added _ _ (show "language-expanded" ∈ stateClasses by decide), hc, hp, ho]
    rfl

/-- After `setIslandState('default')` and its queued phase no stream is recorded as
active. -/
theorem settleIsland_default_lock (a : App) (hq : a.page.timelines = []) :
    (settleIsland "default" a).page.isTranslating = false ∨
      (settleIsland "default" a).page.activeEventSource = none := by
  unfold settleIsland
  cases hT : a.page.isTranslating with
  | false =>
    rw [setIslandState_default_idle a (Or.inl hT), hq]
    show (runDeferred (Deferred.islandDefault a.page.pillState) _).page.isTranslating = false ∨ _
    unfold runDeferred
    by_cases hp : a.page.pillState = "result"
    · simp only [hp, if_true]; exact Or.inl hT
    · simp only [hp, if_false]; exact Or.inl hT
  | true =>
    cases hA : a.page.activeEventSource with
    | none =>
      rw [setIslandState_default_idle a (Or.inr hA), hq]
      show _ ∨ (runDeferred (Deferred.islandDefault a.page.pillState) _).page.activeEventSource = none
      unfold runDeferred
      by_cases hp : a.page.pillState = "result"
      · simp only [hp, if_true]; exact Or.inr hA
      · simp only [hp, if_false]; exact Or.inr hA
    | some i =>
      rw [setIslandState_default_active a i hT hA, hq]
      show (runDeferred (Deferred.islandDefault a.page.pillState) _).page.isTranslating = false ∨ _
      unfold runDeferred
      by_cases hp : a.page.pillState = "result"
      · simp only [hp, if_true]; exact Or.inl trivial
      · simp only [hp, if_false]; exact Or.inl trivial

/-- Claim C21. `setIslandState` is idempotent on a settled pill. For each of the four
states `s` and a pill with no phase pending: the call and its queued phase end in the
terminal phase of `s`; if the pill was in that terminal phase already (in a reachable
state, or for any of the three expanding states) the pill state, the state classes, the
overlay flag, the lock and the displayed content are left as they were; and a second call
leaves them as the first did. -/
theorem setIslandState_idempotent_when_settled (apiBase s : String) (a : App)
    (hs : s ∈ pillStates) (hq : a.page.timelines = []) :
    SettledIn s (settleIsland s a) ∧
    (SettledIn s a → (Reachable apiBase a ∨ s ≠ "default") →
      pillView (settleIsland s a) = pillView a) ∧
    pillView (settleIsland s (settleIsland s a)) = pillView (settleIsland s a) := by
  refine ⟨settleIsland_settled s a hs hq, ?_, ?_⟩
  · intro hset hr
    refine settleIsland_fixed s a hs hset (fun hd => ?_)
    rcases hr with hr | hr
    · exact Or.inl ((reachable_inv apiBase a hr).2 (hset.1.trans hd))
    · exact absurd hd hr
  · refine settleIsland_fixed s _ hs (settleIsland_settled s a hs hq) (fun hd => ?_)
    subst hd
    exact settleIsland_default_lock a hq

/-- Witness of C21: the pill showing a result, its expansion finished, is settled in
`result`, and `setIslandState('result')` leaves its view as it was. -/
theorem setIslandState_idempotent_when_settled_witness :
    "result" ∈ pillStates ∧ settledResult.page.timelines = [] ∧
    SettledIn "result" settledResult ∧
    Reachable "http://localhost:8000" settledResult ∧
    pillView (settleIsland "result" settledResult) = pillView settledResult :=
  ⟨by decide, by decide, ⟨by decide, by decide, by decide, by decide⟩, ⟨_, rfl⟩,
    (setIslandState_idempotent_when_settled "http://localhost:8000" "result" settledResult
      (by decide) (by decide)).2.1 ⟨by decide, by decide, by decide, by decide⟩
      (Or.inl ⟨_, rfl⟩)⟩

/-- Witness of C28: the name `Report.PDF` is accepted by `handleFileUpload`, hence by
`handleDocumentUpload`. -/
theorem upload_entry_points_differ_witness :
    matchesPdfOrTxt "Report.PDF" = true ∧
    validTypes.contains (fileExt "Report.PDF") = true :=
  ⟨by decide, upload_entry_points_differ.1 "Report.PDF" (by decide)⟩

/-! ## Return of the pill to `default` -/

theorem LockMove.pill (p q : Page) (h : LockMove p q) (hd : q.pillState = "default") :
    p.pillState = "default" := by
  rcases h with ⟨_, _, _, a4⟩ | ⟨_, _, _, a4⟩ | ⟨_, _, _, a4⟩
  · rcases a4 with a4 | a4
    · rw [← a4]; exact hd
    · exact absurd hd a4
  · rcases a4 with a4 | a4
    · rw [← a4]; exact hd
    · exact absurd hd a4
  · exact absurd hd a4

/-- The only handler that moves the pill state to `default` is `setIslandState('default')`:
an event that does so from another pill state is that call, on a state with the same
sessions and lock (the dismissing click, or the timer of a language picker item). -/
theorem step_to_default (b : App) (e : Event) (hne : b.page.pillState ≠ "default")
    (hd : (step b e).page.pillState = "default") :
    ∃ b0 : App, b0.sessions = b.sessions ∧ b0.page.isTranslating = b.page.isTranslating ∧
      b0.page.activeEventSource = b.page.activeEventSource ∧
      step b e = setIslandState "default" b0 := by
  have hmove : ∀ q : Page, LockMove b.page q → q.pillState = "default" → False :=
    fun q hm hq => hne (LockMove.pill _ _ hm hq)
  cases e with
  | setInput _ => exact absurd hd hne
  | typeInput text => exact (hmove _ (inputHandler_move text b.page) hd).elim
  | submit now ct => exact (hmove _ (translateText_move now ct b) hd).elim
  | message i data now =>
    exact (hmove _ (withSession_move i _ _ b (onmessage_move data now)) hd).elim
  | transportError i => exact (hmove _ (withSession_move i _ _ b onerror_move) hd).elim
  | failsafe i => exact (hmove _ (withSession_move i _ _ b failsafeFired_move) hd).elim
  | tick i => exact (hmove _ (withSession_move i _ _ b typingTick_move) hd).elim
  | timeline k =>
    have hstep : step b (.timeline k) = (match b.page.timelines[k]? with
      | some d => runDeferred d
          { b with page := { b.page with timelines := b.page.timelines.eraseIdx k } }
      | none => b) := rfl
    rw [hstep] at hd ⊢
    cases hk : b.page.timelines[k]? with
    | none => rw [hk] at hd; exact absurd hd hne
    | some d =>
      rw [hk] at hd
      simp only at hd ⊢
      cases d with
      | expandResult _ _ => exact absurd hd hne
      | islandEnter _ => exact absurd hd hne
      | islandDefault prev =>
        unfold runDeferred at hd
        simp only at hd
        split at hd <;> exact absurd hd hne
      | collapseComplete => exact absurd hd hne
      | langCollapse =>
        exact ⟨{ b with page := { b.page with timelines := b.page.timelines.eraseIdx k } },
          rfl, rfl, rfl, rfl⟩
      | visualizerStop => exact absurd hd hne
  | dismiss =>
    have hstep : step b .dismiss = setIslandState "default" b := by
      show dismissClick b = _
      unfold dismissClick
      simp only [hne, if_false]
    exact ⟨b, rfl, rfl, rfl, hstep⟩
  | langButton =>
    have hstep : step b .langButton = setIslandState "language" b := rfl
    rw [hstep, setIslandState_language] at hd
    exact absurd hd language_ne_default
  | langItem _ => exact absurd hd hne
  | toggleTts => exact absurd hd hne
  | chooseFile file now => exact (hmove _ (fileInputChange_move file now b) hd).elim
  | uploadTick j now =>
    exact (hmove _ (withUpload_move j (fun u => u.timerRunning) (uploadTimerTick now) b
      (fun c => Or.inl ⟨rfl, rfl, rfl, Or.inl rfl⟩)) hd).elim
  | fetchDone j r now =>
    exact (hmove _ (withUpload_move j _ _ b (fetchSettled_move r now)) hd).elim
  | jsonDone j r => exact (hmove _ (withUpload_move j _ _ b (jsonSettled_move r)) hd).elim
  | micClick =>
    have hp : (step b .micClick).page.pillState = b.page.pillState := by
      show (micButtonClick b.page).pillState = _
      unfold micButtonClick
      simp only
      split <;> rfl
    exact absurd (hp ▸ hd) hne
  | micGranted =>
    have hp : (step b .micGranted).page.pillState = b.page.pillState := by
      show (if 0 < b.page.micPending then _ else b).page.pillState = _
      split <;> rfl
    exact absurd (hp ▸ hd) hne
  | micDenied =>
    have hp : (step b .micDenied).page.pillState = b.page.pillState := by
      show (if 0 < b.page.micPending then _ else b).page.pillState = _
      split <;> rfl
    exact absurd (hp ▸ hd) hne
  | speechResult transcript now ct =>
    have hstep : step b (.speechResult transcript now ct) =
        (if 0 < b.page.recognitions then recognitionResult transcript now ct b else b) := rfl
    rw [hstep] at hd
    split at hd
    · simp only [recognitionResult] at hd
      have h := LockMove.pill _ _ (translateText_move now ct _) hd
      exact (hne h).elim
    · exact absurd hd hne
  | speechError =>
    have hp : (step b .speechError).page.pillState = b.page.pillState := by
      show (if 0 < b.page.recognitions then _ else b).page.pillState = _
      split <;> rfl
    exact absurd (hp ▸ hd) hne
  | speechEnd =>
    have hp : (step b .speechEnd).page.pillState = b.page.pillState := by
      show (if 0 < b.page.recognitions then _ else b).page.pillState = _
      split
      · show (recognitionEnd b.page).pillState = _
        unfold recognitionEnd
        simp only
        split <;> rfl
      · rfl
    exact absurd (hp ▸ hd) hne

/-- Claim C8, amended. When the pill is in `result` with a session in flight whose open
connection is recorded in `state.activeEventSource`, a dismissal (click outside or on
the overlay, which calls `setIslandState('default')`) moves the pill state to `default`,
closes the connection of the session and releases the lock with the submit control
re-enabled, whatever the session has received so far, also nothing; the language button
(`setIslandState('language')`) moves the pill state to `language` and leaves the
sessions, the lock and the recorded connection as they were. The stream is cancelled
when the pill later returns to `default`: in every state `b` whose pill state is not
`default` and in which a stream with an open connection is still recorded as active,
every event that moves the pill state to `default` closes that connection and releases
the lock with the submit control re-enabled. -/
theorem leaving_result_cancels_on_default (a : App) (i : Nat) (s : Session)
    (hp : a.page.pillState = "result")
    (hl : a.page.isTranslating = true) (ha : a.page.activeEventSource = some i)
    (hs : a.sessions[i]? = some s) (ho : s.esOpen = true) :
    ((step a .dismiss).page.pillState = "default" ∧
      (step a .dismiss).sessions[i]? = some { s with esOpen := false } ∧
      openConnections (step a .dismiss) + 1 = openConnections a ∧
      (step a .dismiss).page.isTranslating = false ∧
      (step a .dismiss).page.activeEventSource = none ∧
      (step a .dismiss).page.runBtnDisabled = false) ∧
    ((step a .langButton).page.pillState = "language" ∧
      (step a .langButton).sessions = a.sessions ∧
      (step a .langButton).page.isTranslating = true ∧
      (step a .langButton).page.activeEventSource = some i) ∧
    (∀ (b : App) (e : Event) (j : Nat) (t : Session),
      b.page.pillState ≠ "default" → b.page.isTranslating = true →
      b.page.activeEventSource = some j → b.sessions[j]? = some t → t.esOpen = true →
      (step b e).page.pillState = "default" →
        (step b e).sessions[j]? = some { t with esOpen := false } ∧
        openConnections (step b e) + 1 = openConnections b ∧
        (step b e).page.isTranslating = false ∧
        (step b e).page.activeEventSource = none ∧
        (step b e).page.runBtnDisabled = false) := by
  have hne : a.page.pillState ≠ "default" := by rw [hp]; decide
  have hstep : step a .dismiss = setIslandState "default" a := by
    show dismissClick a = _
    unfold dismissClick
    simp only [hne, if_false]
  have hlang : step a .langButton = setIslandState "language" a := rfl
  refine ⟨?_, ?_, ?_⟩
  · rw [hstep, setIslandState_default_active a i hl ha]
    exact ⟨rfl, closeConn_getElem _ i s hs, closeConn_open_count _ i s hs ho, rfl, rfl, rfl⟩
  · rw [hlang, setIslandState_language]
    exact ⟨rfl, rfl, hl, ha⟩
  · intro b e j t hb hbl hba hbs hbo hd
    obtain ⟨b0, h1, h2, h3, h4⟩ := step_to_default b e hb hd
    rw [h4, setIslandState_default_active b0 j (h2.trans hbl) (h3.trans hba)]
    have hbs0 : b0.sessions[j]? = some t := by rw [h1]; exact hbs
    refine ⟨closeConn_getElem _ j t hbs0, ?_, rfl, rfl, rfl⟩
    have hc := closeConn_open_count _ j t hbs0 hbo
    unfold openConnections
    rw [← h1]
    exact hc

/-- Witness of C8 (amended): a click outside while `hello world` is in flight and no
message has arrived; and the language button pressed instead, a language picked, and
the timer of the picker item that returns the pill to `default`. -/
theorem leaving_result_cancels_on_default_witness :
    inFlightExample.page.pillState = "result" ∧
    inFlightExample.page.isTranslating = true ∧
    inFlightExample.page.activeEventSource = some 0 ∧
    inFlightExample.sessions.map (fun s => (s.esOpen, s.fullTranslation)) = [(true, "")] ∧
    (step inFlightExample .dismiss).page.isTranslating = false ∧
    (run inFlightExample [.langButton, .timeline 0, .langItem "fr"]).page.pillState
      = "language" ∧
    (run inFlightExample [.langButton, .timeline 0, .langItem "fr"]).page.isTranslating
      = true ∧
    (step (run inFlightExample [.langButton, .timeline 0, .langItem "fr"])
      (.timeline 0)).page.pillState = "default" ∧
    (step (run inFlightExample [.langButton, .timeline 0, .langItem "fr"])
      (.timeline 0)).page.isTranslating = false ∧
    openConnections (step (run inFlightExample [.langButton, .timeline 0, .langItem "fr"])
      (.timeline 0)) = 0 :=
  ⟨by decide, by decide, by decide, by decide,
    (leaving_result_cancels_on_default inFlightExample 0 _ (by decide) (by decide) (by decide)
      rfl (by decide)).1.2.2.2.1,
    by decide, by decide, by decide,
    ((leaving_result_cancels_on_default inFlightExample 0 _ (by decide) (by decide)
      (by decide) rfl (by decide)).2.2
      (run inFlightExample [.langButton, .timeline 0, .langItem "fr"]) (.timeline 0) 0 _
      (by decide) (by decide) (by decide) rfl (by decide) (by decide)).2.2.1,
    by decide⟩

/-! ## The reveal timer of a dismissed session -/

/-- Claim C12 at a dismissed session: `uno` is submitted, the token `a b` arrives and
one word is revealed; the pill is dismissed, which ends the session (connection closed)
but leaves its reveal timer running with `b` queued; `dos` is submitted. The next tick
of the first session writes `a b` into the pill of `dos`, and the tick after it, with an
empty queue in a session that has ended, does not stop the timer: it changes nothing,
because the lock it tests is held by the second session. -/
theorem stale_reveal_timer_keeps_running :
    beforeStaleReveal.sessions.map
      (fun s => (s.esOpen, s.pendingWords, s.displayedText, s.intervalRunning))
      = [(false, ["b"], "a", true), (true, [], "", false)] ∧
    beforeStaleReveal.page.isTranslating = true ∧
    beforeStaleReveal.page.activeEventSource = some 1 ∧
    (beforeStaleReveal.page.pillInputHeader, beforeStaleReveal.page.pillResultContent)
      = ("dos", "") ∧
    ((step beforeStaleReveal (.tick 0)).page.pillInputHeader,
      (step beforeStaleReveal (.tick 0)).page.pillResultContent) = ("dos", "a b") ∧
    (step beforeStaleReveal (.tick 0)).sessions.map
      (fun s => (s.esOpen, s.pendingWords, s.intervalRunning))
      = [(false, [], true), (true, [], false)] ∧
    step (step beforeStaleReveal (.tick 0)) (.tick 0) = step beforeStaleReveal (.tick 0) := by
  decide

/-! ## Decoding the query values -/

theorem char_toNat_valid (c : Char) :
    c.toNat < 0xD800 ∨ (0xDFFF < c.toNat ∧ c.toNat < 0x110000) := by
  have := c.valid
  simp only [UInt32.isValidChar, Nat.isValidChar] at this
  exact this

theorem hexValue_hexDigit (n : Nat) (h : n < 16) : hexValue (hexDigit n) = some n := by
  interval_cases n <;> decide

theorem utf8DecodeOne_utf8Bytes (c : Char) (rest : List Nat) :
    utf8DecodeOne (utf8Bytes c ++ rest) = some (c.toNat, rest) := by
  have hv := char_toNat_valid c
  unfold utf8Bytes
  simp only
  generalize c.toNat = n at hv ⊢
  by_cases h1 : n < 0x80
  · simp only [h1, if_true, List.singleton_append, utf8DecodeOne]
  by_cases h2 : n < 0x800
  · have e0 : ¬ (0xC0 + n / 64 < 0x80) := by omega
    have e1 : ¬ (0xC0 + n / 64 < 0xC0) := by omega
    have e2 : 0xC0 + n / 64 < 0xE0 := by omega
    have c1 : isContinuation (0x80 + n % 64) = true := by
      unfold isContinuation
      simp only [Bool.and_eq_true, decide_eq_true_eq]
      omega
    have hn : (0xC0 + n / 64 - 0xC0) * 64 + (0x80 + n % 64 - 0x80) = n := by omega
    simp only [h1, h2, if_true, if_false, List.cons_append, List.nil_append, utf8DecodeOne,
      e0, e1, e2, c1, hn, Bool.true_and]
    have : decide (0x80 ≤ n) = true := by simp only [decide_eq_true_eq]; omega
    simp only [this, if_true]
  by_cases h3 : n < 0x10000
  · have e0 : ¬ (0xE0 + n / 4096 < 0x80) := by omega
    have e1 : ¬ (0xE0 + n / 4096 < 0xC0) := by omega
    have e2 : ¬ (0xE0 + n / 4096 < 0xE0) := by omega
    have e3 : 0xE0 + n / 4096 < 0xF0 := by omega
    have c1 : isContinuation (0x80 + n / 64 % 64) = true := by
      unfold isContinuation
      simp only [Bool.and_eq_true, decide_eq_true_eq]
      omega
    have c2 : isContinuation (0x80 + n % 64) = true := by
      unfold isContinuation
      simp only [Bool.and_eq_true, decide_eq_true_eq]
      omega
    have hn : (0xE0 + n / 4096 - 0xE0) * 4096 + (0x80 + n / 64 % 64 - 0x80) * 64 +
        (0x80 + n % 64 - 0x80) = n := by omega
    have g1 : decide (0x800 ≤ n) = true := by simp only [decide_eq_true_eq]; omega
    have g2 : (decide (0xD800 ≤ n) && decide (n ≤ 0xDFFF)) = false := by
      simp only [Bool.and_eq_false_iff, decide_eq_false_iff_not]
      omega
    simp only [h1, h2, h3, if_true, if_false, List.cons_append, List.nil_append,
      utf8DecodeOne, e0, e1, e2, e3, c1, c2, hn, g1, g2, Bool.true_and, Bool.not_false]
  · have e0 : ¬ (0xF0 + n / 262144 < 0x80) := by omega
    have e1 : ¬ (0xF0 + n / 262144 < 0xC0) := by omega
    have e2 : ¬ (0xF0 + n / 262144 < 0xE0) := by omega
    have e3 : ¬ (0xF0 + n / 262144 < 0xF0) := by omega
    have e4 : 0xF0 + n / 262144 < 0xF8 := by omega
    have c1 : isContinuation (0x80 + n / 4096 % 64) = true := by
      unfold isContinuation
      simp only [Bool.and_eq_true, decide_eq_true_eq]
      omega
    have c2 : isContinuation (0x80 + n / 64 % 64) = true := by
      unfold isContinuation
      simp only [Bool.and_eq_true, decide_eq_true_eq]
      omega
    have c3 : isContinuation (0x80 + n % 64) = true := by
      unfold isContinuation
      simp only [Bool.and_eq_true, decide_eq_true_eq]
      omega
    have hn : (0xF0 + n / 262144 - 0xF0) * 262144 + (0x80 + n / 4096 % 64 - 0x80) * 4096 +
        (0x80 + n / 64 % 64 - 0x80) * 64 + (0x80 + n % 64 - 0x80) = n := by omega
    have g1 : decide (0x10000 ≤ n) = true := by simp only [decide_eq_true_eq]; omega
    have g2 : decide (n < 0x110000) = true := by simp only [decide_eq_true_eq]; omega
    simp only [h1, h2, h3, if_true, if_false, List.cons_append, List.nil_append,
      utf8DecodeOne, e0, e1, e2, e3, e4, c1, c2, c3, hn, g1, g2, Bool.true_and]

theorem utf8Bytes_ne_nil (c : Char) : utf8Bytes c ≠ [] := by
  unfold utf8Bytes
  simp only
  split
  · simp
  · split
    · simp
    · split <;> simp

theorem utf8DecodeAux_utf8Bytes (cs : List Char) (fuel : Nat) (h : cs.length ≤ fuel) :
    utf8DecodeAux fuel (cs.flatMap utf8Bytes) = some (cs.map Char.toNat) := by
  induction cs generalizing fuel with
  | nil => cases fuel <;> rfl
  | cons c rest ih =>
    cases fuel with
    | zero => simp at h
    | succ fuel =>
      have hne : (utf8Bytes c ++ rest.flatMap utf8Bytes).isEmpty = false := by
        cases hb : utf8Bytes c with
        | nil => exact absurd hb (utf8Bytes_ne_nil c)
        | cons b bs => rfl
      rw [List.flatMap_cons]
      unfold utf8DecodeAux
      simp only [hne, Bool.false_eq_true, if_false, utf8DecodeOne_utf8Bytes]
      rw [ih fuel (by simpa using h)]
      rfl

theorem length_le_flatMap_utf8Bytes (cs : List Char) :
    cs.length ≤ (cs.flatMap utf8Bytes).length := by
  induction cs with
  | nil => simp
  | cons c rest ih =>
    rw [List.flatMap_cons, List.length_append, List.length_cons]
    have : 1 ≤ (utf8Bytes c).length := by
      cases hb : utf8Bytes c with
      | nil => exact absurd hb (utf8Bytes_ne_nil c)
      | cons b bs => simp
    omega

theorem utf8Decode_utf8Bytes (cs : List Char) :
    utf8Decode (cs.flatMap utf8Bytes) = some (cs.map Char.toNat) :=
  utf8DecodeAux_utf8Bytes cs _ (length_le_flatMap_utf8Bytes cs)

theorem percentDecode_escapes (bs : List Nat) (hbs : ∀ b ∈ bs, b < 256) (rest : List Char)
    (out : List Nat) (hrest : percentDecode rest = some out) :
    percentDecode (bs.flatMap percentByte ++ rest) = some (bs ++ out) := by
  induction bs with
  | nil => simpa using hrest
  | cons b bs ih =>
    have hb : b < 256 := hbs b (List.mem_cons_self _ _)
    have ih2 := ih (fun x hx => hbs x (List.mem_cons_of_mem _ hx))
    have h1 := hexValue_hexDigit (b / 16) (by omega)
    have h2 := hexValue_hexDigit (b % 16) (by omega)
    have hb2 : 16 * (b / 16) + b % 16 = b := by omega
    rw [List.flatMap_cons]
    simp only [percentByte, List.cons_append, List.nil_append, List.append_assoc]
    unfold percentDecode
    simp only [if_true, h1, h2, ih2, hb2]

theorem unreserved_ascii (c : Char) (h : isUriUnreserved c = true) :
    c ≠ '%' ∧ c.toNat < 128 := by
  constructor
  · intro hc
    subst hc
    revert h
    decide
  · unfold isUriUnreserved at h
    simp only [Bool.or_eq_true, Bool.and_eq_true, decide_eq_true_eq, beq_iff_eq] at h
    omega

theorem percentDecode_encoded (cs : List Char) :
    percentDecode (cs.flatMap (fun c =>
      if isUriUnreserved c then [c] else (utf8Bytes c).flatMap percentByte)) =
      some (cs.flatMap utf8Bytes) := by
  induction cs with
  | nil => rfl
  | cons c rest ih =>
    rw [List.flatMap_cons, List.flatMap_cons]
    by_cases hu : isUriUnreserved c = true
    · obtain ⟨hp, hlt⟩ := unreserved_ascii c hu
      have hbytes : utf8Bytes c = [c.toNat] := by
        unfold utf8Bytes
        simp only [hlt, if_true]
      simp only [hu, if_true, List.singleton_append, hbytes]
      unfold percentDecode
      simp only [hp, if_false, hlt, if_true, ih, Option.map_some']
    · simp only [hu, Bool.false_eq_true, if_false]
      exact percentDecode_escapes _ (fun b hb => utf8Bytes_lt c b hb) _ _ ih

/-- The output of `encodeURIComponent` decodes back to the code points of its input. -/
theorem decodeURIComponent_encodeURIComponent (t : String) :
    decodeURIComponent (encodeURIComponent t) = some (t.toList.map Char.toNat) := by
  unfold decodeURIComponent encodeURIComponent
  show (percentDecode (t.toList.flatMap _)).bind utf8Decode = _
  rw [percentDecode_encoded]
  exact utf8Decode_utf8Bytes _

theorem map_toNat_injective (l1 l2 : List Char) (h : l1.map Char.toNat = l2.map Char.toNat) :
    l1 = l2 := by
  have h2 := congrArg (List.map Char.ofNat) h
  simpa [List.map_map, Function.comp_def] using h2

/-! ## The stream URL -/

/-- Claim C15, as stated, fails for an `apiBase` that holds a query. The value
`http://h/?x=1` of the `api` parameter is returned unchecked by `getApiBase`; with it,
submitting `hello` opens a URL whose query has the parameters `x`, `source_lang` and
`target_lang`: there is no parameter `text`. -/
theorem api_base_with_query_drops_text_parameter :
    (getApiBase (some "http://h/?x=1") []).1 = "http://h/?x=1" ∧
    (translateText 0 false (step (init "http://h/?x=1") (.setInput "hello"))).sessions.map
      (fun s => s.streamUrl)
      = ["http://h/?x=1/api/translate-stream?text=hello&source_lang=auto&target_lang=es"] ∧
    (translateText 0 false (step (init "http://h/?x=1") (.setInput "hello"))).sessions.map
      (fun s => queryParameters s.streamUrl)
      = [[("x", "1/api/translate-stream?text=hello"), ("source_lang", "auto"),
          ("target_lang", "es")]] := by
  decide

/-- Claim C15, amended. For a non-blank text submitted while no session is in flight,
with target language `langSelect`, the URL of the connection that `translateText` opens
is `apiBase` followed by `/api/translate-stream?text=`, the URI-component encoding of the
trimmed text, `&source_lang=auto&target_lang=` and the encoding of the language. With an
`apiBase` that holds no `?` and no `#` the query of that URL has exactly the three
parameters `text`, `source_lang` (always `auto`) and `target_lang`, in this order, whose
values are the two encodings as written and decode back (percent-decoding, then strict
UTF-8 decoding) to the code points of the trimmed text and of the language. For every
text, no character of its encoding is `&`, `=`, `#`, `?`, a space, `+` or `/`, the
encoding decodes back to the text, and two different texts have different encodings. -/
theorem stream_url_has_three_parameters (now : Nat) (a : App)
    (htext : jsTrim a.page.inputValue ≠ "") (hfree : a.page.isTranslating = false)
    (hbase : ∀ c ∈ a.page.apiBase.toList, c ≠ '?' ∧ c ≠ '#') :
    (∃ s, (translateText now false a).sessions = a.sessions ++ [s] ∧
      s.streamUrl = a.page.apiBase ++ "/api/translate-stream?text=" ++
        encodeURIComponent (jsTrim a.page.inputValue) ++
        "&source_lang=auto&target_lang=" ++ encodeURIComponent a.page.langSelect ∧
      queryParameters s.streamUrl =
        [("text", encodeURIComponent (jsTrim a.page.inputValue)), ("source_lang", "auto"),
         ("target_lang", encodeURIComponent a.page.langSelect)] ∧
      (queryParameters s.streamUrl).map (fun kv => (kv.1, decodeURIComponent kv.2)) =
        [("text", some ((jsTrim a.page.inputValue).toList.map Char.toNat)),
         ("source_lang", some ("auto".toList.map Char.toNat)),
         ("target_lang", some (a.page.langSelect.toList.map Char.toNat))]) ∧
    (∀ t : String, ∀ c ∈ (encodeURIComponent t).toList,
      c ≠ '&' ∧ c ≠ '=' ∧ c ≠ '#' ∧ c ≠ '?' ∧ c ≠ ' ' ∧ c ≠ '+' ∧ c ≠ '/') ∧
    (∀ t : String, decodeURIComponent (encodeURIComponent t) = some (t.toList.map Char.toNat)) ∧
    (∀ t1 t2 : String, encodeURIComponent t1 = encodeURIComponent t2 → t1 = t2) := by
  refine ⟨?_, ?_, decodeURIComponent_encodeURIComponent, ?_⟩
  · refine ⟨_, translateText_sessions now a htext hfree, rfl,
      queryParameters_streamUrl _ _ _ hbase, ?_⟩
    rw [queryParameters_streamUrl _ _ _ hbase]
    simp only [List.map_cons, List.map_nil, decodeURIComponent_encodeURIComponent]
    have hauto : decodeURIComponent "auto" = some ("auto".toList.map Char.toNat) := by decide
    rw [hauto]
  · intro t c hc
    exact ⟨encoded_not_separator t '&' (by decide) (by decide) c hc,
      encoded_not_separator t '=' (by decide) (by decide) c hc,
      encoded_not_separator t '#' (by decide) (by decide) c hc,
      encoded_not_separator t '?' (by decide) (by decide) c hc,
      encoded_not_separator t ' ' (by decide) (by decide) c hc,
      encoded_not_separator t '+' (by decide) (by decide) c hc,
      encoded_not_separator t '/' (by decide) (by decide) c hc⟩
  · intro t1 t2 h
    have h1 := decodeURIComponent_encodeURIComponent t1
    rw [h, decodeURIComponent_encodeURIComponent t2] at h1
    have h2 := map_toNat_injective _ _ (Option.some.inj h1)
    exact (String.ext h2).symm

/-- Witness of C15 (amended): the text `¿Qué tal? &x=😀` submitted on the freshly loaded
page, with characters of one to four UTF-8 bytes. -/
theorem stream_url_has_three_parameters_witness :
    jsTrim (step (init "http://localhost:8000")
      (.setInput " ¿Qué tal? &x=😀 ")).page.inputValue = "¿Qué tal? &x=😀" ∧
    encodeURIComponent "¿Qué tal? &x=😀" = "%C2%BFQu%C3%A9%20tal%3F%20%26x%3D%F0%9F%98%80" ∧
    encodeURIComponent "€-_.!~*()" = "%E2%82%AC-_.!~*()" ∧
    ∃ s, (translateText 0 false
        (step (init "http://localhost:8000") (.setInput " ¿Qué tal? &x=😀 "))).sessions
          = [] ++ [s] ∧
      s.streamUrl = "http://localhost:8000" ++ "/api/translate-stream?text=" ++
        encodeURIComponent (jsTrim " ¿Qué tal? &x=😀 ") ++
        "&source_lang=auto&target_lang=" ++ encodeURIComponent "es" ∧
      queryParameters s.streamUrl =
        [("text", encodeURIComponent (jsTrim " ¿Qué tal? &x=😀 ")), ("source_lang", "auto"),
         ("target_lang", encodeURIComponent "es")] ∧
      (queryParameters s.streamUrl).map (fun kv => (kv.1, decodeURIComponent kv.2)) =
        [("text", some ((jsTrim " ¿Qué tal? &x=😀 ").toList.map Char.toNat)),
         ("source_lang", some ("auto".toList.map Char.toNat)),
         ("target_lang", some ("es".toList.map Char.toNat))] :=
  ⟨by decide, by decide, by decide,
    (stream_url_has_three_parameters 0
      (step (init "http://localhost:8000") (.setInput " ¿Qué tal? &x=😀 "))
      (by decide) (by decide) (by decide)).1⟩

end Paraos
